import Mathlib

/-!
# libA9: the AT-command engine of an A9 cellular modem driver

A shallow embedding of `src/libA9.cpp` / `src/libA9.h`.

* Bytes (`char`) are natural numbers below 256; a C string is the list of its bytes
  before the terminating NUL.
* The serial link and the millisecond clock form a `World`: the inbound bytes are a
  schedule of `(arrival time in ms, byte)` pairs in arrival order, the clock only moves
  when the code blocks (`vTaskDelay`, a blocking `uart_read_bytes`); computation between
  two blocking calls takes no measurable time.
* Fixed-size `char` arrays are lists of that length, written with `List.set`; the
  hypothesis `receive_buffer.length = A9_UART_RX_BUFFER_SIZE` states the array's size.
* The polling loop of `wait_for_pattern` takes an iteration budget; `wait_for_pattern`
  supplies a budget that is shown to suffice.
-/

namespace A9

/-! ## Constants of `libA9.h` and of the platform -/

/-- `#define A9_UART_RX_BUFFER_SIZE 2048` -/
def A9_UART_RX_BUFFER_SIZE : Nat := 2048

/-- `#define A9_HTTP_BUFFER_SIZE 2048` -/
def A9_HTTP_BUFFER_SIZE : Nat := 2048

/-- FreeRTOS tick period in ms (ESP-IDF default `CONFIG_FREERTOS_HZ=100`). -/
def portTICK_PERIOD_MS : Nat := 10

/-- Bytes of a string literal. -/
def bytes (s : String) : List Nat := s.toList.map Char.toNat

/-! ## C string helpers (`<string.h>`) -/

/-- The C string stored at the start of a `char` array: the bytes before the first NUL. -/
def cstr (mem : List Nat) : List Nat := mem.takeWhile (fun c => c != 0)

/-- `strstr(haystack, needle)`: offset of the first occurrence of `needle`, `none` for `NULL`. -/
def strstr : List Nat → List Nat → Option Nat
  | [], needle => if needle = [] then some 0 else none
  | c :: hay, needle =>
      if needle.isPrefixOf (c :: hay) then some 0
      else (strstr hay needle).map (fun i => i + 1)

/-! ## The transport and the clock -/

/-- The hardware seen by the driver: clock, UART receive schedule, bytes written, power pin. -/
structure World where
  /-- `esp_timer_get_time()/1000`: milliseconds since boot -/
  now : Nat
  /-- inbound bytes not yet read: `(arrival time in ms, byte)`, oldest first -/
  rx : List (Nat × Nat)
  /-- all bytes written to the modem so far -/
  tx : List Nat
  /-- last level driven on the power-enable pin, if any -/
  gpio : Option Bool
deriving DecidableEq, Repr

/-- `A9::millis()`: the clock truncated to `uint32_t`. -/
def millis (w : World) : Nat := w.now % 2 ^ 32

/-- `vTaskDelay(ticks)`: block for `ticks` tick periods. -/
def vTaskDelay (ticks : Nat) (w : World) : World :=
  { w with now := w.now + ticks * portTICK_PERIOD_MS }

/-- `uart_read_bytes(uart, buf, length, ticks)`: block until `length` bytes are there or the
timeout has passed; returns the bytes read and the world afterwards. -/
def uart_read_bytes (w : World) (length ticks : Nat) : List Nat × World :=
  let deadline := w.now + ticks * portTICK_PERIOD_MS
  let got := (w.rx.takeWhile (fun p => decide (p.1 ≤ deadline))).take length
  let t := if got.length = length then (got.map Prod.fst).foldl max w.now else deadline
  (got.map Prod.snd, { w with now := t, rx := w.rx.drop got.length })

/-- `uart_flush_input`: discard the bytes that have arrived and were not read. -/
def uart_flush_input (w : World) : World :=
  { w with rx := w.rx.dropWhile (fun p => decide (p.1 ≤ w.now)) }

/-- `uart_write_bytes`. -/
def uart_write_bytes (w : World) (data : List Nat) : World :=
  { w with tx := w.tx ++ data }

/-- `A9::check_incoming_byte()`: is a received byte buffered? -/
def check_incoming_byte (w : World) : Bool :=
  match w.rx with
  | [] => false
  | p :: _ => decide (p.1 ≤ w.now)

/-- `A9::read_incoming_byte()`: `uart_read_bytes(UART_NUM_1, &byte, 1, 10)` into `byte = 0`. -/
def read_incoming_byte (w : World) : Nat × World :=
  ((uart_read_bytes w 1 10).1.headD 0, (uart_read_bytes w 1 10).2)

/-- `A9::send_to_serial(str)`: `uint16_t len = strlen(str); uart_write_bytes(.., str, len)`. -/
def send_to_serial (w : World) (str : List Nat) : World :=
  uart_write_bytes w (str.take (str.length % 2 ^ 16))

/-- `A9::flush_serial()`. -/
def flush_serial (w : World) : World := uart_flush_input w

/-! ## Line assembler / pattern matcher -/

/-- Result of the polling loop. `ret = none` means the iteration budget ran out while the loop
was still running; `writes` logs the buffer indices written, latest first. -/
structure Wait where
  ret : Option Int
  receive_buffer : List Nat
  /-- value of the local `cursor` when the loop stopped -/
  cursor : Nat
  world : World
  writes : List Nat
deriving DecidableEq, Repr

/-- The `while` loop of `A9::wait_for_pattern` (lines 377-412), one iteration per unit of budget. -/
def wait_loop (pattern : List Nat) (timeout_ms start_time : Nat) :
    Nat → List Nat → Nat → World → List Nat → Wait
  | 0, buf, cursor, w, log => ⟨none, buf, cursor, w, log⟩
  | fuel + 1, buf, cursor, w, log =>
    if (millis w + 2 ^ 32 - start_time) % 2 ^ 32 < timeout_ms then
      if check_incoming_byte w then
        let tmp := (read_incoming_byte w).1
        let w1 := (read_incoming_byte w).2
        let buf1 := buf.set cursor tmp
        let cursor1 := if cursor < A9_UART_RX_BUFFER_SIZE - 2 then cursor + 1 else cursor
        if tmp = 10 then
          let buf2 := buf1.set cursor1 0
          if (strstr (cstr buf2) pattern).isSome then
            ⟨some 0, buf2, 0, w1, cursor1 :: cursor :: log⟩
          else
            wait_loop pattern timeout_ms start_time fuel buf2 0 w1 (cursor1 :: cursor :: log)
        else
          wait_loop pattern timeout_ms start_time fuel buf1 cursor1 w1 (cursor :: log)
      else
        wait_loop pattern timeout_ms start_time fuel buf cursor
          (vTaskDelay (20 / portTICK_PERIOD_MS) w) log
    else
      ⟨some (-1), buf, cursor, w, log⟩

/-- Iterations that always suffice: one per pending byte, one per 20 ms poll, one to leave. -/
def wait_budget (w : World) (timeout_ms : Nat) : Nat :=
  w.rx.length + timeout_ms / 20 + 2

/-- `A9::wait_for_pattern(pattern, timeout_ms)` on the object's `receive_buffer`, stopped after
at most `n` iterations of its loop. -/
def wait_for_pattern_upto (n : Nat) (receive_buffer : List Nat) (w : World)
    (pattern : List Nat) (timeout_ms : Nat) : Wait :=
  wait_loop pattern timeout_ms (millis w) n (receive_buffer.set 0 0) 0 w [0]

/-- `A9::wait_for_pattern(pattern, timeout_ms)` on the object's `receive_buffer`. -/
def wait_for_pattern (receive_buffer : List Nat) (w : World) (pattern : List Nat)
    (timeout_ms : Nat) : Wait :=
  wait_for_pattern_upto (wait_budget w timeout_ms) receive_buffer w pattern timeout_ms

/-- `A9::get_received_line()`: the C string in `receive_buffer`. -/
def get_received_line (receive_buffer : List Nat) : List Nat := cstr receive_buffer

/-! ## `sscanf` (`<stdio.h>`), for the directives the driver uses -/

/-- `isspace` in the C locale. -/
def isspace (c : Nat) : Bool := c == 32 || (decide (9 ≤ c) && decide (c ≤ 13))

/-- `isdigit`. -/
def isdigit (c : Nat) : Bool := decide (48 ≤ c) && decide (c ≤ 57)

/-- One directive of a `scanf` format. -/
inductive Directive where
  /-- an ordinary character, matched literally -/
  | lit (c : Nat)
  /-- white space in the format: skips any white space of the input -/
  | space
  /-- `%d`, `%hhd` (`assign = true`) or `%*d` (`assign = false`) -/
  | int (assign : Bool)
  /-- `%*s`: a non-empty run of non-space characters, discarded -/
  | skipstr
deriving DecidableEq, Repr

/-- Reads a format string into directives. Only what the driver's formats use is known:
`%d`, `%hhd`, `%*d`, `%*s`, white space and ordinary characters. -/
def parse_format : List Char → List Directive
  | [] => []
  | '%' :: 'd' :: f => Directive.int true :: parse_format f
  | '%' :: 'h' :: 'h' :: 'd' :: f => Directive.int true :: parse_format f
  | '%' :: '*' :: 'd' :: f => Directive.int false :: parse_format f
  | '%' :: '*' :: 's' :: f => Directive.skipstr :: parse_format f
  | c :: f =>
    if isspace c.toNat then Directive.space :: parse_format f
    else Directive.lit c.toNat :: parse_format f

/-- The decimal digits at the start of the input, accumulated onto `acc`, and the rest. -/
def scan_digits : List Nat → Nat → Nat × List Nat
  | [], acc => (acc, [])
  | c :: cs, acc =>
    if isdigit c then scan_digits cs (acc * 10 + (c - 48)) else (acc, c :: cs)

/-- The integer conversion of `scanf`: skip white space, an optional sign, then at least one
digit. `none` is a matching failure. -/
def scan_int (s : List Nat) : Option (Int × List Nat) :=
  match s.dropWhile isspace with
  | [] => none
  | c :: cs =>
    if c = 45 then
      match cs with
      | [] => none
      | d :: ds =>
        if isdigit d then
          some (-((scan_digits (d :: ds) 0).1 : Int), (scan_digits (d :: ds) 0).2)
        else none
    else if c = 43 then
      match cs with
      | [] => none
      | d :: ds =>
        if isdigit d then
          some (((scan_digits (d :: ds) 0).1 : Int), (scan_digits (d :: ds) 0).2)
        else none
    else if isdigit c then
      some (((scan_digits (c :: cs) 0).1 : Int), (scan_digits (c :: cs) 0).2)
    else none

/-- Runs the directives over the input; returns the values assigned so far, in order. The scan
stops at the first directive that fails. -/
def sscanf_run : List Directive → List Nat → List Int → List Int
  | [], _, acc => acc
  | Directive.lit c :: fmt, s, acc =>
    match s with
    | [] => acc
    | x :: rest => if x = c then sscanf_run fmt rest acc else acc
  | Directive.space :: fmt, s, acc => sscanf_run fmt (s.dropWhile isspace) acc
  | Directive.int assign :: fmt, s, acc =>
    match scan_int s with
    | none => acc
    | some r => sscanf_run fmt r.2 (if assign then acc ++ [r.1] else acc)
  | Directive.skipstr :: fmt, s, acc =>
    if ((s.dropWhile isspace).takeWhile (fun c => !isspace c)) = [] then acc
    else sscanf_run fmt
      ((s.dropWhile isspace).dropWhile (fun c => !isspace c)) acc

/-- `sscanf(str, format, ...)` on a C string: the values assigned to the arguments, in order;
the return value of `sscanf` is their number when at least one was assigned. -/
def sscanf (str : List Nat) (format : String) : List Int :=
  sscanf_run (parse_format format.toList) str []

/-- The value an `int` store through an `(int*)` cast leaves in a `uint16_t` (little endian). -/
def to_uint16 (v : Int) : Nat := (v % 65536).toNat

/-- The value an `int` store through an `(int*)` cast leaves in an `int8_t` (little endian),
and what `%hhd` stores reads back as when the target is signed. -/
def to_int8 (v : Int) : Int := if v % 256 < 128 then v % 256 else v % 256 - 256

/-- What `%hhd` leaves in a `uint8_t`. -/
def to_uint8 (v : Int) : Nat := (v % 256).toNat

/-- Conversion of a `uint16_t` to the `int16_t` return type. -/
def to_int16 (v : Nat) : Int := if v % 65536 < 32768 then (v % 65536 : Nat) else (v % 65536 : Nat) - 65536

/-! ## The driver object -/

/-- The data members of `class A9` that the operations read or write. Pointers into
`http_buffer` are offsets from its start. -/
structure State where
  APN : List Nat
  receive_buffer : List Nat
  http_buffer : List Nat
  http_response : Int
  sync_mcu_timestamp : Nat
  sync_unix_timestamp : Nat
  power_enable_pin : Int
  invert_pwr_en_pin : Int
deriving DecidableEq, Repr

/-- Result of a driver operation. `ret = none` means that the call has no defined result: a wait
ran out of iteration budget, or `sprintf` was asked to write past the end of its target array
(undefined behaviour in C; state and world are then not meaningful). -/
structure Outcome where
  ret : Option Int
  state : State
  world : World
deriving DecidableEq, Repr

/-- Writes `data` into a `char` array from index `i` on, byte by byte, as `sprintf` and
`uart_read_bytes` do. It is only used where `data` fits the array: the callers test the bound
first (`sprintf`) or read at most the array size (`uart_read_bytes`). -/
def poke : List Nat → Nat → List Nat → List Nat
  | buf, _, [] => buf
  | buf, i, d :: ds => poke (buf.set i d) (i + 1) ds

/-! ## HTTP exchange -/

/-- `A9::http_get(URL)`; `URL` is the memory the argument points to, read as a C string.
`response_code0` and `body_byte_count0` (taken mod `2^16`) are the indeterminate initial values
of the `uint16_t` locals `response_code` and `body_byte_count`, which `sscanf` leaves untouched
when it assigns nothing. When the command with its NUL does not fit `http_buffer`, `sprintf`
writes past the array (into `http_response` and the fields after it) and the call has no
defined result. -/
def http_get (s : State) (w : World) (URL : List Nat)
    (response_code0 body_byte_count0 : Nat) : Outcome :=
  if A9_HTTP_BUFFER_SIZE < (bytes "AT+HTTPGET=\"" ++ cstr URL ++ bytes "\"\r" ++ [0]).length then
    ⟨none, s, w⟩
  else
  let http_buffer1 := poke s.http_buffer 0
    (bytes "AT+HTTPGET=\"" ++ cstr URL ++ bytes "\"\r" ++ [0])
  let w1 := flush_serial w
  let w2 := send_to_serial w1 (cstr http_buffer1)
  let r := wait_for_pattern s.receive_buffer w2 (bytes "OK") 45000
  let s1 := { s with http_buffer := http_buffer1, receive_buffer := r.receive_buffer }
  match r.ret with
  | none => ⟨none, s1, r.world⟩
  | some stat =>
    if stat = -1 then
      ⟨some (-1), s1, r.world⟩
    else
      let w3 := vTaskDelay (250 / portTICK_PERIOD_MS) r.world
      let http_buffer2 := http_buffer1.set (A9_HTTP_BUFFER_SIZE - 1) 0
      let rd := uart_read_bytes w3 (A9_HTTP_BUFFER_SIZE - 1) (500 / portTICK_PERIOD_MS)
      let byte_count := rd.1.length
      let http_buffer3 := (poke http_buffer2 0 rd.1).set byte_count 0
      let s2 := { s1 with http_buffer := http_buffer3 }
      if byte_count ≥ A9_HTTP_BUFFER_SIZE - 1 then
        ⟨some (-2), s2, rd.2⟩
      else if byte_count ≤ 0 then
        ⟨some (-3), s2, rd.2⟩
      else
        match strstr (cstr http_buffer3) (bytes "HTTP") with
        | none => ⟨some (-4), s2, rd.2⟩
        | some response_code_index =>
          let response_code : Nat :=
            match sscanf ((cstr http_buffer3).drop response_code_index)
                "HTTP/%*d.%*d %d OK %*s" with
            | v :: _ => to_uint16 v
            | [] => response_code0 % 2 ^ 16
          if response_code ≠ 200 then
            ⟨some (to_int16 response_code), s2, rd.2⟩
          else
            match strstr (cstr http_buffer3) (bytes "Content-Length") with
            | none => ⟨some (-5), s2, rd.2⟩
            | some index =>
              let body_byte_count : Nat :=
                match sscanf ((cstr http_buffer3).drop index) "Content-Length: %d %*s" with
                | v :: _ => to_uint16 v
                | [] => body_byte_count0 % 2 ^ 16
              ⟨some 200,
                { s2 with http_response := (byte_count : Int) - (body_byte_count : Int) - 2 },
                rd.2⟩

/-- `A9::http_post(URL, body)`; see `http_get` for the arguments and for the bound. -/
def http_post (s : State) (w : World) (URL body : List Nat)
    (response_code0 body_byte_count0 : Nat) : Outcome :=
  if A9_HTTP_BUFFER_SIZE < (bytes "AT+HTTPPOST=\"" ++ cstr URL ++ bytes "\",\"text/plain\",\""
      ++ cstr body ++ bytes "\"\r" ++ [0]).length then
    ⟨none, s, w⟩
  else
  let http_buffer1 := poke s.http_buffer 0
    (bytes "AT+HTTPPOST=\"" ++ cstr URL ++ bytes "\",\"text/plain\",\"" ++ cstr body
      ++ bytes "\"\r" ++ [0])
  let w1 := flush_serial w
  let w2 := send_to_serial w1 (cstr http_buffer1)
  let r := wait_for_pattern s.receive_buffer w2 (bytes "OK") 45000
  let s1 := { s with http_buffer := http_buffer1, receive_buffer := r.receive_buffer }
  match r.ret with
  | none => ⟨none, s1, r.world⟩
  | some stat =>
    if stat = -1 then
      ⟨some (-1), s1, r.world⟩
    else
      let w3 := vTaskDelay (250 / portTICK_PERIOD_MS) r.world
      let http_buffer2 := http_buffer1.set (A9_HTTP_BUFFER_SIZE - 1) 0
      let rd := uart_read_bytes w3 (A9_HTTP_BUFFER_SIZE - 1) (500 / portTICK_PERIOD_MS)
      let byte_count := rd.1.length
      let http_buffer3 := (poke http_buffer2 0 rd.1).set byte_count 0
      let s2 := { s1 with http_buffer := http_buffer3 }
      if byte_count ≥ A9_HTTP_BUFFER_SIZE - 1 then
        ⟨some (-2), s2, rd.2⟩
      else if byte_count ≤ 0 then
        ⟨some (-3), s2, rd.2⟩
      else
        match strstr (cstr http_buffer3) (bytes "HTTP") with
        | none => ⟨some (-4), s2, rd.2⟩
        | some response_code_index =>
          let response_code : Nat :=
            match sscanf ((cstr http_buffer3).drop response_code_index)
                "HTTP/%*d.%*d %d OK %*s" with
            | v :: _ => to_uint16 v
            | [] => response_code0 % 2 ^ 16
          if response_code ≠ 200 then
            ⟨some (to_int16 response_code), s2, rd.2⟩
          else
            match strstr (cstr http_buffer3) (bytes "Content-Length") with
            | none => ⟨some (-5), s2, rd.2⟩
            | some index =>
              let body_byte_count : Nat :=
                match sscanf ((cstr http_buffer3).drop index) "Content-Length: %d %*s" with
                | v :: _ => to_uint16 v
                | [] => body_byte_count0 % 2 ^ 16
              ⟨some 200,
                { s2 with http_response := (byte_count : Int) - (body_byte_count : Int) - 2 },
                rd.2⟩

/-- The text common to `http_get` and `http_post`, with the command as a parameter. It is
not part of the driver: it serves to compare the two and to reason about them once. -/
def http_exchange (s : State) (w : World) (command : List Nat)
    (response_code0 body_byte_count0 : Nat) : Outcome :=
  if A9_HTTP_BUFFER_SIZE < (command ++ [0]).length then
    ⟨none, s, w⟩
  else
  let http_buffer1 := poke s.http_buffer 0 (command ++ [0])
  let w1 := flush_serial w
  let w2 := send_to_serial w1 (cstr http_buffer1)
  let r := wait_for_pattern s.receive_buffer w2 (bytes "OK") 45000
  let s1 := { s with http_buffer := http_buffer1, receive_buffer := r.receive_buffer }
  match r.ret with
  | none => ⟨none, s1, r.world⟩
  | some stat =>
    if stat = -1 then
      ⟨some (-1), s1, r.world⟩
    else
      let w3 := vTaskDelay (250 / portTICK_PERIOD_MS) r.world
      let http_buffer2 := http_buffer1.set (A9_HTTP_BUFFER_SIZE - 1) 0
      let rd := uart_read_bytes w3 (A9_HTTP_BUFFER_SIZE - 1) (500 / portTICK_PERIOD_MS)
      let byte_count := rd.1.length
      let http_buffer3 := (poke http_buffer2 0 rd.1).set byte_count 0
      let s2 := { s1 with http_buffer := http_buffer3 }
      if byte_count ≥ A9_HTTP_BUFFER_SIZE - 1 then
        ⟨some (-2), s2, rd.2⟩
      else if byte_count ≤ 0 then
        ⟨some (-3), s2, rd.2⟩
      else
        match strstr (cstr http_buffer3) (bytes "HTTP") with
        | none => ⟨some (-4), s2, rd.2⟩
        | some response_code_index =>
          let response_code : Nat :=
            match sscanf ((cstr http_buffer3).drop response_code_index)
                "HTTP/%*d.%*d %d OK %*s" with
            | v :: _ => to_uint16 v
            | [] => response_code0 % 2 ^ 16
          if response_code ≠ 200 then
            ⟨some (to_int16 response_code), s2, rd.2⟩
          else
            match strstr (cstr http_buffer3) (bytes "Content-Length") with
            | none => ⟨some (-5), s2, rd.2⟩
            | some index =>
              let body_byte_count : Nat :=
                match sscanf ((cstr http_buffer3).drop index) "Content-Length: %d %*s" with
                | v :: _ => to_uint16 v
                | [] => body_byte_count0 % 2 ^ 16
              ⟨some 200,
                { s2 with http_response := (byte_count : Int) - (body_byte_count : Int) - 2 },
                rd.2⟩

/-- The command text of `http_get`. -/
def http_get_command (URL : List Nat) : List Nat :=
  bytes "AT+HTTPGET=\"" ++ cstr URL ++ bytes "\"\r"

/-- The command text of `http_post`. -/
def http_post_command (URL body : List Nat) : List Nat :=
  bytes "AT+HTTPPOST=\"" ++ cstr URL ++ bytes "\",\"text/plain\",\"" ++ cstr body
    ++ bytes "\"\r"

/-- `A9::read_http_response()`: the C string at `http_response`, when that pointer lies inside
`http_buffer` (`none` otherwise: the read is outside the array). -/
def read_http_response (s : State) : Option (List Nat) :=
  if 0 ≤ s.http_response ∧ s.http_response < A9_HTTP_BUFFER_SIZE then
    some (cstr (s.http_buffer.drop s.http_response.toNat))
  else none

/-- The acknowledgment wait of `http_get`/`http_post`, seen apart from the bytes sent. -/
def http_ack (s : State) (w : World) : Wait :=
  wait_for_pattern s.receive_buffer (flush_serial w) (bytes "OK") 45000

/-- The raw bytes that the burst read of `http_get`/`http_post` puts into `http_buffer`. -/
def http_burst (s : State) (w : World) : List Nat :=
  (uart_read_bytes (vTaskDelay (250 / portTICK_PERIOD_MS) (http_ack s w).world)
    (A9_HTTP_BUFFER_SIZE - 1) (500 / portTICK_PERIOD_MS)).1

/-- The status the code reads after "HTTP" in the response blob (`response_code`), when the
blob contains "HTTP". -/
def http_status (blob : List Nat) (response_code0 : Nat) : Option Nat :=
  match strstr (cstr blob) (bytes "HTTP") with
  | none => none
  | some i =>
    match sscanf ((cstr blob).drop i) "HTTP/%*d.%*d %d OK %*s" with
    | v :: _ => some (to_uint16 v)
    | [] => some (response_code0 % 2 ^ 16)

/-- The body length the code reads after "Content-Length" in the response blob
(`body_byte_count`), when the blob contains "Content-Length". -/
def http_content_length (blob : List Nat) (body_byte_count0 : Nat) : Option Nat :=
  match strstr (cstr blob) (bytes "Content-Length") with
  | none => none
  | some i =>
    match sscanf ((cstr blob).drop i) "Content-Length: %d %*s" with
    | v :: _ => some (to_uint16 v)
    | [] => some (body_byte_count0 % 2 ^ 16)

/-- Lines 168-212 (and 238-282) as a function of the burst: the return code and, when it is
set, the new `http_response` offset. -/
def http_parse (blob : List Nat) (response_code0 body_byte_count0 : Nat) : Int × Option Int :=
  if blob.length ≥ A9_HTTP_BUFFER_SIZE - 1 then (-2, none)
  else if blob.length ≤ 0 then (-3, none)
  else
    match http_status blob response_code0 with
    | none => (-4, none)
    | some response_code =>
      if response_code ≠ 200 then (to_int16 response_code, none)
      else
        match http_content_length blob body_byte_count0 with
        | none => (-5, none)
        | some body_byte_count =>
          (200, some ((blob.length : Int) - (body_byte_count : Int) - 2))

/-- The return code of `http_get`/`http_post` in terms of the acknowledgment and the burst. -/
def http_ret (s : State) (w : World) (response_code0 body_byte_count0 : Nat) : Option Int :=
  match (http_ack s w).ret with
  | none => none
  | some stat =>
    if stat = -1 then some (-1)
    else some (http_parse (http_burst s w) response_code0 body_byte_count0).1

/-- The `http_response` offset after `http_get`/`http_post`. -/
def http_resp (s : State) (w : World) (response_code0 body_byte_count0 : Nat) : Int :=
  match (http_ack s w).ret with
  | none => s.http_response
  | some stat =>
    if stat = -1 then s.http_response
    else ((http_parse (http_burst s w) response_code0 body_byte_count0).2).getD s.http_response

/-- The fields of `struct tm` that `mktime` reads. -/
structure Tm where
  tm_sec : Int
  tm_min : Int
  tm_hour : Int
  tm_mday : Int
  tm_mon : Int
  tm_year : Int
deriving DecidableEq, Repr

/-- Days from 1970-01-01 to the day `d` of month `m` (1 to 12) of year `y` in the proleptic
Gregorian calendar. -/
def days_from_civil (y m d : Int) : Int :=
  let y1 := if m ≤ 2 then y - 1 else y
  let era := y1 / 400
  let yoe := y1 - era * 400
  let mp := (m + 9) % 12
  let doy := (153 * mp + 2) / 5 + d - 1
  let doe := yoe * 365 + yoe / 4 - yoe / 100 + doy
  era * 146097 + doe - 719468

/-- Seconds from the epoch to the given calendar date and time of day (UTC). -/
def unix_time (year month day hour minute second : Int) : Int :=
  days_from_civil year month day * 86400 + hour * 3600 + minute * 60 + second

/-- `mktime` of `<time.h>` with the time zone at its default, UTC: out-of-range fields are
carried over (months into years, then days, hours, minutes and seconds are added on). -/
def mktime (t : Tm) : Int :=
  let months := (t.tm_year + 1900) * 12 + t.tm_mon
  unix_time (months / 12) (months % 12 + 1) t.tm_mday t.tm_hour t.tm_min t.tm_sec

/-- `A9::get_gsm_time()`; the `uint32_t` result is in `ret`. -/
def get_gsm_time (s : State) (w : World) : Outcome :=
  if s.sync_unix_timestamp ≠ 0 then
    ⟨some ((((millis w + 2 ^ 32 - s.sync_mcu_timestamp) % 2 ^ 32 / 1000
      + s.sync_unix_timestamp) % 2 ^ 32 : Nat) : Int), s, w⟩
  else
    let w1 := flush_serial w
    let w2 := send_to_serial w1 (bytes "AT+CCLK?\r")
    let command_time := millis w2
    let r := wait_for_pattern s.receive_buffer w2 (bytes "+CCLK:") 5000
    let s1 := { s with receive_buffer := r.receive_buffer }
    match r.ret with
    | none => ⟨none, s1, r.world⟩
    | some stat =>
      if stat = -1 then
        ⟨some 0, s1, r.world⟩
      else
        let fields := sscanf (get_received_line s1.receive_buffer)
          "+CCLK: \"%hhd/%hhd/%hhd,%hhd:%hhd:%hhd%*s\""
        if fields.length ≠ 6 then
          ⟨some 0, s1, r.world⟩
        else
          let years_since_2000 := to_uint8 (fields.getD 0 0)
          let month := to_uint8 (fields.getD 1 0)
          let day := to_uint8 (fields.getD 2 0)
          let hours := to_uint8 (fields.getD 3 0)
          let minutes := to_uint8 (fields.getD 4 0)
          let seconds := to_uint8 (fields.getD 5 0)
          let gmt_time : Tm :=
            { tm_sec := seconds, tm_min := minutes, tm_hour := hours, tm_mday := day,
              tm_mon := (month : Int) - 1, tm_year := (years_since_2000 : Int) + 100 }
          let gsm_time := (mktime gmt_time % 2 ^ 32).toNat
          let s2 := { s1 with sync_mcu_timestamp := command_time,
                              sync_unix_timestamp := gsm_time }
          ⟨some ((((millis r.world + 2 ^ 32 - s2.sync_mcu_timestamp) % 2 ^ 32 / 1000
            + s2.sync_unix_timestamp) % 2 ^ 32 : Nat) : Int), s2, r.world⟩

/-- The wait for the clock answer inside `get_gsm_time`, after the flush and the command. -/
def cclk_ack (s : State) (w : World) : Wait :=
  wait_for_pattern s.receive_buffer (send_to_serial (flush_serial w) (bytes "AT+CCLK?\r"))
    (bytes "+CCLK:") 5000

/-! ## Power pin and session start -/

/-- `A9::module_power_on()`. -/
def module_power_on (s : State) (w : World) : World :=
  if s.power_enable_pin ≠ -1 then { w with gpio := some (decide (s.invert_pwr_en_pin ≠ 1)) }
  else w

/-- `A9::module_power_off()`. -/
def module_power_off (s : State) (w : World) : World :=
  if s.power_enable_pin ≠ -1 then { w with gpio := some (decide (s.invert_pwr_en_pin = 1)) }
  else w

/-- The value of `stat` after `sscanf(received_line, "+CREG: %*d,%d", (int*)&stat)`, `stat`
holding `stat0` before: the low byte of the number read, or `stat0` when nothing is assigned. -/
def creg_stat (received_line : List Nat) (stat0 : Int) : Int :=
  match sscanf received_line "+CREG: %*d,%d" with
  | v :: _ => to_int8 v
  | [] => stat0

/-- `A9::start()`, lines 130-142: activate the PDP context; `r4` is the APN wait. -/
def start_activate (s : State) (r4 : Wait) : Outcome :=
  let w14 := vTaskDelay (250 / portTICK_PERIOD_MS) r4.world
  let w15 := flush_serial w14
  let w16 := send_to_serial w15 (bytes "AT+CGACT=1,1\r")
  let r5 := wait_for_pattern r4.receive_buffer w16 (bytes "OK") 45000
  match r5.ret with
  | none => ⟨none, { s with receive_buffer := r5.receive_buffer }, r5.world⟩
  | some stat =>
    if stat = -1 then
      ⟨some (-6), { s with receive_buffer := r5.receive_buffer }, r5.world⟩
    else
      ⟨some 1, { s with receive_buffer := r5.receive_buffer }, r5.world⟩

/-- `A9::start()`, lines 114-126: configure the APN; `r3` is the attach wait. When the command
with its NUL does not fit the 128 bytes of `apn_command`, `sprintf` writes past the array and
the call has no defined result. -/
def start_configure (s : State) (r3 : Wait) : Outcome :=
  let w11 := vTaskDelay (250 / portTICK_PERIOD_MS) r3.world
  let w12 := flush_serial w11
  let apn_command := bytes "AT+CGDCONT=1,\"IP\",\"" ++ cstr s.APN ++ bytes "\"\r"
  if 128 < (apn_command ++ [0]).length then
    ⟨none, { s with receive_buffer := r3.receive_buffer }, w12⟩
  else
  let w13 := send_to_serial w12 apn_command
  let r4 := wait_for_pattern r3.receive_buffer w13 (bytes "OK") 30000
  match r4.ret with
  | none => ⟨none, { s with receive_buffer := r4.receive_buffer }, r4.world⟩
  | some stat =>
    if stat = -1 then
      ⟨some (-5), { s with receive_buffer := r4.receive_buffer }, r4.world⟩
    else
      start_activate s r4

/-- `A9::start()`, lines 102-112: attach; `r2` is the registration wait. -/
def start_attach (s : State) (r2 : Wait) : Outcome :=
  let w8 := vTaskDelay (250 / portTICK_PERIOD_MS) r2.world
  let w9 := flush_serial w8
  let w10 := send_to_serial w9 (bytes "AT+CGATT=1\r")
  let r3 := wait_for_pattern r2.receive_buffer w10 (bytes "+CGATT:1") 30000
  match r3.ret with
  | none => ⟨none, { s with receive_buffer := r3.receive_buffer }, r3.world⟩
  | some stat =>
    if stat = -1 then
      ⟨some (-4), { s with receive_buffer := r3.receive_buffer }, r3.world⟩
    else
      start_configure s r3

/-- `A9::start()`, lines 81-100: registration check; `r1` is the reset wait. -/
def start_register (s : State) (r1 : Wait) : Outcome :=
  let w5 := vTaskDelay (500 / portTICK_PERIOD_MS) r1.world
  let w6 := flush_serial w5
  let w7 := send_to_serial w6 (bytes "AT+CREG?\r")
  let r2 := wait_for_pattern r1.receive_buffer w7 (bytes "+CREG:") 1000
  let received_line := get_received_line r2.receive_buffer
  match r2.ret with
  | none => ⟨none, { s with receive_buffer := r2.receive_buffer }, r2.world⟩
  | some stat2 =>
    if stat2 = -1 then
      ⟨some (-2), { s with receive_buffer := r2.receive_buffer }, r2.world⟩
    else
      let stat := creg_stat received_line stat2
      if (¬ (stat = 1)) ∨ (stat = 5) then
        ⟨some (-3), { s with receive_buffer := r2.receive_buffer }, r2.world⟩
      else
        start_attach s r2

/-- `A9::start()`: lines 63-79, then the later states. -/
def start (s : State) (w : World) : Outcome :=
  let w0 := module_power_off s w
  let w1 := vTaskDelay (1000 / portTICK_PERIOD_MS) w0
  let w2 := flush_serial w1
  let w3 := module_power_on s w2
  let w4 := send_to_serial w3 (bytes "AT+RST=1\r")
  let r1 := wait_for_pattern s.receive_buffer w4 (bytes "READY") 30000
  match r1.ret with
  | none => ⟨none, { s with receive_buffer := r1.receive_buffer }, r1.world⟩
  | some stat =>
    if stat = -1 then
      ⟨some (-1), { s with receive_buffer := r1.receive_buffer }, r1.world⟩
    else
      start_register s r1

/-- `A9::stop()`. -/
def stop (s : State) (w : World) : World :=
  flush_serial (module_power_off s w)

/-- The first wait of `start`: power cycle, "AT+RST=1", wait for "READY". -/
def start_reset (s : State) (w : World) : Wait :=
  wait_for_pattern s.receive_buffer
    (send_to_serial (module_power_on s (flush_serial
      (vTaskDelay (1000 / portTICK_PERIOD_MS) (module_power_off s w)))) (bytes "AT+RST=1\r"))
    (bytes "READY") 30000

/-- A later wait of `start`: settle delay, flush, command, wait, continuing from `prev`. -/
def start_step (prev : Wait) (delay_ms : Nat) (command pattern : List Nat) (timeout_ms : Nat) :
    Wait :=
  wait_for_pattern prev.receive_buffer
    (send_to_serial (flush_serial (vTaskDelay (delay_ms / portTICK_PERIOD_MS) prev.world))
      command) pattern timeout_ms

/-- The registration query of `start`. -/
def start_creg (s : State) (w : World) : Wait :=
  start_step (start_reset s w) 500 (bytes "AT+CREG?\r") (bytes "+CREG:") 1000

/-- The registration status `start` reads from the line matched by the registration query. -/
def start_stat (s : State) (w : World) : Int :=
  creg_stat (get_received_line (start_creg s w).receive_buffer) 0

/-- One line of the inbound stream: bytes other than LF, then the LF. -/
def IsLine (l : List Nat) : Prop := ∃ d, l = d ++ [10] ∧ 10 ∉ d

/-- What the matcher sees of a completed line: its first `A9_UART_RX_BUFFER_SIZE - 2` bytes,
read as a C string. -/
def seen (line : List Nat) : List Nat := cstr (line.take (A9_UART_RX_BUFFER_SIZE - 2))

/-- The completed lines of a byte stream, each with its LF, when `cur` is the part of the
current line that came before the stream; an unfinished last line is left out. -/
def completed_lines : List Nat → List Nat → List (List Nat)
  | _, [] => []
  | cur, b :: bs =>
    if b = 10 then (cur ++ [10]) :: completed_lines [] bs
    else completed_lines (cur ++ [b]) bs

/-- The buffer invariant: `cur` being the bytes of the current line read so far, the cursor is
`min |cur| (SIZE-2)` and the buffer starts with the first `SIZE-2` bytes of `cur`. -/
def Holds (buf : List Nat) (cursor : Nat) (cur : List Nat) : Prop :=
  buf.length = A9_UART_RX_BUFFER_SIZE ∧
  cursor = min cur.length (A9_UART_RX_BUFFER_SIZE - 2) ∧
  buf.take cursor = cur.take (A9_UART_RX_BUFFER_SIZE - 2)

/-- The buffer holds the completed line `line`: its first `SIZE-2` bytes, then a NUL. -/
def HoldsLine (buf line : List Nat) : Prop :=
  buf.length = A9_UART_RX_BUFFER_SIZE ∧
  buf.take (min line.length (A9_UART_RX_BUFFER_SIZE - 2))
    = line.take (A9_UART_RX_BUFFER_SIZE - 2) ∧
  buf[min line.length (A9_UART_RX_BUFFER_SIZE - 2)]? = some 0

/-- Summary of a run of the loop that started with `cur` as the partial current line and `rx`
pending: it consumed a prefix of `rx`; `cur` followed by the consumed bytes splits into
completed lines in which the pattern was not found, followed by `tail`, which is the matched
line when the loop returned 0 and the still incomplete line otherwise. -/
def Scanned (pattern cur : List Nat) (rx : List (Nat × Nat)) (r : Wait) : Prop :=
  ∃ (k : Nat) (earlier : List (List Nat)) (tail : List Nat),
    k ≤ rx.length ∧
    r.world.rx = rx.drop k ∧
    cur ++ (rx.take k).map Prod.snd = earlier.flatten ++ tail ∧
    (∀ l ∈ earlier, IsLine l ∧ strstr (seen l) pattern = none) ∧
    (r.ret = some 0 →
      IsLine tail ∧ (strstr (seen tail) pattern).isSome = true ∧
      HoldsLine r.receive_buffer tail) ∧
    (r.ret ≠ some 0 → 10 ∉ tail ∧ Holds r.receive_buffer r.cursor tail)

/-- The last instant at which the loop started at `S` still polls: `S + 20 * ((T-1)/20)`. -/
def last_poll (S timeout_ms : Nat) : Nat := S + 20 * ((timeout_ms - 1) / 20)

/-- A line of `n + 3` bytes: "OK", `n` times "A", LF. -/
def long_line (n : Nat) : List Nat := [79, 75] ++ List.replicate n 65 ++ [10]

/-- A line of `n + 4` bytes: NUL, "OK", `n` times "A", LF. -/
def nul_line (n : Nat) : List Nat := [0, 79, 75] ++ List.replicate n 65 ++ [10]

/-- A byte list arriving all at once at time `t`. -/
def arriving_at (t : Nat) (bs : List Nat) : List (Nat × Nat) := bs.map (fun b => (t, b))

/-- A line of `n + 3` bytes: `n` times "A", "OK", LF. -/
def tail_line (n : Nat) : List Nat := List.replicate n 65 ++ [79, 75, 10]

/-- An object as the constructor leaves it, with zeroed buffers and no power pin. -/
def fresh : State :=
  ⟨[], List.replicate 2048 0, List.replicate 2048 0, 0, 0, 0, -1, -1⟩

/-- A world in which the modem acknowledges at 10 ms and `blob` arrives at 400 ms. -/
def answering (blob : List Nat) : World :=
  ⟨0, arriving_at 10 (bytes "OK\r\n") ++ arriving_at 400 blob, [], none⟩

/-- Two decimal digits of `n`. -/
def dec2 (n : Nat) : List Nat := [48 + n / 10, 48 + n % 10]

/-- The clock line `+CCLK: "yy/MM/dd,hh:mm:ss` followed by `rest`. -/
def cclk_line (yy MM dd hh mm ss : Nat) (rest : List Nat) : List Nat :=
  [43, 67, 67, 76, 75, 58, 32, 34] ++ (dec2 yy ++ 47 :: (dec2 MM ++ 47 :: (dec2 dd ++ 44 ::
    (dec2 hh ++ 58 :: (dec2 mm ++ 58 :: (dec2 ss ++ rest))))))

/-- A world at 7000 ms in which the modem answers the clock query at 7040 ms with
`+CCLK: "23/05/17,12:34:56+03"` and "OK". -/
def clock_world : World :=
  ⟨7000, arriving_at 7040 (bytes "\r\n+CCLK: \"23/05/17,12:34:56+03\"\r\n\r\nOK\r\n"), [], none⟩

/-- A modem that answers every command of `start` in time, with registration status text
`status`. -/
def modem_ok (status : List Nat) : List (Nat × Nat) :=
  arriving_at 1100 (bytes "\r\nREADY\r\n") ++
  arriving_at 1700 (bytes "\r\n+CREG: 1," ++ status ++ bytes "\r\n\r\nOK\r\n") ++
  arriving_at 2000 (bytes "\r\n+CGATT:1\r\n\r\nOK\r\n") ++
  arriving_at 2300 (bytes "\r\nOK\r\n") ++
  arriving_at 2600 (bytes "\r\nOK\r\n")

/-- A world at 7000 ms in which the modem answers the clock query at 7040 ms with
`+CCLK: "23/05/17"`, a date without a time of day. -/
def date_only_world : World :=
  ⟨7000, arriving_at 7040 (bytes "\r\n+CCLK: \"23/05/17\"\r\n"), [], none⟩

/-- A world at 7000 ms in which the modem answers the clock query at 7040 ms with
`+CCLK: "106/02/07,06:28:15+00"`, the last second before `2^32`. -/
def wrap_world : World :=
  ⟨7000, arriving_at 7040 (bytes "\r\n+CCLK: \"106/02/07,06:28:15+00\"\r\n\r\nOK\r\n"), [], none⟩

instance instDecidableIsLine (l : List Nat) : Decidable (IsLine l) :=
  decidable_of_iff (l = l.dropLast ++ [10] ∧ 10 ∉ l.dropLast)
    ⟨fun h => ⟨l.dropLast, h.1, h.2⟩,
      fun h => by
        obtain ⟨d, hd, hn⟩ := h
        have e : l.dropLast = d := by rw [hd]; simp
        rw [e]
        exact ⟨hd, hn⟩⟩

/-- The pending input of `w` starts with whole lines that have all arrived by the last poll of
a wait of `timeout_ms` begun in `w`; `line` is the first of them whose captured part shows
`pattern`, and `post` is the input that follows its LF. -/
def ArrivesInTime (w : World) (pattern : List Nat) (timeout_ms : Nat) (line : List Nat)
    (post : List (Nat × Nat)) : Prop :=
  ∃ (pre : List (Nat × Nat)) (earlier : List (List Nat)),
    w.rx = pre ++ post ∧ pre.map Prod.snd = earlier.flatten ++ line ∧
    (∀ l ∈ earlier, IsLine l ∧ ¬ pattern <:+: seen l) ∧
    IsLine line ∧ pattern <:+: seen line ∧
    ∀ p ∈ pre, p.1 ≤ last_poll w.now timeout_ms

/-- No line of the pending input of `w` that is completed before the deadline of a wait of
`timeout_ms` begun in `w` contains `pattern`. -/
def NoLineInTime (w : World) (pattern : List Nat) (timeout_ms : Nat) : Prop :=
  ∀ l ∈ completed_lines []
      ((w.rx.takeWhile (fun p => decide (p.1 < w.now + timeout_ms))).map Prod.snd),
    ¬ pattern <:+: l

instance instDecidableNoLineInTime (w : World) (pattern : List Nat) (timeout_ms : Nat) :
    Decidable (NoLineInTime w pattern timeout_ms) := by
  unfold NoLineInTime
  infer_instance

/-- The world in which a later wait of `start` begins: the settle delay has passed since the
wait `prev` returned, the input was flushed and `command` was sent. -/
def start_step_world (prev : Wait) (delay_ms : Nat) (command : List Nat) : World :=
  send_to_serial (flush_serial (vTaskDelay (delay_ms / portTICK_PERIOD_MS) prev.world)) command

/-- The decimal digits of `n`, most significant first, put in front of `acc`; `fuel` bounds the
number of digits. -/
def decimal_aux : Nat → Nat → List Nat → List Nat
  | 0, _, acc => acc
  | fuel + 1, n, acc =>
    if n < 10 then (48 + n) :: acc else decimal_aux fuel (n / 10) ((48 + n % 10) :: acc)

/-- The decimal representation of `n` in ASCII. -/
def decimal (n : Nat) : List Nat := decimal_aux (n + 1) n []

/-- A response blob of the form `front`, "HTTP/1.1 200 OK", CR LF, "Content-Length: n", CR LF,
CR LF, `body`, where `n` is the number of bytes of `body`. -/
def http_blob (front body : List Nat) : List Nat :=
  front ++ bytes "HTTP/1.1 200 OK\r\nContent-Length: " ++ decimal body.length
    ++ bytes "\r\n\r\n" ++ body

/-! ## Facts about the C string helpers -/

theorem cstr_append_nul (a b : List Nat) : cstr (a ++ 0 :: b) = cstr a := by
  induction a with
  | nil => simp [cstr]
  | cons x xs ih =>
    simp only [cstr] at ih ⊢
    by_cases hx : x = 0
    · simp [hx]
    · simp [List.takeWhile_cons, hx, ih]

theorem cstr_initial (mem : List Nat) : cstr mem <+: mem := by
  unfold cstr
  exact List.takeWhile_prefix _

theorem cstr_eq_self {l : List Nat} (h : 0 ∉ l) : cstr l = l := by
  unfold cstr
  rw [List.takeWhile_eq_self_iff]
  intro x hx
  have : x ≠ 0 := fun e => h (e ▸ hx)
  simpa using this

theorem strstr_isSome_iff (hay needle : List Nat) :
    (strstr hay needle).isSome ↔ needle <:+: hay := by
  induction hay with
  | nil =>
    by_cases hn : needle = []
    · simp [strstr, hn]
    · simp [strstr, hn]
  | cons c hay ih =>
    rw [List.infix_cons_iff, ← ih]
    simp only [strstr]
    by_cases hp : needle.isPrefixOf (c :: hay) = true
    · simp [hp, List.isPrefixOf_iff_prefix.mp hp]
    · have hp2 : ¬ needle <+: c :: hay := fun h => hp (List.isPrefixOf_iff_prefix.mpr h)
      simp [hp, hp2]

theorem strstr_eq_none_iff (hay needle : List Nat) :
    strstr hay needle = none ↔ ¬ needle <:+: hay := by
  rw [← strstr_isSome_iff]
  cases strstr hay needle <;> simp

/-! ## The line buffer while a line is assembled -/

theorem set_eq_split {buf : List Nat} {i : Nat} (h : i < buf.length) (b : Nat) :
    buf.set i b = buf.take i ++ b :: buf.drop (i + 1) := by
  rw [List.set_eq_take_append_cons_drop]
  simp [h]

theorem holds_store {buf : List Nat} {cursor : Nat} {cur : List Nat} (b : Nat)
    (h : Holds buf cursor cur) :
    Holds (buf.set cursor b)
      (if cursor < A9_UART_RX_BUFFER_SIZE - 2 then cursor + 1 else cursor) (cur ++ [b]) := by
  obtain ⟨hl, hc, ht⟩ := h
  unfold Holds
  unfold A9_UART_RX_BUFFER_SIZE at *
  have hlt : cursor < buf.length := by omega
  have hlen : (buf.take cursor).length = cursor := by
    rw [List.length_take]; omega
  refine ⟨by simp [hl], ?_, ?_⟩
  · simp only [List.length_append, List.length_singleton]
    split <;> omega
  · rw [set_eq_split hlt]
    by_cases hcl : cursor < 2048 - 2
    · have hcur : cur.length = cursor := by omega
      have hcur2 : cur.take (2048 - 2) = cur := List.take_of_length_le (by omega)
      rw [if_pos hcl, ht, hcur2]
      rw [List.take_of_length_le (l := cur ++ [b]) (by simp; omega)]
      have : cur ++ b :: List.drop (cursor + 1) buf = (cur ++ [b]) ++ List.drop (cursor + 1) buf := by
        simp
      rw [this, List.take_left' (by simp [hcur])]
    · rw [if_neg hcl]
      have hc2 : cursor = 2048 - 2 := by omega
      rw [List.take_left' hlen, ht]
      rw [List.take_append_of_le_length (by omega)]

theorem holds_terminate {buf : List Nat} {cursor : Nat} {line : List Nat}
    (h : Holds buf cursor line) :
    HoldsLine (buf.set cursor 0) line ∧ cstr (buf.set cursor 0) = seen line := by
  obtain ⟨hl, hc, ht⟩ := h
  have hlt : cursor < buf.length := by
    unfold A9_UART_RX_BUFFER_SIZE at *; omega
  have hlen : (buf.take cursor).length = cursor := by
    rw [List.length_take]; omega
  refine ⟨⟨by simp [hl], ?_, ?_⟩, ?_⟩
  · rw [← hc, set_eq_split hlt, List.take_left' hlen, ht]
  · rw [← hc]
    simp [List.getElem?_set, hlt]
  · rw [set_eq_split hlt, cstr_append_nul, ht]
    rfl

theorem holds_restart {buf : List Nat} (h : buf.length = A9_UART_RX_BUFFER_SIZE) :
    Holds buf 0 [] := by
  refine ⟨h, ?_, ?_⟩ <;> simp

theorem read_incoming_byte_of_check {w : World} (h : check_incoming_byte w = true) :
    ∃ p rest, w.rx = p :: rest ∧ p.1 ≤ w.now ∧
      read_incoming_byte w = (p.2, { w with rx := rest }) := by
  unfold check_incoming_byte at h
  cases hrx : w.rx with
  | nil => simp [hrx] at h
  | cons p rest =>
    simp only [hrx, decide_eq_true_eq] at h
    refine ⟨p, rest, rfl, h, ?_⟩
    have hd : p.1 ≤ w.now + 10 * portTICK_PERIOD_MS := by omega
    simp [read_incoming_byte, uart_read_bytes, hrx, List.takeWhile_cons, hd, h]

/-! ## What the polling loop does to the inbound stream -/

theorem wait_loop_scanned (pattern : List Nat) (timeout_ms start_time : Nat) :
    ∀ (fuel : Nat) (buf : List Nat) (cursor : Nat) (w : World) (log cur : List Nat),
      Holds buf cursor cur → 10 ∉ cur →
      Scanned pattern cur w.rx (wait_loop pattern timeout_ms start_time fuel buf cursor w log) := by
  intro fuel
  induction fuel with
  | zero =>
    intro buf cursor w log cur hH hc
    refine ⟨0, [], cur, by simp, by simp [wait_loop], by simp, by simp, ?_, ?_⟩
    · simp [wait_loop]
    · intro _
      exact ⟨hc, by simpa [wait_loop] using hH⟩
  | succ n ih =>
    intro buf cursor w log cur hH hc
    simp only [wait_loop]
    by_cases ht : (millis w + 2 ^ 32 - start_time) % 2 ^ 32 < timeout_ms
    · rw [if_pos ht]
      by_cases hav : check_incoming_byte w = true
      · rw [if_pos hav]
        obtain ⟨p, rest, hrx, -, hread⟩ := read_incoming_byte_of_check hav
        rw [hread]
        simp only
        have hH1 := holds_store p.2 hH
        by_cases hlf : p.2 = 10
        · rw [if_pos hlf]
          rw [hlf] at hH1
          obtain ⟨hHL, hseen⟩ := holds_terminate hH1
          rw [hlf]
          by_cases hm : (strstr (cstr ((buf.set cursor 10).set
              (if cursor < A9_UART_RX_BUFFER_SIZE - 2 then cursor + 1 else cursor) 0))
              pattern).isSome = true
          · rw [if_pos hm]
            refine ⟨1, [], cur ++ [10], by simp [hrx], by simp [hrx], by simp [hrx, hlf],
              by simp, ?_, ?_⟩
            · intro _
              exact ⟨⟨cur, rfl, hc⟩, by rw [← hseen]; exact hm, hHL⟩
            · intro h; exact absurd rfl h
          · rw [if_neg hm]
            obtain ⟨k, earlier, tail, hk, hrest, hsplit, hear, hmat, hnot⟩ :=
              ih ((buf.set cursor 10).set
                (if cursor < A9_UART_RX_BUFFER_SIZE - 2 then cursor + 1 else cursor) 0) 0
                { w with rx := rest }
                ((if cursor < A9_UART_RX_BUFFER_SIZE - 2 then cursor + 1 else cursor)
                  :: cursor :: log) [] (holds_restart hHL.1) (by simp)
            refine ⟨k + 1, (cur ++ [10]) :: earlier, tail, by simp [hrx]; exact hk,
              by simp [hrx]; exact hrest, ?_, ?_, hmat, hnot⟩
            · simp only [hrx, List.take_succ_cons, List.map_cons, hlf, List.flatten_cons]
              simp only [List.nil_append] at hsplit
              rw [hsplit]
              simp
            · intro l hl
              rcases List.mem_cons.mp hl with rfl | hl
              · refine ⟨⟨cur, rfl, hc⟩, ?_⟩
                rw [← hseen]
                cases hs : strstr (cstr ((buf.set cursor 10).set
                  (if cursor < A9_UART_RX_BUFFER_SIZE - 2 then cursor + 1 else cursor) 0))
                  pattern with
                | none => rfl
                | some v => rw [hs] at hm; simp at hm
              · exact hear l hl
        · rw [if_neg hlf]
          obtain ⟨k, earlier, tail, hk, hrest, hsplit, hear, hmat, hnot⟩ :=
            ih (buf.set cursor p.2)
              (if cursor < A9_UART_RX_BUFFER_SIZE - 2 then cursor + 1 else cursor)
              { w with rx := rest } (cursor :: log) (cur ++ [p.2]) hH1
              (by simp [List.mem_append, hc]; exact fun h => hlf h.symm)
          refine ⟨k + 1, earlier, tail, by simp [hrx]; exact hk,
            by simp [hrx]; exact hrest, ?_, hear, hmat, hnot⟩
          simp only [hrx, List.take_succ_cons, List.map_cons]
          rw [← hsplit]
          simp
      · rw [if_neg hav]
        exact ih buf cursor (vTaskDelay (20 / portTICK_PERIOD_MS) w) log cur hH hc
    · rw [if_neg ht]
      refine ⟨0, [], cur, by simp, by simp, by simp, by simp, ?_, ?_⟩
      · intro h; simp at h
      · intro _
        exact ⟨hc, hH⟩

/-! ## Frame, bounds and termination of the polling loop -/

theorem vTaskDelay_poll (w : World) :
    vTaskDelay (20 / portTICK_PERIOD_MS) w = { w with now := w.now + 20 } := by
  simp [vTaskDelay, portTICK_PERIOD_MS]

theorem wait_loop_frame (pattern : List Nat) (timeout_ms start_time : Nat) :
    ∀ (fuel : Nat) (buf : List Nat) (cursor : Nat) (w : World) (log : List Nat),
      (wait_loop pattern timeout_ms start_time fuel buf cursor w log).world.tx = w.tx ∧
      (wait_loop pattern timeout_ms start_time fuel buf cursor w log).world.gpio = w.gpio ∧
      w.now ≤ (wait_loop pattern timeout_ms start_time fuel buf cursor w log).world.now := by
  intro fuel
  induction fuel with
  | zero => intro buf cursor w log; simp [wait_loop]
  | succ n ih =>
    intro buf cursor w log
    simp only [wait_loop]
    by_cases ht : (millis w + 2 ^ 32 - start_time) % 2 ^ 32 < timeout_ms
    · rw [if_pos ht]
      by_cases hav : check_incoming_byte w = true
      · rw [if_pos hav]
        obtain ⟨p, rest, hrx, -, hread⟩ := read_incoming_byte_of_check hav
        rw [hread]
        simp only
        generalize (if cursor < A9_UART_RX_BUFFER_SIZE - 2 then cursor + 1 else cursor) = c1
        split
        · split
          · simp
          · exact ih _ _ _ _
        · exact ih _ _ _ _
      · rw [if_neg hav, vTaskDelay_poll]
        obtain ⟨h1, h2, h3⟩ := ih buf cursor { w with now := w.now + 20 } log
        exact ⟨h1, h2, by simp only at h3; omega⟩
    · rw [if_neg ht]
      simp

theorem wait_loop_bounds (pattern : List Nat) (timeout_ms start_time : Nat) :
    ∀ (fuel : Nat) (buf : List Nat) (cursor : Nat) (w : World) (log : List Nat),
      cursor ≤ A9_UART_RX_BUFFER_SIZE - 2 →
      (∀ i ∈ log, i ≤ A9_UART_RX_BUFFER_SIZE - 2) →
      (wait_loop pattern timeout_ms start_time fuel buf cursor w log).cursor
          ≤ A9_UART_RX_BUFFER_SIZE - 2 ∧
      (∀ i ∈ (wait_loop pattern timeout_ms start_time fuel buf cursor w log).writes,
          i ≤ A9_UART_RX_BUFFER_SIZE - 2) ∧
      (wait_loop pattern timeout_ms start_time fuel buf cursor w log).receive_buffer.length
          = buf.length := by
  intro fuel
  induction fuel with
  | zero => intro buf cursor w log hc hlog; exact ⟨hc, hlog, rfl⟩
  | succ n ih =>
    intro buf cursor w log hc hlog
    have hc1 : (if cursor < A9_UART_RX_BUFFER_SIZE - 2 then cursor + 1 else cursor)
        ≤ A9_UART_RX_BUFFER_SIZE - 2 := by
      split <;> omega
    simp only [wait_loop]
    generalize (if cursor < A9_UART_RX_BUFFER_SIZE - 2 then cursor + 1 else cursor) = c1
      at hc1 ⊢
    split
    · split
      · split
        · split
          · refine ⟨Nat.zero_le _, ?_, by simp⟩
            intro i hi
            rcases List.mem_cons.mp hi with rfl | hi
            · exact hc1
            · rcases List.mem_cons.mp hi with rfl | hi
              · exact hc
              · exact hlog i hi
          · obtain ⟨h1, h2, h3⟩ := ih ((buf.set cursor (read_incoming_byte w).1).set c1 0) 0
                (read_incoming_byte w).2 (c1 :: cursor :: log) (Nat.zero_le _) (by
                    intro i hi
                    rcases List.mem_cons.mp hi with rfl | hi
                    · exact hc1
                    · rcases List.mem_cons.mp hi with rfl | hi
                      · exact hc
                      · exact hlog i hi)
            exact ⟨h1, h2, by simpa using h3⟩
        · obtain ⟨h1, h2, h3⟩ := ih (buf.set cursor (read_incoming_byte w).1) c1
              (read_incoming_byte w).2 (cursor :: log) hc1 (by
                intro i hi
                rcases List.mem_cons.mp hi with rfl | hi
                · exact hc
                · exact hlog i hi)
          exact ⟨h1, h2, by simpa using h3⟩
      · exact ih _ _ _ _ hc hlog
    · exact ⟨hc, hlog, rfl⟩

theorem elapsed_eq (now S : Nat) (h : S ≤ now) (hlt : now - S < 2 ^ 32) :
    (now % 2 ^ 32 + 2 ^ 32 - S % 2 ^ 32) % 2 ^ 32 = now - S := by
  omega

/-- With a timeout that leaves room for one more poll below `2^32`, a run started `S` with
enough budget returns: either 0 before the deadline, or -1 at most 20 ms after it. -/
theorem wait_loop_returns (pattern : List Nat) (timeout_ms S : Nat)
    (hT : timeout_ms + 20 ≤ 2 ^ 32) :
    ∀ (fuel : Nat) (buf : List Nat) (cursor : Nat) (w : World) (log : List Nat),
      S ≤ w.now → w.now - S < timeout_ms + 20 →
      w.rx.length + (timeout_ms + 19 - (w.now - S)) / 20 + 1 ≤ fuel →
      ((wait_loop pattern timeout_ms (S % 2 ^ 32) fuel buf cursor w log).ret = some 0 ∧
        (wait_loop pattern timeout_ms (S % 2 ^ 32) fuel buf cursor w log).world.now - S
          < timeout_ms) ∨
      ((wait_loop pattern timeout_ms (S % 2 ^ 32) fuel buf cursor w log).ret = some (-1) ∧
        timeout_ms ≤
          (wait_loop pattern timeout_ms (S % 2 ^ 32) fuel buf cursor w log).world.now - S ∧
        (wait_loop pattern timeout_ms (S % 2 ^ 32) fuel buf cursor w log).world.now - S
          < timeout_ms + 20) := by
  intro fuel
  induction fuel with
  | zero => intro buf cursor w log _ _ hf; omega
  | succ n ih =>
    intro buf cursor w log hS he hf
    have hel : (millis w + 2 ^ 32 - S % 2 ^ 32) % 2 ^ 32 = w.now - S :=
      elapsed_eq w.now S hS (by omega)
    simp only [wait_loop, hel]
    by_cases ht : w.now - S < timeout_ms
    · rw [if_pos ht]
      by_cases hav : check_incoming_byte w = true
      · rw [if_pos hav]
        obtain ⟨p, rest, hrx, -, hread⟩ := read_incoming_byte_of_check hav
        rw [hread]
        simp only
        have hf2 : rest.length + (timeout_ms + 19 - (w.now - S)) / 20 + 1 ≤ n := by
          rw [hrx] at hf; simp only [List.length_cons] at hf; omega
        generalize (if cursor < A9_UART_RX_BUFFER_SIZE - 2 then cursor + 1 else cursor) = c1
        split
        · split
          · left; exact ⟨rfl, ht⟩
          · exact ih _ _ { w with rx := rest } _ hS he hf2
        · exact ih _ _ { w with rx := rest } _ hS he hf2
      · rw [if_neg hav, vTaskDelay_poll]
        refine ih _ _ _ _ (by simp only; omega) (by simp only; omega) ?_
        simp only
        omega
    · rw [if_neg ht]
      right
      exact ⟨rfl, by simp only; omega, he⟩

/-! ## Liveness: a line that arrives in time and shows the pattern is matched -/

theorem lf_split_unique : ∀ (a b x y : List Nat), 10 ∉ a → 10 ∉ b →
    a ++ 10 :: x = b ++ 10 :: y → a = b ∧ x = y := by
  intro a
  induction a with
  | nil =>
    intro b x y _ hb h
    cases b with
    | nil => simpa using h
    | cons c b =>
      simp only [List.nil_append, List.cons_append, List.cons.injEq] at h
      exact absurd (by simp [← h.1]) hb
  | cons c a ih =>
    intro b x y ha hb h
    cases b with
    | nil =>
      simp only [List.nil_append, List.cons_append, List.cons.injEq] at h
      exact absurd (by simp [h.1]) ha
    | cons d b =>
      simp only [List.cons_append, List.cons.injEq] at h
      obtain ⟨h1, h2⟩ := ih b x y (fun hm => ha (List.mem_cons_of_mem _ hm))
        (fun hm => hb (List.mem_cons_of_mem _ hm)) h.2
      exact ⟨by rw [h.1, h1], h2⟩

theorem wait_loop_live (pattern : List Nat) (timeout_ms S : Nat)
    (hT : timeout_ms + 20 ≤ 2 ^ 32) (hT0 : 0 < timeout_ms) :
    ∀ (fuel : Nat) (buf : List Nat) (cursor : Nat) (w : World) (log cur : List Nat)
      (pre post : List (Nat × Nat)) (earlier : List (List Nat)) (line : List Nat),
      Holds buf cursor cur → 10 ∉ cur →
      w.rx = pre ++ post →
      cur ++ pre.map Prod.snd = earlier.flatten ++ line →
      (∀ l ∈ earlier, IsLine l ∧ strstr (seen l) pattern = none) →
      IsLine line → (strstr (seen line) pattern).isSome = true →
      (∀ p ∈ pre, p.1 ≤ last_poll S timeout_ms) →
      S ≤ w.now → (w.now - S) % 20 = 0 → w.now ≤ last_poll S timeout_ms →
      pre.length + (last_poll S timeout_ms - w.now) / 20 + 1 ≤ fuel →
      (wait_loop pattern timeout_ms (S % 2 ^ 32) fuel buf cursor w log).ret = some 0 ∧
      (wait_loop pattern timeout_ms (S % 2 ^ 32) fuel buf cursor w log).world.rx = post ∧
      HoldsLine (wait_loop pattern timeout_ms (S % 2 ^ 32) fuel buf cursor w log).receive_buffer
        line := by
  intro fuel
  induction fuel with
  | zero => intro buf cursor w log cur pre post earlier line _ _ _ _ _ _ _ _ _ _ _ hf; omega
  | succ n ih =>
    intro buf cursor w log cur pre post earlier line hH hc hrx hsplit hear hline hmatch harr
      hS hal hlast hf
    unfold last_poll at harr hlast hf ih
    have ht : w.now - S < timeout_ms := by omega
    have hel : (millis w + 2 ^ 32 - S % 2 ^ 32) % 2 ^ 32 = w.now - S :=
      elapsed_eq w.now S hS (by omega)
    simp only [wait_loop, hel, if_pos ht]
    clear hel
    -- the line is not complete yet, so input is still pending
    cases pre with
    | nil =>
      exfalso
      obtain ⟨d, hd, -⟩ := hline
      apply hc
      simp only [List.map_nil, List.append_nil] at hsplit
      rw [hsplit, hd]
      simp
    | cons p pre' =>
      by_cases hav : check_incoming_byte w = true
      · rw [if_pos hav]
        obtain ⟨q, rest, hrx2, -, hread⟩ := read_incoming_byte_of_check hav
        rw [hrx] at hrx2
        simp only [List.cons_append, List.cons.injEq] at hrx2
        obtain ⟨rfl, hrest⟩ := hrx2
        rw [hread]
        simp only
        have hH1 := holds_store p.2 hH
        have hf2 : pre'.length + (S + 20 * ((timeout_ms - 1) / 20) - w.now) / 20 + 1 ≤ n := by
          simp only [List.length_cons] at hf; omega
        have harr2 : ∀ p ∈ pre', p.1 ≤ S + 20 * ((timeout_ms - 1) / 20) :=
          fun x hx => harr x (List.mem_cons_of_mem _ hx)
        by_cases hlf : p.2 = 10
        · rw [if_pos hlf]
          rw [hlf] at hH1
          obtain ⟨hHL, hseen⟩ := holds_terminate hH1
          rw [hlf]
          simp only [List.map_cons, hlf] at hsplit
          cases earlier with
          | nil =>
            obtain ⟨d, hd, hdn⟩ := hline
            simp only [List.flatten_nil, List.nil_append] at hsplit
            rw [hd] at hsplit
            have hsp : cur ++ 10 :: pre'.map Prod.snd = d ++ 10 :: [] := by
              rw [hsplit]
            obtain ⟨hcd, hnil⟩ := lf_split_unique _ _ _ _ hc hdn hsp
            have hline_eq : cur ++ [10] = line := by rw [hd, hcd]
            have hpre : pre' = [] := by simpa using hnil
            rw [hseen, hline_eq, if_pos hmatch]
            refine ⟨rfl, ?_, ?_⟩
            · simp only; rw [← hrest, hpre]; rfl
            · rw [← hline_eq]; exact hHL
          | cons l e' =>
            obtain ⟨⟨d, hd, hdn⟩, hnone⟩ := hear l (List.mem_cons_self _ _)
            have hsp : cur ++ 10 :: pre'.map Prod.snd = d ++ 10 :: (e'.flatten ++ line) := by
              rw [hsplit, hd]; simp
            obtain ⟨hcd, hrem⟩ := lf_split_unique _ _ _ _ hc hdn hsp
            have hl_eq : cur ++ [10] = l := by rw [hd, hcd]
            have hno : ¬ (strstr (seen (cur ++ [10])) pattern).isSome = true := by
              rw [hl_eq, hnone]; simp
            rw [hseen, if_neg hno]
            exact ih _ 0 { w with rx := rest } _ [] pre' post e' line (holds_restart hHL.1)
              (by simp) hrest.symm (by simpa using hrem)
              (fun x hx => hear x (List.mem_cons_of_mem _ hx)) hline hmatch harr2 hS hal hlast hf2
        · rw [if_neg hlf]
          refine ih _ _ { w with rx := rest } _ (cur ++ [p.2]) pre' post earlier line hH1
            (by simp [List.mem_append, hc]; exact fun h => hlf h.symm) hrest.symm ?_ hear hline
            hmatch harr2 hS hal hlast hf2
          rw [← hsplit]; simp
      · rw [if_neg hav, vTaskDelay_poll]
        have hp : w.now < p.1 := by
          unfold check_incoming_byte at hav
          rw [hrx] at hav
          simpa using hav
        have hp2 := harr p (List.mem_cons_self _ _)
        refine ih buf cursor { w with now := w.now + 20 } log cur (p :: pre') post earlier line
          hH hc hrx hsplit hear hline hmatch harr (by simp only; omega) (by simp only; omega)
          (by simp only; omega) ?_
        simp only
        omega

/-! ## Lines of a stream -/

theorem completed_lines_append : ∀ (a b cur : List Nat),
    ∃ cur2, completed_lines cur (a ++ b) = completed_lines cur a ++ completed_lines cur2 b := by
  intro a
  induction a with
  | nil => intro b cur; exact ⟨cur, by simp [completed_lines]⟩
  | cons x a ih =>
    intro b cur
    by_cases hx : x = 10
    · obtain ⟨c2, h2⟩ := ih b []
      exact ⟨c2, by simp [completed_lines, hx, h2]⟩
    · obtain ⟨c2, h2⟩ := ih b (cur ++ [x])
      exact ⟨c2, by simp [completed_lines, hx, h2]⟩

theorem completed_lines_split : ∀ (bs cur : List Nat) (earlier : List (List Nat))
    (tail : List Nat), 10 ∉ cur → (∀ l ∈ earlier, IsLine l) → IsLine tail →
    cur ++ bs = earlier.flatten ++ tail → completed_lines cur bs = earlier ++ [tail] := by
  intro bs
  induction bs with
  | nil =>
    intro cur earlier tail hc _ ht h
    exfalso
    obtain ⟨d, hd, -⟩ := ht
    apply hc
    rw [List.append_nil] at h
    rw [h, hd]
    simp
  | cons b bs ih =>
    intro cur earlier tail hc hear ht h
    by_cases hb : b = 10
    · subst hb
      simp only [completed_lines, if_true]
      cases earlier with
      | nil =>
        obtain ⟨d, hd, hdn⟩ := ht
        have hsp : cur ++ 10 :: bs = d ++ 10 :: [] := by
          rw [h, hd]; simp
        obtain ⟨hcd, hnil⟩ := lf_split_unique _ _ _ _ hc hdn hsp
        subst hnil
        simp [completed_lines, hd, hcd]
      | cons l e =>
        obtain ⟨d, hd, hdn⟩ := hear l (List.mem_cons_self _ _)
        have hsp : cur ++ 10 :: bs = d ++ 10 :: (e.flatten ++ tail) := by
          rw [h, hd]; simp
        obtain ⟨hcd, hrem⟩ := lf_split_unique _ _ _ _ hc hdn hsp
        rw [ih [] e tail (by simp) (fun x hx => hear x (List.mem_cons_of_mem _ hx)) ht
          (by simpa using hrem)]
        simp [hd, hcd]
    · simp only [completed_lines, if_neg hb]
      refine ih (cur ++ [b]) earlier tail ?_ hear ht (by rw [← h]; simp)
      simp only [List.mem_append, List.mem_singleton, not_or]
      exact ⟨hc, fun e => hb e.symm⟩

theorem completed_lines_single {d : List Nat} (hd : 10 ∉ d) :
    completed_lines [] (d ++ [10]) = [d ++ [10]] := by
  have := completed_lines_split (d ++ [10]) [] [] (d ++ [10]) (by simp) (by simp)
    ⟨d, rfl, hd⟩ (by simp)
  simpa using this

/-! ## `wait_for_pattern` as a whole -/

theorem wait_for_pattern_scanned (n : Nat) (buf : List Nat) (w : World) (pattern : List Nat)
    (timeout_ms : Nat) (hbuf : buf.length = A9_UART_RX_BUFFER_SIZE) :
    Scanned pattern [] w.rx (wait_for_pattern_upto n buf w pattern timeout_ms) := by
  unfold wait_for_pattern_upto
  exact wait_loop_scanned pattern timeout_ms (millis w) n _ 0 w [0] []
    (holds_restart (by simp [hbuf])) (by simp)

theorem wait_for_pattern_returns (buf : List Nat) (w : World) (pattern : List Nat)
    (timeout_ms : Nat) (hT : timeout_ms + 20 ≤ 2 ^ 32) :
    ((wait_for_pattern buf w pattern timeout_ms).ret = some 0 ∧
      (wait_for_pattern buf w pattern timeout_ms).world.now - w.now < timeout_ms) ∨
    ((wait_for_pattern buf w pattern timeout_ms).ret = some (-1) ∧
      timeout_ms ≤ (wait_for_pattern buf w pattern timeout_ms).world.now - w.now ∧
      (wait_for_pattern buf w pattern timeout_ms).world.now - w.now < timeout_ms + 20) := by
  unfold wait_for_pattern wait_for_pattern_upto millis
  refine wait_loop_returns pattern timeout_ms w.now hT _ _ 0 w [0] (Nat.le_refl _)
    (by omega) ?_
  unfold wait_budget
  omega

/-- If no completed line of the whole inbound stream shows the pattern in its captured part,
no run of any length returns 0. -/
theorem wait_for_pattern_no_match (n : Nat) (buf : List Nat) (w : World) (pattern : List Nat)
    (timeout_ms : Nat) (hbuf : buf.length = A9_UART_RX_BUFFER_SIZE)
    (hno : ∀ l ∈ completed_lines [] (w.rx.map Prod.snd), strstr (seen l) pattern = none) :
    (wait_for_pattern_upto n buf w pattern timeout_ms).ret ≠ some 0 := by
  intro hret
  obtain ⟨k, earlier, tail, -, -, hsplit, hear, hmat, -⟩ :=
    wait_for_pattern_scanned n buf w pattern timeout_ms hbuf
  obtain ⟨hline, hsome, -⟩ := hmat hret
  have hcl := completed_lines_split ((w.rx.take k).map Prod.snd) [] earlier tail (by simp)
    (fun l hl => (hear l hl).1) hline hsplit
  obtain ⟨c2, happ⟩ := completed_lines_append ((w.rx.take k).map Prod.snd)
    ((w.rx.drop k).map Prod.snd) []
  rw [← List.map_append, List.take_append_drop, hcl] at happ
  have hmem : tail ∈ completed_lines [] (w.rx.map Prod.snd) := by
    rw [happ]; simp
  rw [hno tail hmem] at hsome
  simp at hsome

theorem wait_for_pattern_live_first (buf : List Nat) (w : World) (pattern : List Nat)
    (timeout_ms : Nat) (pre post : List (Nat × Nat)) (earlier : List (List Nat))
    (line : List Nat) (hbuf : buf.length = A9_UART_RX_BUFFER_SIZE)
    (hT0 : 0 < timeout_ms) (hT : timeout_ms + 20 ≤ 2 ^ 32)
    (hrx : w.rx = pre ++ post) (hsplit : pre.map Prod.snd = earlier.flatten ++ line)
    (hear : ∀ l ∈ earlier, IsLine l ∧ strstr (seen l) pattern = none)
    (hline : IsLine line) (hmatch : (strstr (seen line) pattern).isSome = true)
    (harr : ∀ p ∈ pre, p.1 ≤ last_poll w.now timeout_ms) :
    (wait_for_pattern buf w pattern timeout_ms).ret = some 0 ∧
    (wait_for_pattern buf w pattern timeout_ms).world.rx = post ∧
    HoldsLine (wait_for_pattern buf w pattern timeout_ms).receive_buffer line := by
  unfold wait_for_pattern wait_for_pattern_upto millis
  refine wait_loop_live pattern timeout_ms w.now hT hT0 _ _ 0 w [0] [] pre post earlier line
    (holds_restart (by simp [hbuf])) (by simp) hrx (by simpa using hsplit) hear hline hmatch
    harr (Nat.le_refl _) (by simp) (by unfold last_poll; omega) ?_
  unfold wait_budget last_poll
  rw [hrx, List.length_append]
  omega

theorem first_shown_split (pattern : List Nat) : ∀ (lines : List (List Nat)),
    (∃ l ∈ lines, (strstr (seen l) pattern).isSome = true) →
    ∃ e1 l e2, lines = e1 ++ l :: e2 ∧ (∀ x ∈ e1, strstr (seen x) pattern = none) ∧
      (strstr (seen l) pattern).isSome = true := by
  intro lines
  induction lines with
  | nil => rintro ⟨l, hl, -⟩; simp at hl
  | cons a lines ih =>
    rintro ⟨l, hl, hs⟩
    by_cases ha : (strstr (seen a) pattern).isSome = true
    · exact ⟨[], a, lines, rfl, by simp, ha⟩
    · have hl2 : l ∈ lines := by
        rcases List.mem_cons.mp hl with rfl | h
        · exact absurd hs ha
        · exact h
      obtain ⟨e1, m, e2, he, hno, hm⟩ := ih ⟨l, hl2, hs⟩
      refine ⟨a :: e1, m, e2, by rw [he]; rfl, ?_, hm⟩
      intro x hx
      rcases List.mem_cons.mp hx with rfl | h
      · cases hs2 : strstr (seen x) pattern with
        | none => rfl
        | some v => rw [hs2] at ha; simp at ha
      · exact hno x h

theorem wait_for_pattern_live_any (buf : List Nat) (w : World) (pattern : List Nat)
    (timeout_ms : Nat) (pre post : List (Nat × Nat)) (lines : List (List Nat))
    (hbuf : buf.length = A9_UART_RX_BUFFER_SIZE)
    (hT0 : 0 < timeout_ms) (hT : timeout_ms + 20 ≤ 2 ^ 32)
    (hrx : w.rx = pre ++ post) (hsplit : pre.map Prod.snd = lines.flatten)
    (hlines : ∀ l ∈ lines, IsLine l)
    (hmatch : ∃ l ∈ lines, (strstr (seen l) pattern).isSome = true)
    (harr : ∀ p ∈ pre, p.1 ≤ last_poll w.now timeout_ms) :
    (wait_for_pattern buf w pattern timeout_ms).ret = some 0 := by
  obtain ⟨e1, l, e2, he, hno, hm⟩ := first_shown_split pattern lines hmatch
  have hlen : (e1.flatten ++ l).length ≤ pre.length := by
    have := congrArg List.length hsplit
    rw [he] at this
    simp only [List.length_map, List.flatten_append, List.flatten_cons, List.length_append]
      at this
    simp only [List.length_append]
    omega
  have h1 : (pre.take (e1.flatten ++ l).length).map Prod.snd = e1.flatten ++ l := by
    rw [List.map_take, hsplit, he]
    simp only [List.flatten_append, List.flatten_cons]
    rw [← List.append_assoc, List.take_left' rfl]
  refine (wait_for_pattern_live_first buf w pattern timeout_ms
    (pre.take (e1.flatten ++ l).length) (pre.drop (e1.flatten ++ l).length ++ post) e1 l hbuf
    hT0 hT (by rw [← List.append_assoc, List.take_append_drop]; exact hrx) h1 ?_ ?_ hm ?_).1
  · intro x hx
    exact ⟨hlines x (by rw [he]; simp [hx]), hno x hx⟩
  · exact hlines l (by rw [he]; simp)
  · intro p hp
    exact harr p (List.mem_of_mem_take hp)

/-- Input that only arrives after the last poll is never read: the call times out. -/
theorem wait_loop_late (pattern : List Nat) (timeout_ms S : Nat)
    (hT : timeout_ms + 20 ≤ 2 ^ 32) :
    ∀ (fuel : Nat) (buf : List Nat) (cursor : Nat) (w : World) (log : List Nat),
      (∀ p ∈ w.rx.head?, last_poll S timeout_ms < p.1) →
      S ≤ w.now → (w.now - S) % 20 = 0 → w.now ≤ last_poll S timeout_ms + 20 →
      (last_poll S timeout_ms + 20 - w.now) / 20 + 1 ≤ fuel →
      (wait_loop pattern timeout_ms (S % 2 ^ 32) fuel buf cursor w log).ret = some (-1) ∧
      (wait_loop pattern timeout_ms (S % 2 ^ 32) fuel buf cursor w log).world.rx = w.rx := by
  intro fuel
  induction fuel with
  | zero => intro buf cursor w log _ _ _ _ hf; omega
  | succ n ih =>
    intro buf cursor w log hhead hS hal hle hf
    unfold last_poll at hhead hle hf ih
    by_cases ht : w.now - S < timeout_ms
    · have hnow : w.now ≤ S + 20 * ((timeout_ms - 1) / 20) := by omega
      have hel : (millis w + 2 ^ 32 - S % 2 ^ 32) % 2 ^ 32 = w.now - S :=
        elapsed_eq w.now S hS (by omega)
      simp only [wait_loop, hel, if_pos ht]
      clear hel
      have hav : ¬ check_incoming_byte w = true := by
        unfold check_incoming_byte
        cases hrx : w.rx with
        | nil => simp
        | cons p rest =>
          have := hhead p (by simp [hrx])
          simp only [decide_eq_true_eq]
          omega
      rw [if_neg hav, vTaskDelay_poll]
      refine ih buf cursor { w with now := w.now + 20 } log hhead (by simp only; omega)
        (by simp only; omega) (by simp only; omega) ?_
      simp only
      omega
    · have hel : (millis w + 2 ^ 32 - S % 2 ^ 32) % 2 ^ 32 = w.now - S :=
        elapsed_eq w.now S hS (by omega)
      simp only [wait_loop, hel, if_neg ht]
      exact ⟨trivial, trivial⟩

theorem wait_for_pattern_late (buf : List Nat) (w : World) (pattern : List Nat)
    (timeout_ms : Nat) (hT : timeout_ms + 20 ≤ 2 ^ 32)
    (hhead : ∀ p ∈ w.rx.head?, last_poll w.now timeout_ms < p.1) :
    (wait_for_pattern buf w pattern timeout_ms).ret = some (-1) ∧
    (wait_for_pattern buf w pattern timeout_ms).world.rx = w.rx := by
  unfold wait_for_pattern wait_for_pattern_upto millis
  refine wait_loop_late pattern timeout_ms w.now hT _ _ 0 w [0] hhead (Nat.le_refl _)
    (by simp) (by unfold last_poll; omega) ?_
  unfold wait_budget last_poll
  omega

/-! ## Concrete inbound lines used as test inputs -/

theorem map_snd_arriving_at (t : Nat) (bs : List Nat) :
    (arriving_at t bs).map Prod.snd = bs := by
  simp [arriving_at, List.map_map, Function.comp_def]

theorem mem_arriving_at {t : Nat} {bs : List Nat} {p : Nat × Nat}
    (h : p ∈ arriving_at t bs) : p.1 = t := by
  unfold arriving_at at h
  obtain ⟨b, -, rfl⟩ := List.mem_map.mp h
  rfl

theorem isLine_long_line (n : Nat) : IsLine (long_line n) :=
  ⟨[79, 75] ++ List.replicate n 65, rfl, by simp⟩

theorem isLine_nul_line (n : Nat) : IsLine (nul_line n) :=
  ⟨[0, 79, 75] ++ List.replicate n 65, rfl, by simp⟩

theorem length_long_line (n : Nat) : (long_line n).length = n + 3 := by
  simp [long_line]

theorem length_nul_line (n : Nat) : (nul_line n).length = n + 4 := by
  simp [nul_line]

theorem nul_not_mem_long_line (n : Nat) : 0 ∉ long_line n := by
  simp [long_line]

theorem ok_infix_long_line (n k : Nat) (hk : 2 ≤ k) : [79, 75] <:+: (long_line n).take k := by
  obtain ⟨j, rfl⟩ : ∃ j, k = j + 2 := ⟨k - 2, by omega⟩
  exact ⟨[], (List.replicate n 65 ++ [10]).take j, by simp [long_line]⟩

theorem ok_infix_nul_line (n k : Nat) (hk : 3 ≤ k) : [79, 75] <:+: (nul_line n).take k := by
  obtain ⟨j, rfl⟩ : ∃ j, k = j + 3 := ⟨k - 3, by omega⟩
  exact ⟨[0], (List.replicate n 65 ++ [10]).take j, by simp [nul_line]⟩

theorem seen_nul_line (n : Nat) : seen (nul_line n) = [] := by
  simp [seen, nul_line, cstr, A9_UART_RX_BUFFER_SIZE]

theorem wait_for_pattern_nul_line (n t timeout_ms : Nat) (w : World)
    (hT : timeout_ms + 20 ≤ 2 ^ 32) (hw : w.rx = arriving_at t (nul_line n)) (buf : List Nat)
    (hbuf : buf.length = A9_UART_RX_BUFFER_SIZE) :
    (wait_for_pattern buf w [79, 75] timeout_ms).ret = some (-1) := by
  have hno : (wait_for_pattern buf w [79, 75] timeout_ms).ret ≠ some 0 := by
    refine wait_for_pattern_no_match _ buf w [79, 75] timeout_ms hbuf ?_
    rw [hw, map_snd_arriving_at]
    have hl : nul_line n = ([0, 79, 75] ++ List.replicate n 65) ++ [10] := rfl
    have hsingle := completed_lines_single (d := [0, 79, 75] ++ List.replicate n 65)
      (by simp)
    rw [hl, hsingle, ← hl]
    intro l hl2
    rw [List.mem_singleton.mp hl2, seen_nul_line]
    rfl
  rcases wait_for_pattern_returns buf w [79, 75] timeout_ms hT with h | h
  · exact absurd h.1 hno
  · exact h.1

/-! ## C11 -/

/-- C11 (as amended): an inbound line longer than `A9_UART_RX_BUFFER_SIZE - 2` bytes whose
first `A9_UART_RX_BUFFER_SIZE - 2` bytes hold no NUL and contain the pattern makes
`wait_for_pattern` return Matched (0), provided the bytes up to its LF have all arrived by the
last poll of the loop (`last_poll`, the largest multiple of 20 ms below the timeout after the
call). When no earlier line shows the pattern, the input after that LF stays unread and the
buffer starts with exactly the first `A9_UART_RX_BUFFER_SIZE - 2` bytes of the line, followed
by the NUL: the dropped overflow bytes have not overwritten them. -/
theorem c11_overflow_prefix_still_matches
    (buf : List Nat) (w : World) (pattern : List Nat) (timeout_ms : Nat)
    (pre post : List (Nat × Nat)) (earlier : List (List Nat)) (line : List Nat)
    (hbuf : buf.length = A9_UART_RX_BUFFER_SIZE)
    (hT0 : 0 < timeout_ms) (hT : timeout_ms + 20 ≤ 2 ^ 32)
    (hrx : w.rx = pre ++ post) (hsplit : pre.map Prod.snd = earlier.flatten ++ line)
    (hear : ∀ l ∈ earlier, IsLine l) (hline : IsLine line)
    (hlong : A9_UART_RX_BUFFER_SIZE - 2 < line.length)
    (hnul : 0 ∉ line.take (A9_UART_RX_BUFFER_SIZE - 2))
    (hpat : pattern <:+: line.take (A9_UART_RX_BUFFER_SIZE - 2))
    (harr : ∀ p ∈ pre, p.1 ≤ last_poll w.now timeout_ms) :
    (wait_for_pattern buf w pattern timeout_ms).ret = some 0 ∧
    ((∀ l ∈ earlier, ¬ pattern <:+: seen l) →
      (wait_for_pattern buf w pattern timeout_ms).world.rx = post ∧
      (wait_for_pattern buf w pattern timeout_ms).receive_buffer.take
          (A9_UART_RX_BUFFER_SIZE - 2) = line.take (A9_UART_RX_BUFFER_SIZE - 2) ∧
      (wait_for_pattern buf w pattern timeout_ms).receive_buffer[A9_UART_RX_BUFFER_SIZE - 2]?
          = some 0) := by
  have hshown : (strstr (seen line) pattern).isSome = true := by
    rw [strstr_isSome_iff, seen, cstr_eq_self hnul]
    exact hpat
  constructor
  · refine wait_for_pattern_live_any buf w pattern timeout_ms pre post (earlier ++ [line]) hbuf
      hT0 hT hrx (by simpa using hsplit) ?_ ⟨line, by simp, hshown⟩ harr
    intro l hl
    rcases List.mem_append.mp hl with h | h
    · exact hear l h
    · rw [List.mem_singleton.mp h]; exact hline
  · intro hno
    obtain ⟨-, hpost, hH⟩ := wait_for_pattern_live_first buf w pattern timeout_ms pre post
      earlier line hbuf hT0 hT hrx hsplit
      (fun l hl => ⟨hear l hl, (strstr_eq_none_iff _ _).mpr (hno l hl)⟩) hline hshown harr
    obtain ⟨-, htake, hget⟩ := hH
    have hmin : min line.length (A9_UART_RX_BUFFER_SIZE - 2) = A9_UART_RX_BUFFER_SIZE - 2 :=
      Nat.min_eq_right (Nat.le_of_lt hlong)
    rw [hmin] at htake hget
    exact ⟨hpost, htake, hget⟩

/-- C11 witness: the 2049-byte line "OK", 2046 times "A", LF, all of it pending at the call. -/
theorem c11_overflow_prefix_still_matches_witness :
    (wait_for_pattern (List.replicate 2048 0) ⟨0, arriving_at 0 (long_line 2046), [], none⟩
        [79, 75] 1000).ret = some 0 ∧
    ((∀ l ∈ ([] : List (List Nat)), ¬ [79, 75] <:+: seen l) →
      (wait_for_pattern (List.replicate 2048 0) ⟨0, arriving_at 0 (long_line 2046), [], none⟩
        [79, 75] 1000).world.rx = [] ∧
      (wait_for_pattern (List.replicate 2048 0) ⟨0, arriving_at 0 (long_line 2046), [], none⟩
        [79, 75] 1000).receive_buffer.take (A9_UART_RX_BUFFER_SIZE - 2)
          = (long_line 2046).take (A9_UART_RX_BUFFER_SIZE - 2) ∧
      (wait_for_pattern (List.replicate 2048 0) ⟨0, arriving_at 0 (long_line 2046), [], none⟩
        [79, 75] 1000).receive_buffer[A9_UART_RX_BUFFER_SIZE - 2]? = some 0) :=
  c11_overflow_prefix_still_matches (List.replicate 2048 0)
    ⟨0, arriving_at 0 (long_line 2046), [], none⟩ [79, 75] 1000
    (arriving_at 0 (long_line 2046)) [] [] (long_line 2046)
    (List.length_replicate 2048 0) (by decide) (by decide) (by simp)
    (by rw [map_snd_arriving_at]; rfl) (by simp) (isLine_long_line 2046)
    (by rw [length_long_line]; decide)
    (fun h => nul_not_mem_long_line 2046 (List.mem_of_mem_take h))
    (ok_infix_long_line 2046 _ (by decide))
    (fun p hp => by rw [mem_arriving_at hp]; exact Nat.zero_le _)

/-- C11 counterexample: (1) the 2049-byte line "OK", 2046 "A", LF arrives whole at 25 ms,
before the deadline of 30 ms, and the call times out, because the loop polls at 0 and 20 ms
and leaves at 40 ms; (2) the line NUL, "OK", 2046 "A", LF is pending at the call and contains
"OK" in its first 2046 bytes, and the call times out, because `strstr` stops at the NUL. -/
theorem c11_counterexample :
    (IsLine (long_line 2046) ∧
      A9_UART_RX_BUFFER_SIZE - 2 < (long_line 2046).length ∧
      [79, 75] <:+: (long_line 2046).take (A9_UART_RX_BUFFER_SIZE - 2) ∧
      (∀ p ∈ arriving_at 25 (long_line 2046), p.1 < 0 + 30) ∧
      (wait_for_pattern (List.replicate 2048 0)
        ⟨0, arriving_at 25 (long_line 2046), [], none⟩ [79, 75] 30).ret = some (-1)) ∧
    (IsLine (nul_line 2046) ∧
      A9_UART_RX_BUFFER_SIZE - 2 < (nul_line 2046).length ∧
      [79, 75] <:+: (nul_line 2046).take (A9_UART_RX_BUFFER_SIZE - 2) ∧
      (∀ p ∈ arriving_at 0 (nul_line 2046), p.1 < 0 + 1000) ∧
      (wait_for_pattern (List.replicate 2048 0)
        ⟨0, arriving_at 0 (nul_line 2046), [], none⟩ [79, 75] 1000).ret = some (-1)) := by
  refine ⟨⟨isLine_long_line 2046, by rw [length_long_line]; decide,
      ok_infix_long_line 2046 _ (by decide),
      fun p hp => by rw [mem_arriving_at hp]; decide, ?_⟩,
    ⟨isLine_nul_line 2046, by rw [length_nul_line]; decide,
      ok_infix_nul_line 2046 _ (by decide),
      fun p hp => by rw [mem_arriving_at hp]; decide, ?_⟩⟩
  · refine (wait_for_pattern_late _ _ [79, 75] 30 (by decide) ?_).1
    intro p hp
    have hp2 : p ∈ arriving_at 25 (long_line 2046) := List.mem_of_mem_head? hp
    rw [mem_arriving_at hp2]
    decide
  · exact wait_for_pattern_nul_line 2046 0 1000 _ (by decide) rfl _
      (List.length_replicate 2048 0)

/-! ## C12, C13 -/

theorem cstr_of_holdsLine {buf line : List Nat} (h : HoldsLine buf line) :
    cstr buf = seen line := by
  obtain ⟨-, htake, hget⟩ := h
  have hlt : min line.length (A9_UART_RX_BUFFER_SIZE - 2) < buf.length := by
    by_contra hge
    rw [List.getElem?_eq_none (by omega)] at hget
    exact absurd hget (by simp)
  have hsplit : buf = buf.take (min line.length (A9_UART_RX_BUFFER_SIZE - 2)) ++
      0 :: buf.drop (min line.length (A9_UART_RX_BUFFER_SIZE - 2) + 1) := by
    have h0 : buf[min line.length (A9_UART_RX_BUFFER_SIZE - 2)] = 0 := by
      rw [List.getElem?_eq_getElem hlt] at hget
      exact Option.some.inj hget
    rw [← h0, ← List.drop_eq_getElem_cons hlt, List.take_append_drop]
  rw [hsplit, cstr_append_nul, htake]
  rfl

theorem seen_length_le (line : List Nat) : (seen line).length ≤ A9_UART_RX_BUFFER_SIZE - 2 := by
  unfold seen
  calc (cstr (line.take (A9_UART_RX_BUFFER_SIZE - 2))).length
      ≤ (line.take (A9_UART_RX_BUFFER_SIZE - 2)).length := (cstr_initial _).length_le
    _ ≤ A9_UART_RX_BUFFER_SIZE - 2 := by rw [List.length_take]; exact Nat.min_le_left _ _

theorem infix_of_infix_seen {pattern line : List Nat} (h : pattern <:+: seen line) :
    pattern <:+: line := by
  unfold seen at h
  exact h.trans ((cstr_initial _).isInfix.trans ( List.take_prefix _ _).isInfix)

/-- C12: matching is line-scoped. For every pattern, buffer content left by earlier calls and
inbound stream, when `wait_for_pattern` returns Matched (0) the bytes it consumed are a
sequence of whole lines, and the pattern occurs inside the last of them, a single completed
line of the stream (its bytes up to and including its LF). Hence, when no completed line of
the stream contains the pattern (it may straddle a line boundary, or occur in what earlier
calls left in the buffer), `wait_for_pattern` does not return Matched. -/
theorem c12_match_is_line_scoped (buf : List Nat) (w : World) (pattern : List Nat)
    (timeout_ms : Nat) (hbuf : buf.length = A9_UART_RX_BUFFER_SIZE) :
    ((wait_for_pattern buf w pattern timeout_ms).ret = some 0 →
      ∃ (k : Nat) (earlier : List (List Nat)) (line : List Nat),
        (wait_for_pattern buf w pattern timeout_ms).world.rx = w.rx.drop k ∧
        (w.rx.take k).map Prod.snd = earlier.flatten ++ line ∧
        (∀ l ∈ earlier, IsLine l) ∧ IsLine line ∧
        line ∈ completed_lines [] (w.rx.map Prod.snd) ∧
        pattern <:+: line) ∧
    ((∀ l ∈ completed_lines [] (w.rx.map Prod.snd), ¬ pattern <:+: l) →
      (wait_for_pattern buf w pattern timeout_ms).ret ≠ some 0) := by
  have key : (wait_for_pattern buf w pattern timeout_ms).ret = some 0 →
      ∃ (k : Nat) (earlier : List (List Nat)) (line : List Nat),
        (wait_for_pattern buf w pattern timeout_ms).world.rx = w.rx.drop k ∧
        (w.rx.take k).map Prod.snd = earlier.flatten ++ line ∧
        (∀ l ∈ earlier, IsLine l) ∧ IsLine line ∧
        line ∈ completed_lines [] (w.rx.map Prod.snd) ∧
        pattern <:+: line := by
    intro hret
    obtain ⟨k, earlier, tail, -, hrest, hsplit, hear, hmat, -⟩ :=
      wait_for_pattern_scanned (wait_budget w timeout_ms) buf w pattern timeout_ms hbuf
    obtain ⟨hline, hsome, -⟩ := hmat hret
    have hcl := completed_lines_split ((w.rx.take k).map Prod.snd) [] earlier tail (by simp)
      (fun l hl => (hear l hl).1) hline hsplit
    obtain ⟨c2, happ⟩ := completed_lines_append ((w.rx.take k).map Prod.snd)
      ((w.rx.drop k).map Prod.snd) []
    rw [← List.map_append, List.take_append_drop, hcl] at happ
    refine ⟨k, earlier, tail, hrest, by simpa using hsplit, fun l hl => (hear l hl).1, hline,
      by rw [happ]; simp, ?_⟩
    exact infix_of_infix_seen ((strstr_isSome_iff _ _).mp hsome)
  refine ⟨key, ?_⟩
  intro hno hret
  obtain ⟨k, earlier, line, -, -, -, -, hmem, hin⟩ := key hret
  exact hno line hmem hin

/-- C12 witness: pattern "OK". On the stream "O", LF, "K", LF, "OK", CR, LF the call matches,
and the pattern lies in one line; on the stream "O", LF, "K", LF no line contains the pattern
and the call does not match. -/
theorem c12_match_is_line_scoped_witness :
    ((List.replicate 2048 0).length = A9_UART_RX_BUFFER_SIZE ∧
      (wait_for_pattern (List.replicate 2048 0)
        ⟨0, arriving_at 0 [79, 10, 75, 10, 79, 75, 13, 10], [], none⟩ [79, 75] 1000).ret
          = some 0 ∧
      ∃ (k : Nat) (earlier : List (List Nat)) (line : List Nat),
        (wait_for_pattern (List.replicate 2048 0)
          ⟨0, arriving_at 0 [79, 10, 75, 10, 79, 75, 13, 10], [], none⟩ [79, 75] 1000).world.rx
            = (arriving_at 0 [79, 10, 75, 10, 79, 75, 13, 10]).drop k ∧
        ((arriving_at 0 [79, 10, 75, 10, 79, 75, 13, 10]).take k).map Prod.snd
          = earlier.flatten ++ line ∧
        (∀ l ∈ earlier, IsLine l) ∧ IsLine line ∧
        line ∈ completed_lines [] ((arriving_at 0 [79, 10, 75, 10, 79, 75, 13, 10]).map Prod.snd)
          ∧ [79, 75] <:+: line) ∧
    ((∀ l ∈ completed_lines [] ((arriving_at 0 [79, 10, 75, 10]).map Prod.snd),
        ¬ [79, 75] <:+: l) ∧
      (wait_for_pattern (List.replicate 2048 0)
        ⟨0, arriving_at 0 [79, 10, 75, 10], [], none⟩ [79, 75] 1000).ret ≠ some 0) :=
  ⟨⟨List.length_replicate 2048 0, by decide,
      (c12_match_is_line_scoped (List.replicate 2048 0)
        ⟨0, arriving_at 0 [79, 10, 75, 10, 79, 75, 13, 10], [], none⟩ [79, 75] 1000
        (List.length_replicate 2048 0)).1 (by decide)⟩,
    ⟨by decide,
      (c12_match_is_line_scoped (List.replicate 2048 0)
        ⟨0, arriving_at 0 [79, 10, 75, 10], [], none⟩ [79, 75] 1000
        (List.length_replicate 2048 0)).2 (by decide)⟩⟩

/-- C13: line buffer capacity. For every pattern, timeout, inbound stream and buffer content,
after any number `n` of iterations of the loop of `wait_for_pattern`: the cursor is at most
`A9_UART_RX_BUFFER_SIZE - 2`; every index written so far (data byte or NUL terminator) is at
most `A9_UART_RX_BUFFER_SIZE - 2`, hence below `A9_UART_RX_BUFFER_SIZE`; the buffer keeps its
size; a matched line is stored as a C string of at most `A9_UART_RX_BUFFER_SIZE - 2` bytes; and
whatever lines came before (over-long ones included), the line being assembled starts at index
0: the cursor is the length of the part read so far, capped at `A9_UART_RX_BUFFER_SIZE - 2`, and
the buffer starts with those bytes. -/
theorem c13_line_buffer_capacity (n : Nat) (buf : List Nat) (w : World) (pattern : List Nat)
    (timeout_ms : Nat) (hbuf : buf.length = A9_UART_RX_BUFFER_SIZE) :
    (wait_for_pattern_upto n buf w pattern timeout_ms).cursor ≤ A9_UART_RX_BUFFER_SIZE - 2 ∧
    (∀ i ∈ (wait_for_pattern_upto n buf w pattern timeout_ms).writes,
      i ≤ A9_UART_RX_BUFFER_SIZE - 2 ∧ i < A9_UART_RX_BUFFER_SIZE) ∧
    (wait_for_pattern_upto n buf w pattern timeout_ms).receive_buffer.length
      = A9_UART_RX_BUFFER_SIZE ∧
    ((wait_for_pattern_upto n buf w pattern timeout_ms).ret = some 0 →
      (get_received_line (wait_for_pattern_upto n buf w pattern timeout_ms).receive_buffer).length
        ≤ A9_UART_RX_BUFFER_SIZE - 2) ∧
    (∃ (k : Nat) (earlier : List (List Nat)) (current : List Nat),
      (wait_for_pattern_upto n buf w pattern timeout_ms).world.rx = w.rx.drop k ∧
      (w.rx.take k).map Prod.snd = earlier.flatten ++ current ∧
      (∀ l ∈ earlier, IsLine l) ∧
      ((wait_for_pattern_upto n buf w pattern timeout_ms).ret ≠ some 0 →
        10 ∉ current ∧
        (wait_for_pattern_upto n buf w pattern timeout_ms).cursor
          = min current.length (A9_UART_RX_BUFFER_SIZE - 2) ∧
        (wait_for_pattern_upto n buf w pattern timeout_ms).receive_buffer.take
            (wait_for_pattern_upto n buf w pattern timeout_ms).cursor
          = current.take (A9_UART_RX_BUFFER_SIZE - 2))) := by
  obtain ⟨hc, hw, hl⟩ := wait_loop_bounds pattern timeout_ms (millis w) n (buf.set 0 0) 0 w [0]
    (Nat.zero_le _) (by simp)
  obtain ⟨k, earlier, tail, -, hrest, hsplit, hear, hmat, hnot⟩ :=
    wait_for_pattern_scanned n buf w pattern timeout_ms hbuf
  refine ⟨hc, ?_, by simpa [wait_for_pattern_upto, hbuf] using hl, ?_, ?_⟩
  · intro i hi
    have := hw i hi
    exact ⟨this, by unfold A9_UART_RX_BUFFER_SIZE at this ⊢; omega⟩
  · intro hret
    unfold get_received_line
    rw [cstr_of_holdsLine (hmat hret).2.2]
    exact seen_length_le _
  · refine ⟨k, earlier, tail, hrest, by simpa using hsplit, fun l hl => (hear l hl).1, ?_⟩
    intro hne
    obtain ⟨h10, -, hcur, htake⟩ := hnot hne
    exact ⟨h10, hcur, htake⟩

/-- C13 witness: five iterations on an all-zero buffer with "AB", LF, "C" pending. -/
theorem c13_line_buffer_capacity_witness :
    (List.replicate 2048 0).length = A9_UART_RX_BUFFER_SIZE ∧
    (wait_for_pattern_upto 5 (List.replicate 2048 0)
      ⟨0, arriving_at 0 [65, 66, 10, 67], [], none⟩ [79, 75] 1000).cursor = 1 ∧
    (wait_for_pattern_upto 5 (List.replicate 2048 0)
      ⟨0, arriving_at 0 [65, 66, 10, 67], [], none⟩ [79, 75] 1000).writes = [0, 3, 2, 1, 0, 0] ∧
    (wait_for_pattern_upto 5 (List.replicate 2048 0)
      ⟨0, arriving_at 0 [65, 66, 10, 67], [], none⟩ [79, 75] 1000).cursor
        ≤ A9_UART_RX_BUFFER_SIZE - 2 :=
  ⟨List.length_replicate 2048 0, by decide, by decide,
    (c13_line_buffer_capacity 5 (List.replicate 2048 0)
      ⟨0, arriving_at 0 [65, 66, 10, 67], [], none⟩ [79, 75] 1000
      (List.length_replicate 2048 0)).1⟩

/-! ## C16 -/

theorem wait_loop_timeout_elapsed (pattern : List Nat) (timeout_ms start_time : Nat) :
    ∀ (fuel : Nat) (buf : List Nat) (cursor : Nat) (w : World) (log : List Nat),
      (wait_loop pattern timeout_ms start_time fuel buf cursor w log).ret = some (-1) →
      timeout_ms ≤ (millis (wait_loop pattern timeout_ms start_time fuel buf cursor w log).world
        + 2 ^ 32 - start_time) % 2 ^ 32 := by
  intro fuel
  induction fuel with
  | zero => intro buf cursor w log h; simp [wait_loop] at h
  | succ n ih =>
    intro buf cursor w log
    simp only [wait_loop]
    generalize (if cursor < A9_UART_RX_BUFFER_SIZE - 2 then cursor + 1 else cursor) = c1
    split
    · split
      · split
        · split
          · intro h; simp at h
          · exact ih _ _ _ _
        · exact ih _ _ _ _
      · exact ih _ _ _ _
    · intro _
      simp only
      omega

theorem wait_for_pattern_zero_timeout (buf : List Nat) (w : World) (pattern : List Nat) :
    (wait_for_pattern buf w pattern 0).ret = some (-1) ∧
    (wait_for_pattern buf w pattern 0).world = w := by
  simp [wait_for_pattern, wait_for_pattern_upto, wait_budget, wait_loop]

/-- C16: `wait_for_pattern` never reports TimedOut early. Whenever it returns -1, the elapsed
time the code computes from the clock, `(millis() - start_time) mod 2^32`, is at least
`timeout_ms`; for a timeout of at most `2^32 - 20` ms the call returns (0 or -1) and a return of
-1 happens at least `timeout_ms` and less than `timeout_ms + 20` ms (one poll quantum) after the
call; with timeout 0 it returns -1 at once, leaving clock and transport as they were, so no
byte is consumed. -/
theorem c16_timeout_not_early (buf : List Nat) (w : World) (pattern : List Nat)
    (timeout_ms : Nat) :
    ((wait_for_pattern buf w pattern timeout_ms).ret = some (-1) →
      timeout_ms ≤ (millis (wait_for_pattern buf w pattern timeout_ms).world
        + 2 ^ 32 - millis w) % 2 ^ 32) ∧
    (timeout_ms + 20 ≤ 2 ^ 32 →
      ((wait_for_pattern buf w pattern timeout_ms).ret = some 0 ∨
        (wait_for_pattern buf w pattern timeout_ms).ret = some (-1)) ∧
      ((wait_for_pattern buf w pattern timeout_ms).ret = some (-1) →
        w.now + timeout_ms ≤ (wait_for_pattern buf w pattern timeout_ms).world.now ∧
        (wait_for_pattern buf w pattern timeout_ms).world.now < w.now + timeout_ms + 20)) ∧
    ((wait_for_pattern buf w pattern 0).ret = some (-1) ∧
      (wait_for_pattern buf w pattern 0).world = w) := by
  refine ⟨wait_loop_timeout_elapsed pattern timeout_ms (millis w) _ _ 0 w [0], ?_,
    wait_for_pattern_zero_timeout buf w pattern⟩
  intro hT
  have hfr := (wait_loop_frame pattern timeout_ms (millis w) (wait_budget w timeout_ms)
    (buf.set 0 0) 0 w [0]).2.2
  change w.now ≤ (wait_for_pattern buf w pattern timeout_ms).world.now at hfr
  rcases wait_for_pattern_returns buf w pattern timeout_ms hT with h | h
  · exact ⟨Or.inl h.1, fun h2 => by rw [h.1] at h2; simp at h2⟩
  · refine ⟨Or.inr h.1, fun _ => ?_⟩
    omega

/-- C16 witness: nothing arrives during a wait of 30 ms started at 1000 ms. -/
theorem c16_timeout_not_early_witness :
    (wait_for_pattern (List.replicate 2048 0) ⟨1000, [], [], none⟩ [79, 75] 30).ret
      = some (-1) ∧
    (wait_for_pattern (List.replicate 2048 0) ⟨1000, [], [], none⟩ [79, 75] 30).world.now
      = 1040 ∧
    (1000 + 30 ≤
        (wait_for_pattern (List.replicate 2048 0) ⟨1000, [], [], none⟩ [79, 75] 30).world.now ∧
      (wait_for_pattern (List.replicate 2048 0) ⟨1000, [], [], none⟩ [79, 75] 30).world.now
        < 1000 + 30 + 20) :=
  ⟨by decide, by decide,
    ((c16_timeout_not_early (List.replicate 2048 0) ⟨1000, [], [], none⟩ [79, 75] 30).2.1
      (by decide)).2 (by decide)⟩

/-! ## C17, C18: what is held and what is consumed after a match -/

theorem isLine_tail_line (n : Nat) : IsLine (tail_line n) :=
  ⟨List.replicate n 65 ++ [79, 75], by simp [tail_line], by simp⟩

theorem ok_infix_tail_line (n : Nat) : [79, 75] <:+: tail_line n :=
  ⟨List.replicate n 65, [10], by simp [tail_line]⟩

theorem take_tail_line (n : Nat) (h : A9_UART_RX_BUFFER_SIZE - 2 ≤ n) :
    (tail_line n).take (A9_UART_RX_BUFFER_SIZE - 2)
      = List.replicate (A9_UART_RX_BUFFER_SIZE - 2) 65 := by
  unfold tail_line
  rw [List.take_append_of_le_length (by simpa using h), List.take_replicate,
    Nat.min_eq_left h]

theorem seen_tail_line (n : Nat) (h : A9_UART_RX_BUFFER_SIZE - 2 ≤ n) :
    strstr (seen (tail_line n)) [79, 75] = none := by
  rw [strstr_eq_none_iff, seen, take_tail_line n h]
  intro hin
  have h79 : (79 : Nat) ∈ cstr (List.replicate (A9_UART_RX_BUFFER_SIZE - 2) 65) :=
    hin.subset (by simp)
  have := (cstr_initial _).subset h79
  rw [List.mem_replicate] at this
  exact absurd this.2 (by decide)

theorem wait_for_pattern_tail_line (n : Nat) (h : A9_UART_RX_BUFFER_SIZE - 2 ≤ n) :
    (wait_for_pattern (List.replicate 2048 0)
      ⟨0, arriving_at 0 (tail_line n ++ [79, 75, 10]), [], none⟩ [79, 75] 1000).ret = some 0 ∧
    (wait_for_pattern (List.replicate 2048 0)
      ⟨0, arriving_at 0 (tail_line n ++ [79, 75, 10]), [], none⟩ [79, 75] 1000).world.rx = [] ∧
    get_received_line (wait_for_pattern (List.replicate 2048 0)
      ⟨0, arriving_at 0 (tail_line n ++ [79, 75, 10]), [], none⟩ [79, 75] 1000).receive_buffer
        = [79, 75, 10] := by
  obtain ⟨h1, h2, h3⟩ := wait_for_pattern_live_first (List.replicate 2048 0)
    ⟨0, arriving_at 0 (tail_line n ++ [79, 75, 10]), [], none⟩ [79, 75] 1000
    (arriving_at 0 (tail_line n ++ [79, 75, 10])) [] [tail_line n] [79, 75, 10]
    (List.length_replicate 2048 0) (by decide) (by decide) (by simp)
    (by rw [map_snd_arriving_at]; simp)
    (by
      intro l hl
      rw [List.mem_singleton.mp hl]
      exact ⟨isLine_tail_line n, seen_tail_line n h⟩)
    ⟨[79, 75], rfl, by decide⟩ (by decide)
    (fun p hp => by rw [mem_arriving_at hp]; exact Nat.zero_le _)
  refine ⟨h1, h2, ?_⟩
  unfold get_received_line
  rw [cstr_of_holdsLine h3]
  decide

/-- C17 (as amended): after `wait_for_pattern` returns Matched (0), the consumed bytes are a
sequence of whole lines; in none of the earlier ones does the captured part (`seen`: the first
`A9_UART_RX_BUFFER_SIZE - 2` bytes, read up to the first NUL byte) contain the pattern, and the
last one, `line`, is the first whose captured part does. The buffer holds verbatim the first
`min |line| (A9_UART_RX_BUFFER_SIZE - 2)` bytes of that line (all of it with its LF unless it
overflowed), followed by a NUL, with no byte of another line before the NUL;
`get_received_line()` is that captured part, the bytes themselves when they hold no NUL. -/
theorem c17_received_line_after_match (buf : List Nat) (w : World) (pattern : List Nat)
    (timeout_ms : Nat) (hbuf : buf.length = A9_UART_RX_BUFFER_SIZE)
    (hret : (wait_for_pattern buf w pattern timeout_ms).ret = some 0) :
    ∃ (k : Nat) (earlier : List (List Nat)) (line : List Nat),
      (w.rx.take k).map Prod.snd = earlier.flatten ++ line ∧
      (∀ l ∈ earlier, IsLine l ∧ ¬ pattern <:+: seen l) ∧
      IsLine line ∧ pattern <:+: seen line ∧
      (wait_for_pattern buf w pattern timeout_ms).receive_buffer.take
          (min line.length (A9_UART_RX_BUFFER_SIZE - 2))
        = line.take (A9_UART_RX_BUFFER_SIZE - 2) ∧
      (wait_for_pattern buf w pattern timeout_ms).receive_buffer[
          min line.length (A9_UART_RX_BUFFER_SIZE - 2)]? = some 0 ∧
      get_received_line (wait_for_pattern buf w pattern timeout_ms).receive_buffer
        = seen line ∧
      (0 ∉ line.take (A9_UART_RX_BUFFER_SIZE - 2) →
        get_received_line (wait_for_pattern buf w pattern timeout_ms).receive_buffer
          = line.take (A9_UART_RX_BUFFER_SIZE - 2)) := by
  obtain ⟨k, earlier, tail, -, -, hsplit, hear, hmat, -⟩ :=
    wait_for_pattern_scanned (wait_budget w timeout_ms) buf w pattern timeout_ms hbuf
  obtain ⟨hline, hsome, hH⟩ := hmat hret
  have hget : get_received_line (wait_for_pattern buf w pattern timeout_ms).receive_buffer
      = seen tail := cstr_of_holdsLine hH
  refine ⟨k, earlier, tail, by simpa using hsplit, ?_, hline, (strstr_isSome_iff _ _).mp hsome,
    hH.2.1, hH.2.2, hget, ?_⟩
  · intro l hl
    exact ⟨(hear l hl).1, (strstr_eq_none_iff _ _).mp (hear l hl).2⟩
  · intro h0
    rw [hget, seen, cstr_eq_self h0]

/-- C17 witness: the stream "AT", CR, LF, "OK", CR, LF, "x" with pattern "OK". -/
theorem c17_received_line_after_match_witness :
    (List.replicate 2048 7).length = A9_UART_RX_BUFFER_SIZE ∧
    (wait_for_pattern (List.replicate 2048 7)
      ⟨0, arriving_at 0 [65, 84, 13, 10, 79, 75, 13, 10, 120], [], none⟩ [79, 75] 1000).ret
        = some 0 ∧
    get_received_line (wait_for_pattern (List.replicate 2048 7)
      ⟨0, arriving_at 0 [65, 84, 13, 10, 79, 75, 13, 10, 120], [], none⟩ [79, 75]
        1000).receive_buffer = [79, 75, 13, 10] ∧
    ∃ (k : Nat) (earlier : List (List Nat)) (line : List Nat),
      ((arriving_at 0 [65, 84, 13, 10, 79, 75, 13, 10, 120]).take k).map Prod.snd
        = earlier.flatten ++ line ∧
      (∀ l ∈ earlier, IsLine l ∧ ¬ [79, 75] <:+: seen l) ∧
      IsLine line ∧ [79, 75] <:+: seen line ∧
      (wait_for_pattern (List.replicate 2048 7)
        ⟨0, arriving_at 0 [65, 84, 13, 10, 79, 75, 13, 10, 120], [], none⟩ [79, 75]
          1000).receive_buffer.take (min line.length (A9_UART_RX_BUFFER_SIZE - 2))
        = line.take (A9_UART_RX_BUFFER_SIZE - 2) ∧
      (wait_for_pattern (List.replicate 2048 7)
        ⟨0, arriving_at 0 [65, 84, 13, 10, 79, 75, 13, 10, 120], [], none⟩ [79, 75]
          1000).receive_buffer[min line.length (A9_UART_RX_BUFFER_SIZE - 2)]? = some 0 ∧
      get_received_line (wait_for_pattern (List.replicate 2048 7)
        ⟨0, arriving_at 0 [65, 84, 13, 10, 79, 75, 13, 10, 120], [], none⟩ [79, 75]
          1000).receive_buffer = seen line ∧
      (0 ∉ line.take (A9_UART_RX_BUFFER_SIZE - 2) →
        get_received_line (wait_for_pattern (List.replicate 2048 7)
          ⟨0, arriving_at 0 [65, 84, 13, 10, 79, 75, 13, 10, 120], [], none⟩ [79, 75]
            1000).receive_buffer = line.take (A9_UART_RX_BUFFER_SIZE - 2)) :=
  ⟨List.length_replicate 2048 7, by decide, by decide,
    c17_received_line_after_match (List.replicate 2048 7)
      ⟨0, arriving_at 0 [65, 84, 13, 10, 79, 75, 13, 10, 120], [], none⟩ [79, 75] 1000
      (List.length_replicate 2048 7) (by decide)⟩

/-- C17 counterexample, pattern "OK". (1) The stream is the line 2046 "A", "OK", LF followed by
the line "OK", LF. The first completed line that contains the pattern is the long one; the
claim has the buffer hold its first 2046 bytes (2046 "A"), but the call matches the second line
and `get_received_line()` is "OK", LF. (2) The stream is "A", NUL, "OK", LF, "OK", LF: the first
line contains the pattern, yet the buffer ends up holding the second one. -/
theorem c17_counterexample :
    (IsLine (tail_line 2046) ∧ [79, 75] <:+: tail_line 2046 ∧
      (wait_for_pattern (List.replicate 2048 0)
        ⟨0, arriving_at 0 (tail_line 2046 ++ [79, 75, 10]), [], none⟩ [79, 75] 1000).ret
          = some 0 ∧
      get_received_line (wait_for_pattern (List.replicate 2048 0)
        ⟨0, arriving_at 0 (tail_line 2046 ++ [79, 75, 10]), [], none⟩ [79, 75]
          1000).receive_buffer = [79, 75, 10] ∧
      (tail_line 2046).take (A9_UART_RX_BUFFER_SIZE - 2) = List.replicate 2046 65) ∧
    (IsLine [65, 0, 79, 75, 10] ∧ [79, 75] <:+: [65, 0, 79, 75, 10] ∧
      (wait_for_pattern (List.replicate 2048 0)
        ⟨0, arriving_at 0 ([65, 0, 79, 75, 10] ++ [79, 75, 10]), [], none⟩ [79, 75] 1000).ret
          = some 0 ∧
      get_received_line (wait_for_pattern (List.replicate 2048 0)
        ⟨0, arriving_at 0 ([65, 0, 79, 75, 10] ++ [79, 75, 10]), [], none⟩ [79, 75]
          1000).receive_buffer = [79, 75, 10]) := by
  obtain ⟨h1, -, h3⟩ := wait_for_pattern_tail_line 2046 (by decide)
  exact ⟨⟨isLine_tail_line 2046, ok_infix_tail_line 2046, h1, h3, take_tail_line 2046 (by decide)⟩,
    ⟨⟨[65, 0, 79, 75], rfl, by decide⟩, by decide, by decide, by decide⟩⟩

theorem wait_loop_match_no_sleep (pattern : List Nat) (timeout_ms start_time : Nat)
    (fuel : Nat) (buf : List Nat) (cursor : Nat) (w : World) (log : List Nat)
    (hret : (wait_loop pattern timeout_ms start_time fuel buf cursor w log).ret = some 0)
    (hnow : (wait_loop pattern timeout_ms start_time fuel buf cursor w log).world.now = w.now) :
    check_incoming_byte w = true := by
  cases fuel with
  | zero => simp [wait_loop] at hret
  | succ n =>
    simp only [wait_loop] at hret hnow
    by_cases ht : (millis w + 2 ^ 32 - start_time) % 2 ^ 32 < timeout_ms
    · rw [if_pos ht] at hret hnow
      by_cases hav : check_incoming_byte w = true
      · exact hav
      · rw [if_neg hav, vTaskDelay_poll] at hnow
        have := (wait_loop_frame pattern timeout_ms start_time n buf cursor
          { w with now := w.now + 20 } log).2.2
        simp only at this
        omega
    · rw [if_neg ht] at hret
      simp at hret

/-- A match is returned at the poll that reads the LF: either no sleep happened at all, or a
byte of the input arrived less than 20 ms before the return. -/
theorem wait_loop_prompt (pattern : List Nat) (timeout_ms start_time : Nat) :
    ∀ (fuel : Nat) (buf : List Nat) (cursor : Nat) (w : World) (log : List Nat),
      (wait_loop pattern timeout_ms start_time fuel buf cursor w log).ret = some 0 →
      (wait_loop pattern timeout_ms start_time fuel buf cursor w log).world.now = w.now ∨
      ∃ p ∈ w.rx, p.1 ≤ (wait_loop pattern timeout_ms start_time fuel buf cursor w log).world.now
        ∧ (wait_loop pattern timeout_ms start_time fuel buf cursor w log).world.now < p.1 + 20 := by
  intro fuel
  induction fuel with
  | zero => intro buf cursor w log h; simp [wait_loop] at h
  | succ n ih =>
    intro buf cursor w log
    simp only [wait_loop]
    by_cases ht : (millis w + 2 ^ 32 - start_time) % 2 ^ 32 < timeout_ms
    · rw [if_pos ht]
      by_cases hav : check_incoming_byte w = true
      · rw [if_pos hav]
        obtain ⟨p, rest, hrx, -, hread⟩ := read_incoming_byte_of_check hav
        rw [hread]
        simp only
        generalize (if cursor < A9_UART_RX_BUFFER_SIZE - 2 then cursor + 1 else cursor) = c1
        have hsub : ∀ q ∈ rest, q ∈ w.rx := fun q hq => by rw [hrx]; exact List.mem_cons_of_mem _ hq
        split
        · split
          · intro _; left; rfl
          · intro h
            rcases ih _ _ { w with rx := rest } _ h with h1 | ⟨q, hq, h2⟩
            · left; exact h1
            · right; exact ⟨q, hsub q hq, h2⟩
        · intro h
          rcases ih _ _ { w with rx := rest } _ h with h1 | ⟨q, hq, h2⟩
          · left; exact h1
          · right; exact ⟨q, hsub q hq, h2⟩
      · rw [if_neg hav, vTaskDelay_poll]
        intro h
        right
        rcases ih buf cursor { w with now := w.now + 20 } log h with h1 | ⟨q, hq, h2⟩
        · have hav2 := wait_loop_match_no_sleep pattern timeout_ms start_time n buf cursor
            { w with now := w.now + 20 } log h h1
          obtain ⟨p, rest, hrx, hp, -⟩ := read_incoming_byte_of_check hav2
          simp only at hrx hp h1
          have hp0 : w.now < p.1 := by
            unfold check_incoming_byte at hav
            rw [hrx] at hav
            simpa using hav
          exact ⟨p, by rw [hrx]; exact List.mem_cons_self _ _, by omega, by omega⟩
        · exact ⟨q, hq, h2⟩
    · rw [if_neg ht]
      intro h; simp at h

/-- C18 (as amended): first match wins and returns at once. When `wait_for_pattern` returns
Matched (0) it has consumed from the transport exactly a prefix of the pending input that ends
with the LF of a line `line`; everything after that LF is left unread. The earlier consumed
bytes are whole lines in whose captured part (`seen`: first `A9_UART_RX_BUFFER_SIZE - 2` bytes,
up to the first NUL) the pattern does not occur, and `line` is the first line in whose captured
part it does. Nothing is written to the modem, and the call returns at the poll that read the
LF: with no sleep at all, or less than 20 ms after some inbound byte arrived. -/
theorem c18_first_match_wins (buf : List Nat) (w : World) (pattern : List Nat)
    (timeout_ms : Nat) (hbuf : buf.length = A9_UART_RX_BUFFER_SIZE)
    (hret : (wait_for_pattern buf w pattern timeout_ms).ret = some 0) :
    (∃ (k : Nat) (earlier : List (List Nat)) (line : List Nat),
      w.rx = w.rx.take k ++ (wait_for_pattern buf w pattern timeout_ms).world.rx ∧
      (w.rx.take k).map Prod.snd = earlier.flatten ++ line ∧
      (∀ l ∈ earlier, IsLine l ∧ ¬ pattern <:+: seen l) ∧
      IsLine line ∧ pattern <:+: seen line) ∧
    (wait_for_pattern buf w pattern timeout_ms).world.tx = w.tx ∧
    ((wait_for_pattern buf w pattern timeout_ms).world.now = w.now ∨
      ∃ p ∈ w.rx, p.1 ≤ (wait_for_pattern buf w pattern timeout_ms).world.now ∧
        (wait_for_pattern buf w pattern timeout_ms).world.now < p.1 + 20) := by
  obtain ⟨k, earlier, tail, -, hrest, hsplit, hear, hmat, -⟩ :=
    wait_for_pattern_scanned (wait_budget w timeout_ms) buf w pattern timeout_ms hbuf
  obtain ⟨hline, hsome, -⟩ := hmat hret
  refine ⟨⟨k, earlier, tail, ?_, by simpa using hsplit, ?_, hline,
    (strstr_isSome_iff _ _).mp hsome⟩,
    (wait_loop_frame pattern timeout_ms (millis w) _ _ 0 w [0]).1,
    wait_loop_prompt pattern timeout_ms (millis w) _ _ 0 w [0] hret⟩
  · change w.rx = w.rx.take k ++
      (wait_for_pattern_upto (wait_budget w timeout_ms) buf w pattern timeout_ms).world.rx
    rw [hrest, List.take_append_drop]
  · intro l hl
    exact ⟨(hear l hl).1, (strstr_eq_none_iff _ _).mp (hear l hl).2⟩

/-- C18 witness: "AT", CR, LF, "OK", CR, LF pending and "x" arriving at 500 ms: the call returns
at once and leaves "x" in the transport. -/
theorem c18_first_match_wins_witness :
    (List.replicate 2048 0).length = A9_UART_RX_BUFFER_SIZE ∧
    (wait_for_pattern (List.replicate 2048 0)
      ⟨0, arriving_at 0 [65, 84, 13, 10, 79, 75, 13, 10] ++ [(500, 120)], [], none⟩
        [79, 75] 1000).ret = some 0 ∧
    (wait_for_pattern (List.replicate 2048 0)
      ⟨0, arriving_at 0 [65, 84, 13, 10, 79, 75, 13, 10] ++ [(500, 120)], [], none⟩
        [79, 75] 1000).world = ⟨0, [(500, 120)], [], none⟩ ∧
    (wait_for_pattern (List.replicate 2048 0)
      ⟨0, arriving_at 0 [65, 84, 13, 10, 79, 75, 13, 10] ++ [(500, 120)], [], none⟩
        [79, 75] 1000).world.tx = [] :=
  ⟨List.length_replicate 2048 0, by decide, by decide,
    (c18_first_match_wins (List.replicate 2048 0)
      ⟨0, arriving_at 0 [65, 84, 13, 10, 79, 75, 13, 10] ++ [(500, 120)], [], none⟩
      [79, 75] 1000 (List.length_replicate 2048 0) (by decide)).2.1⟩

/-- C18 counterexample, pattern "OK". (1) The stream is the line 2046 "A", "OK", LF followed by
"OK", LF: the first completed line containing the pattern is the long one, so the claim leaves
"OK", LF unread; the call consumes everything. (2) The same with the first line "A", NUL, "OK",
LF. -/
theorem c18_counterexample :
    (IsLine (tail_line 2046) ∧ [79, 75] <:+: tail_line 2046 ∧
      (wait_for_pattern (List.replicate 2048 0)
        ⟨0, arriving_at 0 (tail_line 2046 ++ [79, 75, 10]), [], none⟩ [79, 75] 1000).ret
          = some 0 ∧
      (wait_for_pattern (List.replicate 2048 0)
        ⟨0, arriving_at 0 (tail_line 2046 ++ [79, 75, 10]), [], none⟩ [79, 75] 1000).world.rx
          = [] ∧
      (wait_for_pattern (List.replicate 2048 0)
        ⟨0, arriving_at 0 (tail_line 2046 ++ [79, 75, 10]), [], none⟩ [79, 75] 1000).world.rx
          ≠ arriving_at 0 [79, 75, 10]) ∧
    (IsLine [65, 0, 79, 75, 10] ∧ [79, 75] <:+: [65, 0, 79, 75, 10] ∧
      (wait_for_pattern (List.replicate 2048 0)
        ⟨0, arriving_at 0 ([65, 0, 79, 75, 10] ++ [79, 75, 10]), [], none⟩ [79, 75] 1000).ret
          = some 0 ∧
      (wait_for_pattern (List.replicate 2048 0)
        ⟨0, arriving_at 0 ([65, 0, 79, 75, 10] ++ [79, 75, 10]), [], none⟩ [79, 75]
          1000).world.rx = [] ∧
      (wait_for_pattern (List.replicate 2048 0)
        ⟨0, arriving_at 0 ([65, 0, 79, 75, 10] ++ [79, 75, 10]), [], none⟩ [79, 75]
          1000).world.rx ≠ arriving_at 0 [79, 75, 10]) := by
  obtain ⟨h1, h2, -⟩ := wait_for_pattern_tail_line 2046 (by decide)
  refine ⟨⟨isLine_tail_line 2046, ok_infix_tail_line 2046, h1, h2, ?_⟩,
    ⟨⟨[65, 0, 79, 75], rfl, by decide⟩, by decide, by decide, by decide, by decide⟩⟩
  rw [h2]
  decide

/-! ## C20 -/

theorem wait_loop_ret_cases (pattern : List Nat) (timeout_ms start_time : Nat) :
    ∀ (fuel : Nat) (buf : List Nat) (cursor : Nat) (w : World) (log : List Nat),
      (wait_loop pattern timeout_ms start_time fuel buf cursor w log).ret = none ∨
      (wait_loop pattern timeout_ms start_time fuel buf cursor w log).ret = some 0 ∨
      (wait_loop pattern timeout_ms start_time fuel buf cursor w log).ret = some (-1) := by
  intro fuel
  induction fuel with
  | zero => intro buf cursor w log; simp [wait_loop]
  | succ n ih =>
    intro buf cursor w log
    simp only [wait_loop]
    generalize (if cursor < A9_UART_RX_BUFFER_SIZE - 2 then cursor + 1 else cursor) = c1
    split
    · split
      · split
        · split
          · simp
          · exact ih _ _ _ _
        · exact ih _ _ _ _
      · exact ih _ _ _ _
    · simp

/-- C20 (the code at the failing input): with "OK", CR, LF pending, `wait_for_pattern("OK",
1000)` finds the pattern and returns 0 (line 406, `return 0; //Pattern found.`), not the 1
that the comment above the function announces; and on no input does it return 1. -/
theorem c20_match_returns_zero :
    (wait_for_pattern (List.replicate 2048 0) ⟨0, arriving_at 0 [79, 75, 13, 10], [], none⟩
      [79, 75] 1000).ret = some 0 ∧
    ∀ (buf : List Nat) (w : World) (pattern : List Nat) (timeout_ms : Nat),
      (wait_for_pattern buf w pattern timeout_ms).ret ≠ some 1 := by
  refine ⟨by decide, ?_⟩
  intro buf w pattern timeout_ms h
  rcases wait_loop_ret_cases pattern timeout_ms (millis w) (wait_budget w timeout_ms)
    (buf.set 0 0) 0 w [0] with h2 | h2 | h2 <;>
  · change (wait_for_pattern buf w pattern timeout_ms).ret = _ at h2
    rw [h2] at h
    simp at h

/-! ## HTTP exchange: reduction to the parse of the burst -/

theorem poke_length : ∀ (data buf : List Nat) (i : Nat), (poke buf i data).length = buf.length := by
  intro data
  induction data with
  | nil => intro buf i; rfl
  | cons d ds ih => intro buf i; simp [poke, ih]

theorem poke_eq : ∀ (data buf : List Nat) (i : Nat), i + data.length ≤ buf.length →
    poke buf i data = buf.take i ++ data ++ buf.drop (i + data.length) := by
  intro data
  induction data with
  | nil => intro buf i _; simp [poke]
  | cons d ds ih =>
    intro buf i h
    simp only [List.length_cons] at h
    have hi : i < buf.length := by omega
    simp only [poke]
    rw [ih (buf.set i d) (i + 1) (by simp; omega), set_eq_split hi]
    have hlen : (buf.take i).length = i := by rw [List.length_take]; omega
    have h1 : (buf.take i ++ d :: buf.drop (i + 1)).take (i + 1) = buf.take i ++ [d] := by
      have : buf.take i ++ d :: buf.drop (i + 1) = (buf.take i ++ [d]) ++ buf.drop (i + 1) := by
        simp
      rw [this, List.take_left' (by simp [hlen])]
    have h2 : (buf.take i ++ d :: buf.drop (i + 1)).drop (i + 1 + ds.length)
        = buf.drop (i + (ds.length + 1)) := by
      have : buf.take i ++ d :: buf.drop (i + 1) = (buf.take i ++ [d]) ++ buf.drop (i + 1) := by
        simp
      rw [this, List.drop_append_eq_append_drop]
      simp only [List.length_append, hlen, List.length_singleton, List.drop_drop]
      rw [List.drop_of_length_le (by simp [hlen])]
      simp only [List.nil_append]
      congr 1
      omega
    rw [h1, h2]
    simp [List.length_cons]

theorem cstr_burst_buffer (buf data : List Nat) (h : data.length < buf.length) :
    cstr ((poke buf 0 data).set data.length 0) = cstr data := by
  rw [poke_eq data buf 0 (by omega)]
  simp only [List.take_zero, List.nil_append, Nat.zero_add]
  rw [set_eq_split (by simp; omega)]
  rw [List.take_left' rfl, cstr_append_nul]

theorem wait_loop_tx (pattern : List Nat) (timeout_ms start_time : Nat) (t : List Nat) :
    ∀ (fuel : Nat) (buf : List Nat) (cursor : Nat) (w : World) (log : List Nat),
      wait_loop pattern timeout_ms start_time fuel buf cursor { w with tx := t } log =
        { wait_loop pattern timeout_ms start_time fuel buf cursor w log with
          world := { (wait_loop pattern timeout_ms start_time fuel buf cursor w log).world with
            tx := t } } := by
  intro fuel
  induction fuel with
  | zero => intro buf cursor w log; rfl
  | succ n ih =>
    intro buf cursor w log
    simp only [wait_loop]
    have h1 : millis { w with tx := t } = millis w := rfl
    have h2 : check_incoming_byte { w with tx := t } = check_incoming_byte w := rfl
    have h3 : (read_incoming_byte { w with tx := t }).1 = (read_incoming_byte w).1 := rfl
    have h4 : (read_incoming_byte { w with tx := t }).2
        = { (read_incoming_byte w).2 with tx := t } := rfl
    have h5 : vTaskDelay (20 / portTICK_PERIOD_MS) { w with tx := t }
        = { vTaskDelay (20 / portTICK_PERIOD_MS) w with tx := t } := rfl
    rw [h1, h2, h3, h4, h5]
    generalize (if cursor < A9_UART_RX_BUFFER_SIZE - 2 then cursor + 1 else cursor) = c1
    split
    · split
      · split
        · split
          · rfl
          · exact ih _ _ _ _
        · exact ih _ _ _ _
      · exact ih _ _ _ _
    · rfl

theorem wait_for_pattern_tx (buf : List Nat) (w : World) (pattern : List Nat) (timeout_ms : Nat)
    (t : List Nat) :
    wait_for_pattern buf { w with tx := t } pattern timeout_ms =
      { wait_for_pattern buf w pattern timeout_ms with
        world := { (wait_for_pattern buf w pattern timeout_ms).world with tx := t } } :=
  wait_loop_tx pattern timeout_ms (millis w) t _ _ 0 w [0]

theorem http_ack_returns (s : State) (w : World) :
    (http_ack s w).ret = some 0 ∨ (http_ack s w).ret = some (-1) := by
  rcases wait_for_pattern_returns s.receive_buffer (flush_serial w) (bytes "OK") 45000
    (by decide) with h | h
  · exact Or.inl h.1
  · exact Or.inr h.1

theorem http_get_eq (s : State) (w : World) (URL : List Nat) (rc0 bc0 : Nat) :
    http_get s w URL rc0 bc0 = http_exchange s w (http_get_command URL) rc0 bc0 := rfl

theorem http_post_eq (s : State) (w : World) (URL body : List Nat) (rc0 bc0 : Nat) :
    http_post s w URL body rc0 bc0 = http_exchange s w (http_post_command URL body) rc0 bc0 :=
  rfl

theorem http_exchange_unfit (s : State) (w : World) (command : List Nat) (rc0 bc0 : Nat)
    (hfit : ¬ command.length < A9_HTTP_BUFFER_SIZE) :
    http_exchange s w command rc0 bc0 = ⟨none, s, w⟩ := by
  unfold http_exchange
  rw [if_pos (by simp only [List.length_append, List.length_singleton]; omega)]

theorem http_exchange_summary (s : State) (w : World) (command : List Nat) (rc0 bc0 : Nat)
    (hbuf : s.http_buffer.length = A9_HTTP_BUFFER_SIZE)
    (hfit : command.length < A9_HTTP_BUFFER_SIZE) :
    (http_exchange s w command rc0 bc0).ret = http_ret s w rc0 bc0 ∧
    (http_exchange s w command rc0 bc0).state.http_response = http_resp s w rc0 bc0 := by
  unfold http_exchange
  rw [if_neg (by simp only [List.length_append, List.length_singleton]; omega)]
  lift_lets
  extract_lets b1 w1 w2 r s1 w3 b2 rd n b3 s2
  have hr : r = { http_ack s w with world := { (http_ack s w).world with tx := w2.tx } } :=
    wait_for_pattern_tx s.receive_buffer (flush_serial w) (bytes "OK") 45000 w2.tx
  have hret : r.ret = (http_ack s w).ret := by rw [hr]
  have hrd : rd.1 = http_burst s w := by
    show (uart_read_bytes (vTaskDelay (250 / portTICK_PERIOD_MS) r.world) _ _).1 = _
    rw [hr]
    rfl
  have hn : n = (http_burst s w).length := congrArg List.length hrd
  have hb2 : b2.length = A9_HTTP_BUFFER_SIZE := by
    show ((poke s.http_buffer 0 (command ++ [0])).set _ 0).length = _
    rw [List.length_set, poke_length]
    exact hbuf
  have hb3 : n < A9_HTTP_BUFFER_SIZE - 1 → cstr b3 = cstr (http_burst s w) := by
    intro hlt
    rw [← hrd]
    exact cstr_burst_buffer b2 rd.1 (by
      have : rd.1.length = n := rfl
      rw [hb2, this]; unfold A9_HTTP_BUFFER_SIZE at hlt ⊢; omega)
  have hs1 : s1.http_response = s.http_response := rfl
  have hs2 : s2.http_response = s.http_response := rfl
  clear hr
  clear_value s2 b3 n rd b2 w3 s1 r w2 w1 b1
  subst hn
  unfold http_ret http_resp
  rw [hret]
  rcases http_ack_returns s w with hack | hack
  · rw [hack]
    simp only [show ¬ ((0 : Int) = -1) by decide, if_false]
    unfold http_parse
    by_cases h2 : (http_burst s w).length ≥ A9_HTTP_BUFFER_SIZE - 1
    · simp only [if_pos h2, hs2, Option.getD_none, and_self]
    · rw [if_neg h2, if_neg h2]
      have hc := hb3 (by omega)
      by_cases h3 : (http_burst s w).length ≤ 0
      · simp only [if_pos h3, hs2, Option.getD_none, and_self]
      · rw [if_neg h3, if_neg h3, hc]
        unfold http_status http_content_length
        cases h4 : strstr (cstr (http_burst s w)) (bytes "HTTP") with
        | none => simp only [hs2, Option.getD_none, and_self]
        | some i =>
          simp only
          generalize sscanf (List.drop i (cstr (http_burst s w))) "HTTP/%*d.%*d %d OK %*s" = l1
          have key : ∀ rc : Nat,
              (if rc ≠ 200 then
                  ({ ret := some (to_int16 rc), state := s2, world := rd.2 } : Outcome)
                else
                  match strstr (cstr (http_burst s w)) (bytes "Content-Length") with
                  | none => { ret := some (-5), state := s2, world := rd.2 }
                  | some index =>
                    { ret := some 200,
                      state := { s2 with http_response :=
                        ((http_burst s w).length : Int) -
                          ((match sscanf (List.drop index (cstr (http_burst s w)))
                              "Content-Length: %d %*s" with
                            | v :: _ => to_uint16 v
                            | [] => bc0 % 2 ^ 16 : Nat) : Int) - 2 },
                      world := rd.2 }).ret =
                some (if rc ≠ 200 then (to_int16 rc, (none : Option Int))
                  else
                    match
                      (match strstr (cstr (http_burst s w)) (bytes "Content-Length") with
                      | none => none
                      | some i =>
                        match sscanf (List.drop i (cstr (http_burst s w)))
                            "Content-Length: %d %*s" with
                        | v :: _ => some (to_uint16 v)
                        | [] => some (bc0 % 2 ^ 16) : Option Nat) with
                    | none => (-5, none)
                    | some body_byte_count =>
                      (200, some (((http_burst s w).length : Int) - (body_byte_count : Int) - 2))).1 ∧
              (if rc ≠ 200 then
                  ({ ret := some (to_int16 rc), state := s2, world := rd.2 } : Outcome)
                else
                  match strstr (cstr (http_burst s w)) (bytes "Content-Length") with
                  | none => { ret := some (-5), state := s2, world := rd.2 }
                  | some index =>
                    { ret := some 200,
                      state := { s2 with http_response :=
                        ((http_burst s w).length : Int) -
                          ((match sscanf (List.drop index (cstr (http_burst s w)))
                              "Content-Length: %d %*s" with
                            | v :: _ => to_uint16 v
                            | [] => bc0 % 2 ^ 16 : Nat) : Int) - 2 },
                      world := rd.2 }).state.http_response =
                ((if rc ≠ 200 then (to_int16 rc, (none : Option Int))
                  else
                    match
                      (match strstr (cstr (http_burst s w)) (bytes "Content-Length") with
                      | none => none
                      | some i =>
                        match sscanf (List.drop i (cstr (http_burst s w)))
                            "Content-Length: %d %*s" with
                        | v :: _ => some (to_uint16 v)
                        | [] => some (bc0 % 2 ^ 16) : Option Nat) with
                    | none => (-5, none)
                    | some body_byte_count =>
                      (200, some (((http_burst s w).length : Int) - (body_byte_count : Int) - 2))).2).getD
                  s.http_response := by
            intro rc
            by_cases hrc : rc ≠ 200
            · simp only [if_pos hrc, hs2, Option.getD_none, and_self]
            · simp only [if_neg hrc]
              cases h5 : strstr (cstr (http_burst s w)) (bytes "Content-Length") with
              | none => simp only [hs2, Option.getD_none, and_self]
              | some j =>
                simp only
                generalize sscanf (List.drop j (cstr (http_burst s w)))
                  "Content-Length: %d %*s" = l2
                rcases l2 with _ | ⟨v, tl⟩ <;> simp
          rcases l1 with _ | ⟨v, tl⟩
          · exact key (rc0 % 2 ^ 16)
          · exact key (to_uint16 v)
  · rw [hack]
    simp only [if_true, hs1, and_self]

theorem to_uint16_lt (v : Int) : to_uint16 v < 65536 := by
  unfold to_uint16
  omega

theorem to_int16_eq_200 {rc : Nat} (h : rc < 65536) (h2 : to_int16 rc = 200) : rc = 200 := by
  unfold to_int16 at h2
  split at h2 <;> omega

theorem http_status_lt {blob : List Nat} {rc0 rc : Nat} (h : http_status blob rc0 = some rc) :
    rc < 65536 := by
  unfold http_status at h
  split at h
  · exact absurd h (by simp)
  · split at h
    · rw [← Option.some.inj h]; exact to_uint16_lt _
    · rw [← Option.some.inj h]; omega

theorem http_content_length_lt {blob : List Nat} {bc0 cl : Nat}
    (h : http_content_length blob bc0 = some cl) : cl < 65536 := by
  unfold http_content_length at h
  split at h
  · exact absurd h (by simp)
  · split at h
    · rw [← Option.some.inj h]; exact to_uint16_lt _
    · rw [← Option.some.inj h]; omega

/-- When the parse of the burst gives 200, the status read is 200, a "Content-Length" was
found and the offset is `bytes_read - content_length - 2`. -/
theorem http_parse_200 {blob : List Nat} {rc0 bc0 : Nat}
    (h : (http_parse blob rc0 bc0).1 = 200) :
    0 < blob.length ∧ blob.length < A9_HTTP_BUFFER_SIZE - 1 ∧
    http_status blob rc0 = some 200 ∧
    ∃ cl, http_content_length blob bc0 = some cl ∧ cl < 65536 ∧
      (http_parse blob rc0 bc0).2 = some ((blob.length : Int) - (cl : Int) - 2) := by
  unfold http_parse at h ⊢
  by_cases h2 : blob.length ≥ A9_HTTP_BUFFER_SIZE - 1
  · rw [if_pos h2] at h; simp at h
  · rw [if_neg h2] at h ⊢
    by_cases h3 : blob.length ≤ 0
    · rw [if_pos h3] at h; simp at h
    · rw [if_neg h3] at h ⊢
      cases h4 : http_status blob rc0 with
      | none => rw [h4] at h; simp at h
      | some rc =>
        rw [h4] at h
        simp only at h ⊢
        by_cases h5 : rc ≠ 200
        · rw [if_pos h5] at h
          exact absurd (to_int16_eq_200 (http_status_lt h4) h) h5
        · rw [if_neg h5] at h ⊢
          have hrc : rc = 200 := by omega
          cases h6 : http_content_length blob bc0 with
          | none => rw [h6] at h; simp at h
          | some cl =>
            exact ⟨by omega, by omega, by rw [hrc], cl, rfl, http_content_length_lt h6, rfl⟩

/-- C14 (as amended): whenever `http_get` or `http_post` returns 200, a "Content-Length" was
found in the burst and the `http_response` offset is `bytes_read - content_length - 2`, where
`content_length` is the 16-bit value the code read after "Content-Length" (`bytes_read` is
between 1 and `A9_HTTP_BUFFER_SIZE - 2`). The offset is at most `bytes_read - 2`; it is
non-negative, a position inside the response buffer, exactly when
`content_length + 2 <= bytes_read`. -/
theorem c14_body_offset (s : State) (w : World) (URL body : List Nat) (rc0 bc0 : Nat)
    (hbuf : s.http_buffer.length = A9_HTTP_BUFFER_SIZE) :
    ((http_get s w URL rc0 bc0).ret = some 200 →
      0 < (http_burst s w).length ∧ (http_burst s w).length < A9_HTTP_BUFFER_SIZE - 1 ∧
      ∃ content_length, http_content_length (http_burst s w) bc0 = some content_length ∧
        content_length < 65536 ∧
        (http_get s w URL rc0 bc0).state.http_response
          = ((http_burst s w).length : Int) - (content_length : Int) - 2 ∧
        (http_get s w URL rc0 bc0).state.http_response ≤ ((http_burst s w).length : Int) - 2 ∧
        (0 ≤ (http_get s w URL rc0 bc0).state.http_response ↔
          content_length + 2 ≤ (http_burst s w).length)) ∧
    ((http_post s w URL body rc0 bc0).ret = some 200 →
      0 < (http_burst s w).length ∧ (http_burst s w).length < A9_HTTP_BUFFER_SIZE - 1 ∧
      ∃ content_length, http_content_length (http_burst s w) bc0 = some content_length ∧
        content_length < 65536 ∧
        (http_post s w URL body rc0 bc0).state.http_response
          = ((http_burst s w).length : Int) - (content_length : Int) - 2 ∧
        (http_post s w URL body rc0 bc0).state.http_response
          ≤ ((http_burst s w).length : Int) - 2 ∧
        (0 ≤ (http_post s w URL body rc0 bc0).state.http_response ↔
          content_length + 2 ≤ (http_burst s w).length)) := by
  have key : ∀ command, (http_exchange s w command rc0 bc0).ret = some 200 →
      0 < (http_burst s w).length ∧ (http_burst s w).length < A9_HTTP_BUFFER_SIZE - 1 ∧
      ∃ content_length, http_content_length (http_burst s w) bc0 = some content_length ∧
        content_length < 65536 ∧
        (http_exchange s w command rc0 bc0).state.http_response
          = ((http_burst s w).length : Int) - (content_length : Int) - 2 ∧
        (http_exchange s w command rc0 bc0).state.http_response
          ≤ ((http_burst s w).length : Int) - 2 ∧
        (0 ≤ (http_exchange s w command rc0 bc0).state.http_response ↔
          content_length + 2 ≤ (http_burst s w).length) := by
    intro command h
    have hfit : command.length < A9_HTTP_BUFFER_SIZE := by
      by_contra hn
      rw [http_exchange_unfit s w command rc0 bc0 hn] at h
      exact absurd h (by simp)
    obtain ⟨h1, h2⟩ := http_exchange_summary s w command rc0 bc0 hbuf hfit
    rw [h1] at h
    rw [h2]
    unfold http_ret at h
    unfold http_resp
    rcases http_ack_returns s w with hack | hack
    · rw [hack] at h ⊢
      simp only [show ¬ ((0 : Int) = -1) by decide, if_false] at h ⊢
      obtain ⟨hpos, hlt, -, cl, hcl, hcl2, hoff⟩ := http_parse_200 (Option.some.inj h)
      refine ⟨hpos, hlt, cl, hcl, hcl2, ?_⟩
      rw [hoff]
      simp only [Option.getD_some]
      exact ⟨trivial, by omega, by omega⟩
    · rw [hack] at h
      simp at h
  rw [http_get_eq, http_post_eq]
  exact ⟨key (http_get_command URL), key (http_post_command URL body)⟩

/-- C14 witness: the blob "HTTP/1.1 200 OK", "Content-Length: 5", empty line, "hello", CR, LF. -/
theorem c14_body_offset_witness :
    fresh.http_buffer.length = A9_HTTP_BUFFER_SIZE ∧
    (http_get fresh (answering (bytes "HTTP/1.1 200 OK\r\nContent-Length: 5\r\n\r\nhello\r\n"))
      (bytes "http://a.b/c") 0 0).ret = some 200 ∧
    (http_get fresh (answering (bytes "HTTP/1.1 200 OK\r\nContent-Length: 5\r\n\r\nhello\r\n"))
      (bytes "http://a.b/c") 0 0).state.http_response = 38 ∧
    (0 < (http_burst fresh
        (answering (bytes "HTTP/1.1 200 OK\r\nContent-Length: 5\r\n\r\nhello\r\n"))).length ∧
      (http_burst fresh
        (answering (bytes "HTTP/1.1 200 OK\r\nContent-Length: 5\r\n\r\nhello\r\n"))).length
          < A9_HTTP_BUFFER_SIZE - 1 ∧
      ∃ content_length,
        http_content_length (http_burst fresh
          (answering (bytes "HTTP/1.1 200 OK\r\nContent-Length: 5\r\n\r\nhello\r\n"))) 0
            = some content_length ∧
        content_length < 65536 ∧
        (http_get fresh
          (answering (bytes "HTTP/1.1 200 OK\r\nContent-Length: 5\r\n\r\nhello\r\n"))
          (bytes "http://a.b/c") 0 0).state.http_response
          = ((http_burst fresh
              (answering (bytes "HTTP/1.1 200 OK\r\nContent-Length: 5\r\n\r\nhello\r\n"))).length
                : Int) - (content_length : Int) - 2 ∧
        (http_get fresh
          (answering (bytes "HTTP/1.1 200 OK\r\nContent-Length: 5\r\n\r\nhello\r\n"))
          (bytes "http://a.b/c") 0 0).state.http_response
          ≤ ((http_burst fresh
              (answering (bytes "HTTP/1.1 200 OK\r\nContent-Length: 5\r\n\r\nhello\r\n"))).length
                : Int) - 2 ∧
        (0 ≤ (http_get fresh
          (answering (bytes "HTTP/1.1 200 OK\r\nContent-Length: 5\r\n\r\nhello\r\n"))
          (bytes "http://a.b/c") 0 0).state.http_response ↔
          content_length + 2 ≤ (http_burst fresh
            (answering (bytes "HTTP/1.1 200 OK\r\nContent-Length: 5\r\n\r\nhello\r\n"))).length)) :=
  ⟨List.length_replicate 2048 0, by decide, by decide,
    (c14_body_offset fresh
      (answering (bytes "HTTP/1.1 200 OK\r\nContent-Length: 5\r\n\r\nhello\r\n"))
      (bytes "http://a.b/c") [] 0 0 (List.length_replicate 2048 0)).1 (by decide)⟩

/-- C14 counterexample: the 45-byte blob "HTTP/1.1 200 OK", "Content-Length: 100", empty line,
"hello" declares more than was read. `http_get` and `http_post` return 200 and set the offset
to 45 - 100 - 2 = -57, before the start of the buffer. -/
theorem c14_counterexample :
    (http_burst fresh
      (answering (bytes "HTTP/1.1 200 OK\r\nContent-Length: 100\r\n\r\nhello"))).length = 45 ∧
    (http_get fresh (answering (bytes "HTTP/1.1 200 OK\r\nContent-Length: 100\r\n\r\nhello"))
      (bytes "http://a.b/c") 0 0).ret = some 200 ∧
    (http_get fresh (answering (bytes "HTTP/1.1 200 OK\r\nContent-Length: 100\r\n\r\nhello"))
      (bytes "http://a.b/c") 0 0).state.http_response = -57 ∧
    (http_post fresh (answering (bytes "HTTP/1.1 200 OK\r\nContent-Length: 100\r\n\r\nhello"))
      (bytes "http://a.b/c") (bytes "hi") 0 0).ret = some 200 ∧
    (http_post fresh (answering (bytes "HTTP/1.1 200 OK\r\nContent-Length: 100\r\n\r\nhello"))
      (bytes "http://a.b/c") (bytes "hi") 0 0).state.http_response = -57 ∧
    ¬ (0 ≤ (http_get fresh
      (answering (bytes "HTTP/1.1 200 OK\r\nContent-Length: 100\r\n\r\nhello"))
      (bytes "http://a.b/c") 0 0).state.http_response) := by
  refine ⟨by decide, by decide, by decide, by decide, by decide, by decide⟩

/-! ## Time sync: parsing the clock line -/

theorem scan_digits_stop (rest : List Nat) (acc : Nat)
    (hrest : ∀ c ∈ rest.head?, isdigit c = false) : scan_digits rest acc = (acc, rest) := by
  cases rest with
  | nil => rfl
  | cons c cs =>
    have := hrest c (by simp)
    simp [scan_digits, this]

theorem scan_int_dec2 (n : Nat) (hn : n < 100) (rest : List Nat)
    (hrest : ∀ c ∈ rest.head?, isdigit c = false) :
    scan_int (dec2 n ++ rest) = some ((n : Int), rest) := by
  have h1 : isspace (48 + n / 10) = false := by
    simp only [isspace, Bool.or_eq_false_iff, beq_eq_false_iff_ne, Bool.and_eq_false_iff,
      decide_eq_false_iff_not]
    constructor <;> omega
  have h2 : isdigit (48 + n / 10) = true := by
    simp only [isdigit, Bool.and_eq_true, decide_eq_true_eq]
    omega
  have h3 : isdigit (48 + n % 10) = true := by
    simp only [isdigit, Bool.and_eq_true, decide_eq_true_eq]
    omega
  have h4 : ¬ (48 + n / 10 = 45) := by omega
  have h5 : ¬ (48 + n / 10 = 43) := by omega
  simp only [dec2, List.cons_append, List.nil_append, scan_int, List.dropWhile_cons, h1,
    Bool.false_eq_true, if_false, h4, h5, h2, if_true, scan_digits, h3]
  rw [scan_digits_stop rest _ hrest]
  simp only [Option.some.injEq, Prod.mk.injEq, and_true]
  have : (0 * 10 + (48 + n / 10 - 48)) * 10 + (48 + n % 10 - 48) = n := by omega
  rw [this]

theorem sscanf_run_int (fmt : List Directive) (n : Nat) (hn : n < 100) (rest : List Nat)
    (acc : List Int) (hrest : ∀ c ∈ rest.head?, isdigit c = false) :
    sscanf_run (Directive.int true :: fmt) (dec2 n ++ rest) acc
      = sscanf_run fmt rest (acc ++ [(n : Int)]) := by
  simp [sscanf_run, scan_int_dec2 n hn rest hrest]

theorem sscanf_run_lit (fmt : List Directive) (c : Nat) (rest : List Nat) (acc : List Int) :
    sscanf_run (Directive.lit c :: fmt) (c :: rest) acc = sscanf_run fmt rest acc := by
  simp [sscanf_run]

theorem sscanf_run_tail (s : List Nat) (acc : List Int) :
    sscanf_run [Directive.skipstr, Directive.lit 34] s acc = acc := by
  simp only [sscanf_run]
  split
  · rfl
  · split
    · rfl
    · split <;> rfl

theorem sscanf_cclk_line (yy MM dd hh mm ss : Nat) (rest : List Nat)
    (hyy : yy < 100) (hMM : MM < 100) (hdd : dd < 100) (hhh : hh < 100) (hmm : mm < 100)
    (hss : ss < 100) (hrest : ∀ c ∈ rest.head?, isdigit c = false) :
    sscanf (cclk_line yy MM dd hh mm ss rest) "+CCLK: \"%hhd/%hhd/%hhd,%hhd:%hhd:%hhd%*s\""
      = [(yy : Int), MM, dd, hh, mm, ss] := by
  have hfmt : parse_format "+CCLK: \"%hhd/%hhd/%hhd,%hhd:%hhd:%hhd%*s\"".toList =
      [Directive.lit 43, Directive.lit 67, Directive.lit 67, Directive.lit 76, Directive.lit 75,
        Directive.lit 58, Directive.space, Directive.lit 34,
        Directive.int true, Directive.lit 47, Directive.int true, Directive.lit 47,
        Directive.int true, Directive.lit 44, Directive.int true, Directive.lit 58,
        Directive.int true, Directive.lit 58, Directive.int true,
        Directive.skipstr, Directive.lit 34] := by decide
  have hsp : List.dropWhile isspace (32 :: 34 :: (dec2 yy ++ 47 :: (dec2 MM ++ 47 ::
      (dec2 dd ++ 44 :: (dec2 hh ++ 58 :: (dec2 mm ++ 58 :: (dec2 ss ++ rest)))))))
      = 34 :: (dec2 yy ++ 47 :: (dec2 MM ++ 47 ::
      (dec2 dd ++ 44 :: (dec2 hh ++ 58 :: (dec2 mm ++ 58 :: (dec2 ss ++ rest)))))) := by
    rw [List.dropWhile_cons, if_pos (by decide), List.dropWhile_cons, if_neg (by decide)]
  unfold sscanf cclk_line
  rw [hfmt]
  simp only [List.cons_append, List.nil_append]
  rw [sscanf_run_lit, sscanf_run_lit, sscanf_run_lit, sscanf_run_lit, sscanf_run_lit,
    sscanf_run_lit]
  rw [sscanf_run, hsp, sscanf_run_lit]
  rw [sscanf_run_int _ yy hyy _ _ (by simp; decide), sscanf_run_lit,
    sscanf_run_int _ MM hMM _ _ (by simp; decide), sscanf_run_lit,
    sscanf_run_int _ dd hdd _ _ (by simp; decide), sscanf_run_lit,
    sscanf_run_int _ hh hhh _ _ (by simp; decide), sscanf_run_lit,
    sscanf_run_int _ mm hmm _ _ (by simp; decide), sscanf_run_lit,
    sscanf_run_int _ ss hss _ _ hrest, sscanf_run_tail]
  rfl

/-! ## C15 -/

theorem mktime_valid (yy MM dd hh mm ss : Nat) (hMM : 1 ≤ MM ∧ MM ≤ 12) :
    mktime ⟨ss, mm, hh, dd, (MM : Int) - 1, (yy : Int) + 100⟩
      = unix_time (2000 + yy) MM dd hh mm ss := by
  unfold mktime
  simp only
  have h1 : (((yy : Int) + 100 + 1900) * 12 + ((MM : Int) - 1)) / 12 = 2000 + yy := by omega
  have h2 : (((yy : Int) + 100 + 1900) * 12 + ((MM : Int) - 1)) % 12 + 1 = MM := by omega
  rw [h1, h2]

theorem unix_time_range (yy MM dd hh mm ss : Nat) (hyy : yy < 100)
    (hdd : 1 ≤ dd ∧ dd ≤ 31) (hhh : hh < 24) (hmm : mm < 60) (hss : ss < 60) :
    0 < unix_time (2000 + yy) MM dd hh mm ss ∧
    unix_time (2000 + yy) MM dd hh mm ss < 4200000000 := by
  unfold unix_time days_from_civil
  simp only
  split <;> omega

theorem to_uint8_small (n : Nat) (h : n < 100) : to_uint8 (n : Int) = n := by
  unfold to_uint8
  omega

/-- C15: a successful clock query. With the anchor unset, when the wait for "+CCLK:" matches
and the matched line reads `+CCLK: "yy/MM/dd,hh:mm:ss` followed by something that is not a
digit, with `yy` below 100, month 1 to 12, day 1 to 31 and a time of day, `get_gsm_time()`
builds the calendar time with `tm_year = yy + 100`, `tm_mon = MM - 1` and the other fields
verbatim, whose `mktime` (time zone UTC) is the Unix timestamp of 20yy-MM-dd hh:mm:ss; it
stores that as `sync_unix_timestamp`, stores as `sync_mcu_timestamp` the clock reading taken
when "AT+CCLK?" CR was sent, and returns the stored timestamp plus the whole seconds that
passed on the clock since then. -/
theorem c15_successful_clock_query (s : State) (w : World) (yy MM dd hh mm ss : Nat)
    (rest : List Nat) (hunset : s.sync_unix_timestamp = 0)
    (hret : (cclk_ack s w).ret = some 0)
    (hline : get_received_line (cclk_ack s w).receive_buffer = cclk_line yy MM dd hh mm ss rest)
    (hrest : ∀ c ∈ rest.head?, isdigit c = false)
    (hyy : yy < 100) (hMM : 1 ≤ MM ∧ MM ≤ 12) (hdd : 1 ≤ dd ∧ dd ≤ 31)
    (hhh : hh < 24) (hmm : mm < 60) (hss : ss < 60) :
    mktime ⟨ss, mm, hh, dd, (MM : Int) - 1, (yy : Int) + 100⟩
      = unix_time (2000 + yy) MM dd hh mm ss ∧
    ((get_gsm_time s w).state.sync_unix_timestamp : Int)
      = unix_time (2000 + yy) MM dd hh mm ss ∧
    (get_gsm_time s w).state.sync_mcu_timestamp = millis w ∧
    (get_gsm_time s w).ret
      = some (unix_time (2000 + yy) MM dd hh mm ss
          + (((cclk_ack s w).world.now - w.now) / 1000 : Nat)) ∧
    (get_gsm_time s w).world.tx = w.tx ++ bytes "AT+CCLK?\r" := by
  have hmk := mktime_valid yy MM dd hh mm ss hMM
  obtain ⟨hlo, hhi⟩ := unix_time_range yy MM dd hh mm ss hyy hdd hhh hmm hss
  have hfields := sscanf_cclk_line yy MM dd hh mm ss rest hyy (by omega) (by omega) (by omega)
    (by omega) (by omega) hrest
  rw [← hline] at hfields
  have hfr := wait_loop_frame (bytes "+CCLK:") 5000
    (millis (send_to_serial (flush_serial w) (bytes "AT+CCLK?\r")))
    (wait_budget (send_to_serial (flush_serial w) (bytes "AT+CCLK?\r")) 5000)
    (s.receive_buffer.set 0 0) 0 (send_to_serial (flush_serial w) (bytes "AT+CCLK?\r")) [0]
  change (cclk_ack s w).world.tx = _ ∧ (cclk_ack s w).world.gpio = _ ∧
    _ ≤ (cclk_ack s w).world.now at hfr
  obtain ⟨htx, -, hnow⟩ := hfr
  have hnow2 : w.now ≤ (cclk_ack s w).world.now := hnow
  have hel : (cclk_ack s w).world.now - w.now < 5000 := by
    rcases wait_for_pattern_returns s.receive_buffer
      (send_to_serial (flush_serial w) (bytes "AT+CCLK?\r")) (bytes "+CCLK:") 5000
      (by decide) with h | h
    · exact h.2
    · have h1 : (cclk_ack s w).ret = some (-1) := h.1
      rw [hret] at h1
      simp at h1
  refine ⟨hmk, ?_⟩
  unfold get_gsm_time
  rw [if_neg (by rw [hunset]; simp)]
  lift_lets
  extract_lets w1 w2 ct r s1 fields y mo d h mi se tm gsm s2
  have hr : r.ret = some 0 := hret
  have hf : fields = [(yy : Int), MM, dd, hh, mm, ss] := hfields
  have hy : y = yy := by
    show to_uint8 (fields.getD 0 0) = _
    rw [hf]; exact to_uint8_small yy hyy
  have hmo : mo = MM := by
    show to_uint8 (fields.getD 1 0) = _
    rw [hf]; exact to_uint8_small MM (by omega)
  have hd : d = dd := by
    show to_uint8 (fields.getD 2 0) = _
    rw [hf]; exact to_uint8_small dd (by omega)
  have hh2 : h = hh := by
    show to_uint8 (fields.getD 3 0) = _
    rw [hf]; exact to_uint8_small hh (by omega)
  have hmi : mi = mm := by
    show to_uint8 (fields.getD 4 0) = _
    rw [hf]; exact to_uint8_small mm (by omega)
  have hse : se = ss := by
    show to_uint8 (fields.getD 5 0) = _
    rw [hf]; exact to_uint8_small ss (by omega)
  have htm : mktime tm = unix_time (2000 + yy) MM dd hh mm ss := by
    show mktime ⟨se, mi, h, d, (mo : Int) - 1, (y : Int) + 100⟩ = _
    rw [hy, hmo, hd, hh2, hmi, hse]
    exact hmk
  have hgsm : (gsm : Int) = unix_time (2000 + yy) MM dd hh mm ss := by
    show (((mktime tm % 2 ^ 32).toNat : Nat) : Int) = _
    rw [htm]
    omega
  have hct : ct = millis w := rfl
  have hs2a : s2.sync_unix_timestamp = gsm := rfl
  have hs2b : s2.sync_mcu_timestamp = ct := rfl
  have hrw : r.world = (cclk_ack s w).world := rfl
  have hlen : fields.length = 6 := by rw [hf]; rfl
  simp only [hr, show ¬ ((0 : Int) = -1) by decide, if_false, hlen, ne_eq, not_true_eq_false,
    hs2a, hs2b, hct, hrw, hgsm, true_and]
  refine ⟨?_, ?_⟩
  · have hel2 : (millis (cclk_ack s w).world + 2 ^ 32 - millis w) % 2 ^ 32
        = (cclk_ack s w).world.now - w.now :=
      elapsed_eq _ _ hnow2 (by omega)
    rw [hel2]
    congr 1
    have hsum : ((cclk_ack s w).world.now - w.now) / 1000 + gsm < 2 ^ 32 := by omega
    rw [Nat.mod_eq_of_lt hsum]
    push_cast
    rw [hgsm]
    omega
  · rw [htx]
    rfl

/-- C15 witness: 2023-05-17 12:34:56 is 1684326896; the answer comes within a second. -/
theorem c15_successful_clock_query_witness :
    fresh.sync_unix_timestamp = 0 ∧
    (cclk_ack fresh clock_world).ret = some 0 ∧
    get_received_line (cclk_ack fresh clock_world).receive_buffer
      = cclk_line 23 5 17 12 34 56 (bytes "+03\"\r\n") ∧
    (get_gsm_time fresh clock_world).ret = some 1684326896 ∧
    ((get_gsm_time fresh clock_world).state.sync_unix_timestamp : Int)
      = unix_time (2000 + ((23 : Nat) : Int)) ((5 : Nat) : Int) ((17 : Nat) : Int)
          ((12 : Nat) : Int) ((34 : Nat) : Int) ((56 : Nat) : Int) ∧
    (get_gsm_time fresh clock_world).state.sync_mcu_timestamp = millis clock_world :=
  ⟨rfl, by decide, by decide, by decide,
    (c15_successful_clock_query fresh clock_world 23 5 17 12 34 56 (bytes "+03\"\r\n") rfl
      (by decide) (by decide) (by decide) (by decide) (by decide) (by decide) (by decide)
      (by decide) (by decide)).2.1,
    (c15_successful_clock_query fresh clock_world 23 5 17 12 34 56 (bytes "+03\"\r\n") rfl
      (by decide) (by decide) (by decide) (by decide) (by decide) (by decide) (by decide)
      (by decide) (by decide)).2.2.1⟩

/-! ## Session start -/

theorem wait_ret_cases (buf : List Nat) (w : World) (pattern : List Nat) (timeout_ms : Nat)
    (hT : timeout_ms + 20 ≤ 2 ^ 32) :
    (wait_for_pattern buf w pattern timeout_ms).ret = some 0 ∨
    (wait_for_pattern buf w pattern timeout_ms).ret = some (-1) := by
  rcases wait_for_pattern_returns buf w pattern timeout_ms hT with h | h
  · exact Or.inl h.1
  · exact Or.inr h.1

theorem start_step_ret (prev : Wait) (delay_ms : Nat) (command pattern : List Nat)
    (timeout_ms : Nat) (hT : timeout_ms + 20 ≤ 2 ^ 32) :
    (start_step prev delay_ms command pattern timeout_ms).ret = some 0 ∨
    (start_step prev delay_ms command pattern timeout_ms).ret = some (-1) :=
  wait_ret_cases _ _ _ _ hT

set_option maxRecDepth 4000 in
theorem start_register_cases (s : State) (r1 : Wait) :
    ((start_step r1 500 (bytes "AT+CREG?\r") (bytes "+CREG:") 1000).ret = some (-1) ∧
      (start_register s r1).ret = some (-2) ∧
      (start_register s r1).world
        = (start_step r1 500 (bytes "AT+CREG?\r") (bytes "+CREG:") 1000).world) ∨
    ((start_step r1 500 (bytes "AT+CREG?\r") (bytes "+CREG:") 1000).ret = some 0 ∧
      creg_stat (get_received_line
        (start_step r1 500 (bytes "AT+CREG?\r") (bytes "+CREG:") 1000).receive_buffer) 0 ≠ 1 ∧
      (start_register s r1).ret = some (-3) ∧
      (start_register s r1).world
        = (start_step r1 500 (bytes "AT+CREG?\r") (bytes "+CREG:") 1000).world) ∨
    ((start_step r1 500 (bytes "AT+CREG?\r") (bytes "+CREG:") 1000).ret = some 0 ∧
      creg_stat (get_received_line
        (start_step r1 500 (bytes "AT+CREG?\r") (bytes "+CREG:") 1000).receive_buffer) 0 = 1 ∧
      start_register s r1 = start_attach s
        (start_step r1 500 (bytes "AT+CREG?\r") (bytes "+CREG:") 1000)) := by
  have hdef : start_register s r1 =
      match (start_step r1 500 (bytes "AT+CREG?\r") (bytes "+CREG:") 1000).ret with
      | none => ⟨none, { s with receive_buffer :=
          (start_step r1 500 (bytes "AT+CREG?\r") (bytes "+CREG:") 1000).receive_buffer },
          (start_step r1 500 (bytes "AT+CREG?\r") (bytes "+CREG:") 1000).world⟩
      | some stat2 =>
        if stat2 = -1 then
          ⟨some (-2), { s with receive_buffer :=
            (start_step r1 500 (bytes "AT+CREG?\r") (bytes "+CREG:") 1000).receive_buffer },
            (start_step r1 500 (bytes "AT+CREG?\r") (bytes "+CREG:") 1000).world⟩
        else
          if (¬ (creg_stat (get_received_line
              (start_step r1 500 (bytes "AT+CREG?\r") (bytes "+CREG:") 1000).receive_buffer)
                stat2 = 1)) ∨
              (creg_stat (get_received_line
              (start_step r1 500 (bytes "AT+CREG?\r") (bytes "+CREG:") 1000).receive_buffer)
                stat2 = 5) then
            ⟨some (-3), { s with receive_buffer :=
              (start_step r1 500 (bytes "AT+CREG?\r") (bytes "+CREG:") 1000).receive_buffer },
              (start_step r1 500 (bytes "AT+CREG?\r") (bytes "+CREG:") 1000).world⟩
          else
            start_attach s (start_step r1 500 (bytes "AT+CREG?\r") (bytes "+CREG:") 1000) := rfl
  rw [hdef]
  rcases start_step_ret r1 500 (bytes "AT+CREG?\r") (bytes "+CREG:") 1000 (by decide)
    with h | h
  · right
    rw [h]
    simp only [show ¬ ((0 : Int) = -1) by decide, if_false]
    by_cases hst : creg_stat (get_received_line
        (start_step r1 500 (bytes "AT+CREG?\r") (bytes "+CREG:") 1000).receive_buffer) 0 = 1
    · right
      rw [if_neg (by rw [hst]; decide)]
      exact ⟨trivial, hst, Eq.refl _⟩
    · left
      rw [if_pos (Or.inl hst)]
      exact ⟨trivial, hst, rfl, rfl⟩
  · left; rw [h]; exact ⟨rfl, rfl, rfl⟩

/-- What `start` returns up to the registration check. -/
theorem start_upto_register (s : State) (w : World) :
    ((start_reset s w).ret = some (-1) ∧ (start s w).ret = some (-1)) ∨
    ((start_reset s w).ret = some 0 ∧ (start_creg s w).ret = some (-1) ∧
      (start s w).ret = some (-2)) ∨
    ((start_reset s w).ret = some 0 ∧ (start_creg s w).ret = some 0 ∧ start_stat s w ≠ 1 ∧
      (start s w).ret = some (-3)) ∨
    ((start_reset s w).ret = some 0 ∧ (start_creg s w).ret = some 0 ∧ start_stat s w = 1 ∧
      start s w = start_attach s (start_creg s w)) := by
  have hdef : start s w =
      match (start_reset s w).ret with
      | none => ⟨none, { s with receive_buffer := (start_reset s w).receive_buffer },
          (start_reset s w).world⟩
      | some stat =>
        if stat = -1 then
          ⟨some (-1), { s with receive_buffer := (start_reset s w).receive_buffer },
            (start_reset s w).world⟩
        else start_register s (start_reset s w) := rfl
  rw [hdef]
  rcases wait_ret_cases s.receive_buffer
    (send_to_serial (module_power_on s (flush_serial
      (vTaskDelay (1000 / portTICK_PERIOD_MS) (module_power_off s w)))) (bytes "AT+RST=1\r"))
    (bytes "READY") 30000 (by decide) with h | h
  swap
  · left
    change (start_reset s w).ret = _ at h
    rw [h]
    exact ⟨rfl, rfl⟩
  change (start_reset s w).ret = _ at h
  right
  rw [h]
  simp only [show ¬ ((0 : Int) = -1) by decide, if_false, true_and]
  rcases start_register_cases s (start_reset s w) with ⟨a, b, c⟩ | ⟨a, b, c, d⟩ | ⟨a, b, c⟩
  · left; exact ⟨a, b⟩
  · right; left; exact ⟨a, b, c⟩
  · right; right; exact ⟨a, b, c⟩

set_option maxRecDepth 10000 in
/-- C3 (the code at the failing input): the modem answers every command in time and reports
"+CREG: 1,5" (registered, roaming); `start()` returns -3. With "+CREG: 1,1" it returns 1.
In general, whenever the status read is 5, `start()` does not return 1: the test
`(!(stat == 1)||(stat == 5))` rejects everything but 1. -/
theorem c3_roaming_is_rejected :
    (start fresh ⟨0, modem_ok (bytes "5"), [], none⟩).ret = some (-3) ∧
    (start fresh ⟨0, modem_ok (bytes "1"), [], none⟩).ret = some 1 ∧
    ∀ (s : State) (w : World), start_stat s w = 5 → (start s w).ret ≠ some 1 := by
  refine ⟨by decide, by decide, ?_⟩
  intro s w h5 hret
  rcases start_upto_register s w with h | h | h | h
  · rw [h.2] at hret; exact absurd hret (by decide)
  · rw [h.2.2] at hret; exact absurd hret (by decide)
  · rw [h.2.2.2] at hret; exact absurd hret (by decide)
  · have := h.2.2.1
    rw [h5] at this
    exact absurd this (by decide)

/-! ## HTTP exchange: buffer contents and the order of the tests -/

theorem drop_burst_buffer (buf data : List Nat) (k : Nat) (h : data.length < buf.length)
    (hk : k ≤ data.length) :
    cstr (((poke buf 0 data).set data.length 0).drop k) = cstr (data.drop k) := by
  rw [poke_eq data buf 0 (by omega)]
  simp only [List.take_zero, List.nil_append, Nat.zero_add]
  rw [set_eq_split (by simp; omega)]
  rw [List.take_left' rfl, List.drop_append_of_le_length hk, cstr_append_nul]

theorem http_exchange_buffer (s : State) (w : World) (command : List Nat) (rc0 bc0 : Nat)
    (hfit : command.length < A9_HTTP_BUFFER_SIZE)
    (hack : (http_ack s w).ret = some 0) :
    (http_exchange s w command rc0 bc0).state.http_buffer =
      (poke ((poke s.http_buffer 0 (command ++ [0])).set (A9_HTTP_BUFFER_SIZE - 1) 0) 0
        (http_burst s w)).set (http_burst s w).length 0 := by
  unfold http_exchange
  rw [if_neg (by simp only [List.length_append, List.length_singleton]; omega)]
  lift_lets
  extract_lets b1 w1 w2 r s1 w3 b2 rd n b3 s2
  have hr : r = { http_ack s w with world := { (http_ack s w).world with tx := w2.tx } } :=
    wait_for_pattern_tx s.receive_buffer (flush_serial w) (bytes "OK") 45000 w2.tx
  have hret : r.ret = (http_ack s w).ret := by rw [hr]
  have hrd : rd.1 = http_burst s w := by
    show (uart_read_bytes (vTaskDelay (250 / portTICK_PERIOD_MS) r.world) _ _).1 = _
    rw [hr]
    rfl
  have hs2 : s2.http_buffer = (poke b2 0 (http_burst s w)).set (http_burst s w).length 0 := by
    show (poke b2 0 rd.1).set rd.1.length 0 = _
    rw [hrd]
  rw [hret, hack]
  simp only [show ¬ ((0 : Int) = -1) by decide, if_false]
  split
  · exact hs2
  · split
    · exact hs2
    · split
      · exact hs2
      · split
        · exact hs2
        · split
          · exact hs2
          · exact hs2

/-- The outcomes of lines 168-212 in the order of the tests. -/
theorem http_parse_cases (blob : List Nat) (rc0 bc0 : Nat) :
    (blob.length ≥ A9_HTTP_BUFFER_SIZE - 1 ∧ http_parse blob rc0 bc0 = (-2, none)) ∨
    (blob.length = 0 ∧ http_parse blob rc0 bc0 = (-3, none)) ∨
    (0 < blob.length ∧ blob.length < A9_HTTP_BUFFER_SIZE - 1 ∧
      http_status blob rc0 = none ∧ http_parse blob rc0 bc0 = (-4, none)) ∨
    (0 < blob.length ∧ blob.length < A9_HTTP_BUFFER_SIZE - 1 ∧
      ∃ rc, http_status blob rc0 = some rc ∧ rc ≠ 200 ∧ rc < 65536 ∧
        http_parse blob rc0 bc0 = (to_int16 rc, none)) ∨
    (0 < blob.length ∧ blob.length < A9_HTTP_BUFFER_SIZE - 1 ∧
      http_status blob rc0 = some 200 ∧ http_content_length blob bc0 = none ∧
      http_parse blob rc0 bc0 = (-5, none)) ∨
    (0 < blob.length ∧ blob.length < A9_HTTP_BUFFER_SIZE - 1 ∧
      http_status blob rc0 = some 200 ∧
      ∃ cl, http_content_length blob bc0 = some cl ∧
        http_parse blob rc0 bc0 = (200, some ((blob.length : Int) - (cl : Int) - 2))) := by
  unfold http_parse
  by_cases h2 : blob.length ≥ A9_HTTP_BUFFER_SIZE - 1
  · left; exact ⟨h2, by rw [if_pos h2]⟩
  · rw [if_neg h2]
    by_cases h3 : blob.length ≤ 0
    · right; left; exact ⟨by omega, by rw [if_pos h3]⟩
    · rw [if_neg h3]
      cases h4 : http_status blob rc0 with
      | none => right; right; left; exact ⟨by omega, by omega, rfl, rfl⟩
      | some rc =>
        simp only
        by_cases h5 : rc ≠ 200
        · right; right; right; left
          exact ⟨by omega, by omega, rc, rfl, h5, http_status_lt h4, by rw [if_pos h5]⟩
        · rw [if_neg h5]
          have hrc : rc = 200 := by omega
          subst hrc
          cases h6 : http_content_length blob bc0 with
          | none => right; right; right; right; left; exact ⟨by omega, by omega, rfl, rfl, rfl⟩
          | some cl =>
            right; right; right; right; right; exact ⟨by omega, by omega, rfl, cl, rfl, rfl⟩

theorem to_int16_small {rc : Nat} (h : rc < 32768) : to_int16 rc = (rc : Int) := by
  unfold to_int16
  rw [if_pos (by omega)]
  omega

theorem http_status_none_iff (blob : List Nat) (rc0 : Nat) :
    http_status blob rc0 = none ↔ ¬ bytes "HTTP" <:+: cstr blob := by
  rw [← strstr_eq_none_iff]
  unfold http_status
  split
  · simp [*]
  · split <;> simp [*]

theorem http_content_length_none_iff (blob : List Nat) (bc0 : Nat) :
    http_content_length blob bc0 = none ↔ ¬ bytes "Content-Length" <:+: cstr blob := by
  rw [← strstr_eq_none_iff]
  unfold http_content_length
  split
  · simp [*]
  · split <;> simp [*]

/-! ## C8, C9 -/

/-- With the anchor unset, `get_gsm_time` sends "AT+CCLK?" CR and nothing else. -/
theorem get_gsm_time_tx (s : State) (w : World) (hunset : s.sync_unix_timestamp = 0) :
    (get_gsm_time s w).world.tx = w.tx ++ bytes "AT+CCLK?\r" := by
  have hfr := wait_loop_frame (bytes "+CCLK:") 5000
    (millis (send_to_serial (flush_serial w) (bytes "AT+CCLK?\r")))
    (wait_budget (send_to_serial (flush_serial w) (bytes "AT+CCLK?\r")) 5000)
    (s.receive_buffer.set 0 0) 0 (send_to_serial (flush_serial w) (bytes "AT+CCLK?\r")) [0]
  change (cclk_ack s w).world.tx = _ ∧ (cclk_ack s w).world.gpio = _ ∧
    _ ≤ (cclk_ack s w).world.now at hfr
  obtain ⟨htx, -, -⟩ := hfr
  have htx2 : (cclk_ack s w).world.tx = w.tx ++ bytes "AT+CCLK?\r" := by
    rw [htx]
    rfl
  unfold get_gsm_time
  rw [if_neg (by rw [hunset]; simp)]
  lift_lets
  extract_lets w1 w2 ct r s1 fields y mo d h mi se tm gsm s2
  have hrw : r.world = (cclk_ack s w).world := rfl
  rw [← hrw] at htx2
  split
  · exact htx2
  · split
    · exact htx2
    · split
      · exact htx2
      · exact htx2

/-- The failure branches of `get_gsm_time`: result 0, anchor fields as before. -/
theorem get_gsm_time_failure (s : State) (w : World) (hunset : s.sync_unix_timestamp = 0)
    (hfail : (cclk_ack s w).ret = some (-1) ∨
      ((cclk_ack s w).ret = some 0 ∧
        (sscanf (get_received_line (cclk_ack s w).receive_buffer)
          "+CCLK: \"%hhd/%hhd/%hhd,%hhd:%hhd:%hhd%*s\"").length ≠ 6)) :
    (get_gsm_time s w).ret = some 0 ∧
    (get_gsm_time s w).state.sync_unix_timestamp = s.sync_unix_timestamp ∧
    (get_gsm_time s w).state.sync_mcu_timestamp = s.sync_mcu_timestamp := by
  unfold get_gsm_time
  rw [if_neg (by rw [hunset]; simp)]
  lift_lets
  extract_lets w1 w2 ct r s1 fields y mo d h mi se tm gsm s2
  have hr : r.ret = (cclk_ack s w).ret := rfl
  have hf : fields = sscanf (get_received_line (cclk_ack s w).receive_buffer)
          "+CCLK: \"%hhd/%hhd/%hhd,%hhd:%hhd:%hhd%*s\"" := rfl
  rcases hfail with h1 | ⟨h1, h2⟩
  · rw [hr, h1]
    simp only [if_true]
    exact ⟨trivial, trivial, trivial⟩
  · rw [hr, h1]
    simp only [show ¬ ((0 : Int) = -1) by decide, if_false]
    rw [← hf] at h2
    rw [if_pos h2]
    exact ⟨rfl, rfl, rfl⟩

/-- When a call with the anchor unset leaves it set, the call went through the success branch:
the anchor holds the clock reading taken at the command, and the result is the anchor plus
the whole seconds elapsed on the 32-bit clock. -/
theorem get_gsm_time_synced (s : State) (w : World) (hunset : s.sync_unix_timestamp = 0)
    (hset : (get_gsm_time s w).state.sync_unix_timestamp ≠ 0) :
    (get_gsm_time s w).state.sync_mcu_timestamp = millis w ∧
    (get_gsm_time s w).world = (cclk_ack s w).world ∧
    (get_gsm_time s w).ret = some ((((millis (cclk_ack s w).world + 2 ^ 32 - millis w) % 2 ^ 32
      / 1000 + (get_gsm_time s w).state.sync_unix_timestamp) % 2 ^ 32 : Nat) : Int) := by
  revert hset
  unfold get_gsm_time
  rw [if_neg (by rw [hunset]; simp)]
  lift_lets
  extract_lets w1 w2 ct r s1 fields y mo d h mi se tm gsm s2
  have hct : ct = millis w := rfl
  have hrw : r.world = (cclk_ack s w).world := rfl
  have hs1 : s1.sync_unix_timestamp = 0 := hunset
  split
  · intro hset; exact absurd hs1 hset
  · split
    · intro hset; exact absurd hs1 hset
    · split
      · intro hset; exact absurd hs1 hset
      · intro _
        exact ⟨hct, hrw, rfl⟩

/-- With the anchor set, `get_gsm_time` is the first `return` of the function. -/
theorem get_gsm_time_anchored (s : State) (w : World) (hset : s.sync_unix_timestamp ≠ 0) :
    get_gsm_time s w =
      ⟨some ((((millis w + 2 ^ 32 - s.sync_mcu_timestamp) % 2 ^ 32 / 1000
        + s.sync_unix_timestamp) % 2 ^ 32 : Nat) : Int), s, w⟩ := by
  unfold get_gsm_time
  rw [if_pos hset]

theorem cclk_ack_elapsed (s : State) (w : World) :
    w.now ≤ (cclk_ack s w).world.now ∧ (cclk_ack s w).world.now - w.now < 5020 := by
  have hfr := wait_loop_frame (bytes "+CCLK:") 5000
    (millis (send_to_serial (flush_serial w) (bytes "AT+CCLK?\r")))
    (wait_budget (send_to_serial (flush_serial w) (bytes "AT+CCLK?\r")) 5000)
    (s.receive_buffer.set 0 0) 0 (send_to_serial (flush_serial w) (bytes "AT+CCLK?\r")) [0]
  change (cclk_ack s w).world.tx = _ ∧ (cclk_ack s w).world.gpio = _ ∧
    _ ≤ (cclk_ack s w).world.now at hfr
  obtain ⟨-, -, hnow⟩ := hfr
  have hnow2 : w.now ≤ (cclk_ack s w).world.now := hnow
  refine ⟨hnow2, ?_⟩
  rcases wait_for_pattern_returns s.receive_buffer
    (send_to_serial (flush_serial w) (bytes "AT+CCLK?\r")) (bytes "+CCLK:") 5000
    (by decide) with h | h
  · have h2 : (cclk_ack s w).world.now - w.now < 5000 := h.2
    omega
  · exact h.2.2

/-- C8: with the anchor set (`sync_unix_timestamp != 0`), `get_gsm_time()` returns
`(millis() - sync_mcu_timestamp) / 1000 + sync_unix_timestamp` in 32-bit unsigned arithmetic
(the plain value when nothing wraps) and touches nothing: clock, pending input, bytes written
and power pin are as before, and so is every field of the object, the two anchor fields
included. Hence no sequence of later calls changes the anchor. -/
theorem c8_anchor_set_no_modem (s : State) (w : World) (hset : s.sync_unix_timestamp ≠ 0) :
    (get_gsm_time s w).ret = some ((((millis w + 2 ^ 32 - s.sync_mcu_timestamp) % 2 ^ 32 / 1000
      + s.sync_unix_timestamp) % 2 ^ 32 : Nat) : Int) ∧
    (s.sync_mcu_timestamp ≤ millis w →
      (millis w - s.sync_mcu_timestamp) / 1000 + s.sync_unix_timestamp < 2 ^ 32 →
      (get_gsm_time s w).ret
        = some (((millis w - s.sync_mcu_timestamp) / 1000 + s.sync_unix_timestamp : Nat) : Int)) ∧
    (get_gsm_time s w).world = w ∧
    (get_gsm_time s w).state = s ∧
    ∀ ws : List World, ws.foldl (fun st w1 => (get_gsm_time st w1).state) s = s := by
  rw [get_gsm_time_anchored s w hset]
  refine ⟨rfl, ?_, rfl, rfl, ?_⟩
  · intro hle hlt
    have hm : millis w < 2 ^ 32 := Nat.mod_lt _ (by decide)
    generalize millis w = m at hle hlt hm ⊢
    have e : (m + 2 ^ 32 - s.sync_mcu_timestamp) % 2 ^ 32 = m - s.sync_mcu_timestamp := by
      omega
    simp only [e]
    rw [Nat.mod_eq_of_lt hlt]
  · intro ws
    induction ws with
    | nil => rfl
    | cons w1 tl ih =>
      simp only [List.foldl_cons]
      rw [get_gsm_time_anchored s w1 hset]
      exact ih

/-- C8 witness: anchor (1000 ms, 1684326896), clock at 4500 ms, bytes pending on the UART. -/
theorem c8_anchor_set_no_modem_witness :
    (get_gsm_time { fresh with sync_mcu_timestamp := 1000, sync_unix_timestamp := 1684326896 }
      ⟨4500, arriving_at 4000 (bytes "RING\r\n"), bytes "AT\r", none⟩).ret = some 1684326899 ∧
    (get_gsm_time { fresh with sync_mcu_timestamp := 1000, sync_unix_timestamp := 1684326896 }
      ⟨4500, arriving_at 4000 (bytes "RING\r\n"), bytes "AT\r", none⟩).world
      = ⟨4500, arriving_at 4000 (bytes "RING\r\n"), bytes "AT\r", none⟩ :=
  ⟨(c8_anchor_set_no_modem
      { fresh with sync_mcu_timestamp := 1000, sync_unix_timestamp := 1684326896 }
      ⟨4500, arriving_at 4000 (bytes "RING\r\n"), bytes "AT\r", none⟩ (by decide)).1,
    (c8_anchor_set_no_modem
      { fresh with sync_mcu_timestamp := 1000, sync_unix_timestamp := 1684326896 }
      ⟨4500, arriving_at 4000 (bytes "RING\r\n"), bytes "AT\r", none⟩ (by decide)).2.2.1⟩

/-- C9: with the anchor unset, when the wait for "+CCLK:" times out, or matches a line from
which `sscanf` does not assign six fields, `get_gsm_time()` returns 0 and leaves both anchor
fields as they were (unset), having sent "AT+CCLK?" CR; the next call, in whatever world, sends
"AT+CCLK?" CR again. -/
theorem c9_failed_sync_retries (s : State) (w : World) (hunset : s.sync_unix_timestamp = 0)
    (hfail : (cclk_ack s w).ret = some (-1) ∨
      ((cclk_ack s w).ret = some 0 ∧
        (sscanf (get_received_line (cclk_ack s w).receive_buffer)
          "+CCLK: \"%hhd/%hhd/%hhd,%hhd:%hhd:%hhd%*s\"").length ≠ 6)) :
    (get_gsm_time s w).ret = some 0 ∧
    (get_gsm_time s w).state.sync_unix_timestamp = 0 ∧
    (get_gsm_time s w).state.sync_mcu_timestamp = s.sync_mcu_timestamp ∧
    (get_gsm_time s w).world.tx = w.tx ++ bytes "AT+CCLK?\r" ∧
    ∀ w1 : World,
      (get_gsm_time (get_gsm_time s w).state w1).world.tx = w1.tx ++ bytes "AT+CCLK?\r" := by
  obtain ⟨h1, h2, h3⟩ := get_gsm_time_failure s w hunset hfail
  rw [hunset] at h2
  exact ⟨h1, h2, h3, get_gsm_time_tx s w hunset, fun w1 => get_gsm_time_tx _ w1 h2⟩

set_option maxRecDepth 100000 in
/-- C9 witness: from the answer of `date_only_world` three fields are assigned; and a modem
that does not answer at all. -/
theorem c9_failed_sync_retries_witness :
    (cclk_ack fresh date_only_world).ret = some 0 ∧
    sscanf (get_received_line (cclk_ack fresh date_only_world).receive_buffer)
      "+CCLK: \"%hhd/%hhd/%hhd,%hhd:%hhd:%hhd%*s\"" = [23, 5, 17] ∧
    ((get_gsm_time fresh date_only_world).ret = some 0 ∧
      (get_gsm_time fresh date_only_world).state.sync_unix_timestamp = 0 ∧
      (get_gsm_time fresh date_only_world).state.sync_mcu_timestamp
        = fresh.sync_mcu_timestamp ∧
      (get_gsm_time fresh date_only_world).world.tx = date_only_world.tx ++ bytes "AT+CCLK?\r" ∧
      ∀ w1 : World,
        (get_gsm_time (get_gsm_time fresh date_only_world).state w1).world.tx
          = w1.tx ++ bytes "AT+CCLK?\r") ∧
    (get_gsm_time fresh ⟨7000, [], [], none⟩).ret = some 0 :=
  ⟨by decide, by decide,
    c9_failed_sync_retries fresh date_only_world rfl (Or.inr ⟨by decide, by decide⟩),
    (c9_failed_sync_retries fresh ⟨7000, [], [], none⟩ rfl (Or.inl (by decide))).1⟩

/-! ## C1 -/

/-- The bytes a run of the loop consumes had all arrived before the deadline `S + timeout_ms`. -/
theorem wait_loop_consumed (pattern : List Nat) (timeout_ms S : Nat)
    (hT : timeout_ms + 20 ≤ 2 ^ 32) :
    ∀ (fuel : Nat) (buf : List Nat) (cursor : Nat) (w : World) (log : List Nat),
      S ≤ w.now → w.now - S < timeout_ms + 20 →
      ∃ k, k ≤ w.rx.length ∧
        (wait_loop pattern timeout_ms (S % 2 ^ 32) fuel buf cursor w log).world.rx = w.rx.drop k ∧
        ∀ p ∈ w.rx.take k, p.1 < S + timeout_ms := by
  intro fuel
  induction fuel with
  | zero =>
    intro buf cursor w log _ _
    exact ⟨0, Nat.zero_le _, rfl, by simp⟩
  | succ n ih =>
    intro buf cursor w log hS he
    have hel : (millis w + 2 ^ 32 - S % 2 ^ 32) % 2 ^ 32 = w.now - S :=
      elapsed_eq w.now S hS (by omega)
    simp only [wait_loop, hel]
    by_cases ht : w.now - S < timeout_ms
    · rw [if_pos ht]
      by_cases hav : check_incoming_byte w = true
      · rw [if_pos hav]
        obtain ⟨p, rest, hrx, hp, hread⟩ := read_incoming_byte_of_check hav
        rw [hread]
        simp only
        have hone : ∀ (r : Wait), (∃ k, k ≤ rest.length ∧ r.world.rx = rest.drop k ∧
            ∀ q ∈ rest.take k, q.1 < S + timeout_ms) →
            ∃ k, k ≤ w.rx.length ∧ r.world.rx = w.rx.drop k ∧
              ∀ q ∈ w.rx.take k, q.1 < S + timeout_ms := by
          intro r hr
          obtain ⟨k, hk, hd, ha⟩ := hr
          refine ⟨k + 1, by rw [hrx]; simp only [List.length_cons]; omega, by rw [hrx]; exact hd, ?_⟩
          rw [hrx]
          intro q hq
          simp only [List.take_succ_cons, List.mem_cons] at hq
          rcases hq with rfl | hq
          · omega
          · exact ha q hq
        generalize (if cursor < A9_UART_RX_BUFFER_SIZE - 2 then cursor + 1 else cursor) = c1
        split
        · split
          · exact hone _ ⟨0, Nat.zero_le _, rfl, by simp⟩
          · exact hone _ (ih _ _ { w with rx := rest } _ hS he)
        · exact hone _ (ih _ _ { w with rx := rest } _ hS he)
      · rw [if_neg hav, vTaskDelay_poll]
        exact ih _ _ { w with now := w.now + 20 } _ (by simp only; omega) (by simp only; omega)
    · rw [if_neg ht]
      exact ⟨0, Nat.zero_le _, rfl, by simp⟩

theorem take_initial_takeWhile {α : Type} (P : α → Bool) : ∀ (l : List α) (k : Nat),
    (∀ x ∈ l.take k, P x = true) → l.take k <+: l.takeWhile P := by
  intro l
  induction l with
  | nil => intro k _; simp
  | cons a l ih =>
    intro k h
    cases k with
    | zero => simp
    | succ k =>
      simp only [List.take_succ_cons, List.mem_cons, forall_eq_or_imp] at h
      rw [List.take_succ_cons, List.takeWhile_cons, h.1]
      simp only [if_true]
      exact (List.prefix_cons_inj a).mpr (ih k h.2)

/-- The line matched by `wait_for_pattern` is one of the completed lines of the part of the
inbound stream that arrived before the deadline. -/
theorem wait_for_pattern_matched_in_time (buf : List Nat) (w : World) (pattern : List Nat)
    (timeout_ms : Nat) (hbuf : buf.length = A9_UART_RX_BUFFER_SIZE)
    (hT : timeout_ms + 20 ≤ 2 ^ 32)
    (hret : (wait_for_pattern buf w pattern timeout_ms).ret = some 0) :
    ∃ l ∈ completed_lines []
        ((w.rx.takeWhile (fun p => decide (p.1 < w.now + timeout_ms))).map Prod.snd),
      pattern <:+: seen l := by
  obtain ⟨k, earlier, tail, hk, hdrop, hsplit, hear, hmat, -⟩ :=
    wait_for_pattern_scanned (wait_budget w timeout_ms) buf w pattern timeout_ms hbuf
  obtain ⟨k2, hk2, hdrop2, harr⟩ := wait_loop_consumed pattern timeout_ms w.now hT
    (wait_budget w timeout_ms) (buf.set 0 0) 0 w [0] (Nat.le_refl _) (by omega)
  change (wait_for_pattern buf w pattern timeout_ms).world.rx = _ at hdrop hdrop2
  have hkk : k = k2 := by
    have := congrArg List.length (hdrop.symm.trans hdrop2)
    simp only [List.length_drop] at this
    omega
  subst hkk
  obtain ⟨hline, hsome, -⟩ := hmat hret
  refine ⟨tail, ?_, (strstr_isSome_iff _ _).mp hsome⟩
  obtain ⟨more, hmore⟩ := take_initial_takeWhile
    (fun p : Nat × Nat => decide (p.1 < w.now + timeout_ms)) w.rx k
    (fun x hx => by simpa using harr x hx)
  have hcl := completed_lines_split ((w.rx.take k).map Prod.snd) [] earlier tail (by simp)
    (fun l hl => (hear l hl).1) hline hsplit
  obtain ⟨c2, happ⟩ := completed_lines_append ((w.rx.take k).map Prod.snd)
    (more.map Prod.snd) []
  rw [← List.map_append, hmore, hcl] at happ
  rw [happ]
  simp

theorem seen_eq_self {l : List Nat} (hlen : l.length ≤ A9_UART_RX_BUFFER_SIZE - 2)
    (h0 : 0 ∉ l) : seen l = l := by
  unfold seen
  rw [List.take_of_length_le hlen, cstr_eq_self h0]

theorem wait_for_pattern_overflow_line (n : Nat) (h : A9_UART_RX_BUFFER_SIZE - 2 ≤ n) :
    (wait_for_pattern (List.replicate 2048 0)
      ⟨0, arriving_at 0 (tail_line n), [], none⟩ [79, 75] 1000).ret = some (-1) := by
  have hno : (wait_for_pattern (List.replicate 2048 0)
      ⟨0, arriving_at 0 (tail_line n), [], none⟩ [79, 75] 1000).ret ≠ some 0 := by
    refine wait_for_pattern_no_match _ _ _ [79, 75] 1000 (List.length_replicate 2048 0) ?_
    simp only [map_snd_arriving_at]
    have hl : tail_line n = (List.replicate n 65 ++ [79, 75]) ++ [10] := by
      simp [tail_line]
    have hsingle := completed_lines_single (d := List.replicate n 65 ++ [79, 75]) (by simp)
    rw [← hl] at hsingle
    rw [hsingle]
    intro l hl2
    rw [List.mem_singleton.mp hl2]
    exact seen_tail_line n h
  rcases wait_for_pattern_returns (List.replicate 2048 0)
    ⟨0, arriving_at 0 (tail_line n), [], none⟩ [79, 75] 1000 (by decide) with h1 | h1
  · exact absurd h1.1 hno
  · exact h1.1

/-- C1 (as amended): for every pattern, timeout of at most `2^32 - 20` ms, buffer content and
inbound stream. (1) With a positive timeout, if the pending input starts with whole lines, all
arrived by the last poll of the loop (`last_poll`, the largest multiple of 20 ms below the
timeout after the call), one of which shows the pattern in its captured part (`seen`: the
first `A9_UART_RX_BUFFER_SIZE - 2` bytes, up to the first NUL), `wait_for_pattern` returns
Matched (0). (2) If no line completed before the deadline contains the pattern, or just shows
it in its captured part, it returns TimedOut (-1). (3) For a line of at most
`A9_UART_RX_BUFFER_SIZE - 2` bytes without NUL, the captured part is the line. -/
theorem c1_match_or_timeout (buf : List Nat) (w : World) (pattern : List Nat) (timeout_ms : Nat)
    (hbuf : buf.length = A9_UART_RX_BUFFER_SIZE) (hT : timeout_ms + 20 ≤ 2 ^ 32) :
    (0 < timeout_ms → ∀ (pre post : List (Nat × Nat)) (lines : List (List Nat)),
      w.rx = pre ++ post → pre.map Prod.snd = lines.flatten → (∀ l ∈ lines, IsLine l) →
      (∃ l ∈ lines, pattern <:+: seen l) →
      (∀ p ∈ pre, p.1 ≤ last_poll w.now timeout_ms) →
      (wait_for_pattern buf w pattern timeout_ms).ret = some 0) ∧
    ((∀ l ∈ completed_lines []
        ((w.rx.takeWhile (fun p => decide (p.1 < w.now + timeout_ms))).map Prod.snd),
        ¬ pattern <:+: l) →
      (wait_for_pattern buf w pattern timeout_ms).ret = some (-1)) ∧
    ((∀ l ∈ completed_lines []
        ((w.rx.takeWhile (fun p => decide (p.1 < w.now + timeout_ms))).map Prod.snd),
        ¬ pattern <:+: seen l) →
      (wait_for_pattern buf w pattern timeout_ms).ret = some (-1)) ∧
    (∀ l : List Nat, l.length ≤ A9_UART_RX_BUFFER_SIZE - 2 → 0 ∉ l → seen l = l) := by
  have neg : (∀ l ∈ completed_lines []
        ((w.rx.takeWhile (fun p => decide (p.1 < w.now + timeout_ms))).map Prod.snd),
        ¬ pattern <:+: seen l) →
      (wait_for_pattern buf w pattern timeout_ms).ret = some (-1) := by
    intro hno
    rcases wait_for_pattern_returns buf w pattern timeout_ms hT with h | h
    · obtain ⟨l, hl, hin⟩ := wait_for_pattern_matched_in_time buf w pattern timeout_ms hbuf hT h.1
      exact absurd hin (hno l hl)
    · exact h.1
  refine ⟨?_, ?_, neg, fun l hlen h0 => seen_eq_self hlen h0⟩
  · intro hT0 pre post lines hrx hsplit hlines hmatch harr
    obtain ⟨l, hl, hin⟩ := hmatch
    exact wait_for_pattern_live_any buf w pattern timeout_ms pre post lines hbuf hT0 hT hrx
      hsplit hlines ⟨l, hl, (strstr_isSome_iff _ _).mpr hin⟩ harr
  · intro hno
    exact neg (fun l hl hin => hno l hl (infix_of_infix_seen hin))

/-- C1 witness: "OK", CR, LF arrives 10 ms after the call and is matched; "ERROR", CR, LF
arrives instead and the call times out. -/
theorem c1_match_or_timeout_witness :
    (wait_for_pattern (List.replicate 2048 0) ⟨0, arriving_at 10 (bytes "OK\r\n"), [], none⟩
      (bytes "OK") 1000).ret = some 0 ∧
    (wait_for_pattern (List.replicate 2048 0) ⟨0, arriving_at 10 (bytes "ERROR\r\n"), [], none⟩
      (bytes "OK") 1000).ret = some (-1) :=
  ⟨(c1_match_or_timeout (List.replicate 2048 0) ⟨0, arriving_at 10 (bytes "OK\r\n"), [], none⟩
      (bytes "OK") 1000 (List.length_replicate 2048 0) (by decide)).1 (by decide)
      (arriving_at 10 (bytes "OK\r\n")) [] [bytes "OK\r\n"] (by simp) (by decide)
      (fun l hl => by
        rw [List.mem_singleton.mp hl]
        exact ⟨bytes "OK\r", rfl, by decide⟩)
      ⟨bytes "OK\r\n", by simp, by decide⟩
      (fun p hp => by rw [mem_arriving_at hp]; decide),
    (c1_match_or_timeout (List.replicate 2048 0)
      ⟨0, arriving_at 10 (bytes "ERROR\r\n"), [], none⟩
      (bytes "OK") 1000 (List.length_replicate 2048 0) (by decide)).2.1 (by decide)⟩

/-- C1 counterexample, pattern "OK". (1) The line "OK", LF arrives 25 ms after the call, before
the deadline of 30 ms, and the call times out: the loop polls at 0 and 20 ms and leaves at
40 ms. (2) The line NUL, "OK", LF is pending at the call and the call (timeout 1000 ms) times
out: `strstr` stops at the NUL. (3) The line 2046 times "A", "OK", LF is pending at the call
and the call times out: the pattern lies behind the 2046 bytes that are kept. -/
theorem c1_counterexample :
    (IsLine [79, 75, 10] ∧ [79, 75] <:+: [79, 75, 10] ∧
      (∀ p ∈ arriving_at 25 [79, 75, 10], p.1 < 0 + 30) ∧
      (wait_for_pattern (List.replicate 2048 0) ⟨0, arriving_at 25 [79, 75, 10], [], none⟩
        [79, 75] 30).ret = some (-1)) ∧
    (IsLine (nul_line 0) ∧ [79, 75] <:+: nul_line 0 ∧
      (wait_for_pattern (List.replicate 2048 0) ⟨0, arriving_at 0 (nul_line 0), [], none⟩
        [79, 75] 1000).ret = some (-1)) ∧
    (IsLine (tail_line 2046) ∧ [79, 75] <:+: tail_line 2046 ∧
      (wait_for_pattern (List.replicate 2048 0) ⟨0, arriving_at 0 (tail_line 2046), [], none⟩
        [79, 75] 1000).ret = some (-1)) := by
  refine ⟨⟨⟨[79, 75], rfl, by decide⟩, by decide, by decide, by decide⟩,
    ⟨isLine_nul_line 0, by decide, ?_⟩,
    ⟨isLine_tail_line 2046, ok_infix_tail_line 2046, wait_for_pattern_overflow_line 2046
      (by decide)⟩⟩
  exact wait_for_pattern_nul_line 0 0 1000 _ (by decide) rfl _ (List.length_replicate 2048 0)

/-! ## C19 -/

theorem zero_not_mem_cstr (mem : List Nat) : 0 ∉ cstr mem := by
  unfold cstr
  intro h
  have := List.mem_takeWhile_imp h
  simp at this

/-- C7 (as amended): the result of `http_get`, for a command that fits `http_buffer`, is
decided in a fixed order. -1 when the "OK" acknowledgment is not matched in time; otherwise -2
when the burst read returned at least `A9_HTTP_BUFFER_SIZE - 1` bytes, whatever they are;
otherwise -3 when zero bytes were read; otherwise -4 when the blob does not contain "HTTP";
otherwise, `rc` being the 16-bit status the code reads after the first "HTTP": `rc` converted
to `int16_t` when it is not 200, -5 when it is 200 and the blob does not contain
"Content-Length", and 200 when it does. The acknowledgment wait has no other outcome. When the
status read is below 32768 (it then is returned unchanged and is not negative), each of the
results -1, -2, -3, -4, -5 and 200 occurs in its case only. The five codes are pairwise
different and negative. -/
theorem c7_failure_code_order (s : State) (w : World) (URL : List Nat) (rc0 bc0 : Nat)
    (hbuf : s.http_buffer.length = A9_HTTP_BUFFER_SIZE)
    (hfit : (http_get_command URL).length < A9_HTTP_BUFFER_SIZE) :
    ((http_ack s w).ret = some 0 ∨ (http_ack s w).ret = some (-1)) ∧
    ((http_ack s w).ret = some (-1) → (http_get s w URL rc0 bc0).ret = some (-1)) ∧
    ((http_ack s w).ret = some 0 → (http_burst s w).length ≥ A9_HTTP_BUFFER_SIZE - 1 →
      (http_get s w URL rc0 bc0).ret = some (-2)) ∧
    ((http_ack s w).ret = some 0 → (http_burst s w).length = 0 →
      (http_get s w URL rc0 bc0).ret = some (-3)) ∧
    ((http_ack s w).ret = some 0 → 0 < (http_burst s w).length →
      (http_burst s w).length < A9_HTTP_BUFFER_SIZE - 1 →
      ¬ bytes "HTTP" <:+: cstr (http_burst s w) →
      (http_get s w URL rc0 bc0).ret = some (-4)) ∧
    (∀ rc, (http_ack s w).ret = some 0 → 0 < (http_burst s w).length →
      (http_burst s w).length < A9_HTTP_BUFFER_SIZE - 1 →
      http_status (http_burst s w) rc0 = some rc → rc ≠ 200 →
      (http_get s w URL rc0 bc0).ret = some (to_int16 rc)) ∧
    ((http_ack s w).ret = some 0 → 0 < (http_burst s w).length →
      (http_burst s w).length < A9_HTTP_BUFFER_SIZE - 1 →
      http_status (http_burst s w) rc0 = some 200 →
      ¬ bytes "Content-Length" <:+: cstr (http_burst s w) →
      (http_get s w URL rc0 bc0).ret = some (-5)) ∧
    ((http_ack s w).ret = some 0 → 0 < (http_burst s w).length →
      (http_burst s w).length < A9_HTTP_BUFFER_SIZE - 1 →
      http_status (http_burst s w) rc0 = some 200 →
      bytes "Content-Length" <:+: cstr (http_burst s w) →
      (http_get s w URL rc0 bc0).ret = some 200) ∧
    ((∀ rc, http_status (http_burst s w) rc0 = some rc → rc < 32768) →
      ((http_get s w URL rc0 bc0).ret = some (-1) ↔ (http_ack s w).ret = some (-1)) ∧
      ((http_get s w URL rc0 bc0).ret = some (-2) ↔
        (http_ack s w).ret = some 0 ∧ (http_burst s w).length ≥ A9_HTTP_BUFFER_SIZE - 1) ∧
      ((http_get s w URL rc0 bc0).ret = some (-3) ↔
        (http_ack s w).ret = some 0 ∧ (http_burst s w).length = 0) ∧
      ((http_get s w URL rc0 bc0).ret = some (-4) ↔
        (http_ack s w).ret = some 0 ∧ 0 < (http_burst s w).length ∧
        (http_burst s w).length < A9_HTTP_BUFFER_SIZE - 1 ∧
        ¬ bytes "HTTP" <:+: cstr (http_burst s w)) ∧
      ((http_get s w URL rc0 bc0).ret = some (-5) ↔
        (http_ack s w).ret = some 0 ∧ 0 < (http_burst s w).length ∧
        (http_burst s w).length < A9_HTTP_BUFFER_SIZE - 1 ∧
        http_status (http_burst s w) rc0 = some 200 ∧
        ¬ bytes "Content-Length" <:+: cstr (http_burst s w)) ∧
      ((http_get s w URL rc0 bc0).ret = some 200 ↔
        (http_ack s w).ret = some 0 ∧ 0 < (http_burst s w).length ∧
        (http_burst s w).length < A9_HTTP_BUFFER_SIZE - 1 ∧
        http_status (http_burst s w) rc0 = some 200 ∧
        bytes "Content-Length" <:+: cstr (http_burst s w)) ∧
      ((http_get s w URL rc0 bc0).ret = some (-1) ∨ (http_get s w URL rc0 bc0).ret = some (-2) ∨
        (http_get s w URL rc0 bc0).ret = some (-3) ∨ (http_get s w URL rc0 bc0).ret = some (-4) ∨
        (http_get s w URL rc0 bc0).ret = some (-5) ∨ (http_get s w URL rc0 bc0).ret = some 200 ∨
        ∃ rc, http_status (http_burst s w) rc0 = some rc ∧ rc ≠ 200 ∧
          (http_get s w URL rc0 bc0).ret = some (rc : Int))) ∧
    List.Nodup [(-1 : Int), -2, -3, -4, -5] ∧
    ∀ c ∈ [(-1 : Int), -2, -3, -4, -5], c < 0 := by
  rw [http_get_eq]
  rw [(http_exchange_summary s w (http_get_command URL) rc0 bc0 hbuf hfit).1]
  have hS := http_status_none_iff (http_burst s w) rc0
  have hC := http_content_length_none_iff (http_burst s w) bc0
  have hC2 : bytes "Content-Length" <:+: cstr (http_burst s w) ↔
      ∃ cl, http_content_length (http_burst s w) bc0 = some cl := by
    rw [← not_iff_not, ← hC]
    cases http_content_length (http_burst s w) bc0 <;> simp
  rw [← hS, ← hC, hC2]
  clear hS hC hC2
  have hsz : A9_HTTP_BUFFER_SIZE - 1 = 2047 := rfl
  rw [hsz]
  refine ⟨http_ack_returns s w, ?_, ?_, ?_, ?_, ?_, ?_, ?_, ?_, by decide, by decide⟩
  · intro hack
    unfold http_ret
    rw [hack]
    rfl
  · intro hack hlen
    unfold http_ret http_parse
    rw [hack, hsz, if_pos hlen]
    rfl
  · intro hack hlen
    unfold http_ret http_parse
    rw [hack, hsz, if_neg (by omega), if_pos (by omega)]
    rfl
  · intro hack h1 h2 h3
    unfold http_ret http_parse
    rw [hack, hsz, if_neg (by omega), if_neg (by omega), h3]
    rfl
  · intro rc hack h1 h2 h3 h4
    unfold http_ret http_parse
    rw [hack, hsz, if_neg (by omega), if_neg (by omega), h3]
    simp only [if_pos h4]
    rfl
  · intro hack h1 h2 h3 h4
    unfold http_ret http_parse
    rw [hack, hsz, if_neg (by omega), if_neg (by omega), h3, h4]
    rfl
  · intro hack h1 h2 h3 h4
    obtain ⟨cl, h4⟩ := h4
    unfold http_ret http_parse
    rw [hack, hsz, if_neg (by omega), if_neg (by omega), h3, h4]
    rfl
  intro hrange
  unfold http_ret
  rcases http_ack_returns s w with hack | hack
  · rw [hack]
    simp only [show ¬ ((0 : Int) = -1) by decide, if_false]
    rcases http_parse_cases (http_burst s w) rc0 bc0 with h | h | h | h | h | h <;>
      try rw [hsz] at h
    · obtain ⟨h1, h2⟩ := h
      rw [h2]
      refine ⟨?_, ?_, ?_, ?_, ?_, ?_, ?_⟩ <;> simp [-List.length_eq_zero] <;> omega
    · obtain ⟨h1, h2⟩ := h
      rw [h2]
      refine ⟨?_, ?_, ?_, ?_, ?_, ?_, ?_⟩ <;> simp [-List.length_eq_zero, h1]
    · obtain ⟨h1, h2, h3, h4⟩ := h
      rw [h4]
      refine ⟨?_, ?_, ?_, ?_, ?_, ?_, ?_⟩ <;> simp [-List.length_eq_zero, h3] <;> omega
    · obtain ⟨h1, h2, rc, h3, h4, h5, h6⟩ := h
      rw [h6, to_int16_small (hrange rc h3)]
      have e1 : (rc : Int) ≠ -1 := by omega
      have e2 : (rc : Int) ≠ -2 := by omega
      have e3 : (rc : Int) ≠ -3 := by omega
      have e4 : (rc : Int) ≠ -4 := by omega
      have e5 : (rc : Int) ≠ -5 := by omega
      have e6 : (rc : Int) ≠ 200 := by omega
      refine ⟨?_, ?_, ?_, ?_, ?_, ?_, ?_⟩ <;>
        simp [-List.length_eq_zero, h3, h4, e1, e2, e3, e4, e5, e6] <;> omega
    · obtain ⟨h1, h2, h3, h4, h5⟩ := h
      rw [h5]
      refine ⟨?_, ?_, ?_, ?_, ?_, ?_, ?_⟩ <;> simp [-List.length_eq_zero, h3, h4] <;> omega
    · obtain ⟨h1, h2, h3, cl, h4, h5⟩ := h
      rw [h5]
      refine ⟨?_, ?_, ?_, ?_, ?_, ?_, ?_⟩ <;> simp [-List.length_eq_zero, h3, h4] <;> omega
  · rw [hack]
    refine ⟨?_, ?_, ?_, ?_, ?_, ?_, ?_⟩ <;> simp

/-- C7 witness: the modem acknowledges and sends "HTTP/1.1 200 OK", an empty line and "hello",
with no "Content-Length": the result is -5. -/
theorem c7_failure_code_order_witness :
    fresh.http_buffer.length = A9_HTTP_BUFFER_SIZE ∧
    (http_get_command (bytes "http://a.b/c")).length < A9_HTTP_BUFFER_SIZE ∧
    (http_get fresh (answering (bytes "HTTP/1.1 200 OK\r\n\r\nhello"))
      (bytes "http://a.b/c") 0 0).ret = some (-5) :=
  ⟨List.length_replicate 2048 0, by decide,
    (c7_failure_code_order fresh (answering (bytes "HTTP/1.1 200 OK\r\n\r\nhello"))
      (bytes "http://a.b/c") 0 0 (List.length_replicate 2048 0)
      (by decide)).2.2.2.2.2.2.1 (by decide) (by decide) (by decide) (by decide) (by decide)⟩

/-- C7 counterexample: the acknowledgment is matched and the blob is "HTTP/1.1 65535 X",
"HTTP/1.1 65534 X" or "HTTP/1.1 65532 X" followed by an empty line (20 bytes, containing
"HTTP"). `http_get` returns -1 without a timeout, -2 without a full buffer and -4 with "HTTP"
in the buffer: the status is returned through `int16_t`. -/
theorem c7_counterexample :
    ((http_ack fresh (answering (bytes "HTTP/1.1 65535 X\r\n\r\n"))).ret = some 0 ∧
      (http_get fresh (answering (bytes "HTTP/1.1 65535 X\r\n\r\n"))
        (bytes "http://a.b/c") 0 0).ret = some (-1)) ∧
    ((http_burst fresh (answering (bytes "HTTP/1.1 65534 X\r\n\r\n"))).length = 20 ∧
      (http_get fresh (answering (bytes "HTTP/1.1 65534 X\r\n\r\n"))
        (bytes "http://a.b/c") 0 0).ret = some (-2)) ∧
    (bytes "HTTP" <:+: cstr (http_burst fresh (answering (bytes "HTTP/1.1 65532 X\r\n\r\n"))) ∧
      (http_get fresh (answering (bytes "HTTP/1.1 65532 X\r\n\r\n"))
        (bytes "http://a.b/c") 0 0).ret = some (-4)) := by
  refine ⟨⟨by decide, by decide⟩, ⟨by decide, by decide⟩, ⟨by decide, by decide⟩⟩

/-! ## C10 -/

/-- C10 (as amended): a first `get_gsm_time()` call with the anchor unset leaves it set (it
synced), and a second call is made when the clock reads between the return of the first call
and 1000 ms later. Then the second call touches neither the transport nor the object, and the
two results satisfy `r2 = r1` or `r2 = r1 + 1` in 32-bit unsigned arithmetic: `r1 <= r2 <=
r1 + 1` unless `r1` is `2^32 - 1` and `r2` wraps to 0. When the anchor is at least 7 seconds
below `2^32` nothing wraps and `r1 <= r2 <= r1 + 1`. -/
theorem c10_two_calls_within_a_second (s : State) (w w2 : World)
    (hunset : s.sync_unix_timestamp = 0)
    (hsync : (get_gsm_time s w).state.sync_unix_timestamp ≠ 0)
    (h1 : (get_gsm_time s w).world.now ≤ w2.now)
    (h2 : w2.now ≤ (get_gsm_time s w).world.now + 1000) :
    (get_gsm_time (get_gsm_time s w).state w2).world = w2 ∧
    (get_gsm_time (get_gsm_time s w).state w2).state = (get_gsm_time s w).state ∧
    ∃ r1 r2 : Int, (get_gsm_time s w).ret = some r1 ∧
      (get_gsm_time (get_gsm_time s w).state w2).ret = some r2 ∧
      0 ≤ r1 ∧ r1 < 2 ^ 32 ∧ 0 ≤ r2 ∧ r2 < 2 ^ 32 ∧
      (r2 = r1 ∨ r2 = r1 + 1 ∨ (r1 = 2 ^ 32 - 1 ∧ r2 = 0)) ∧
      ((get_gsm_time s w).state.sync_unix_timestamp + 7 ≤ 2 ^ 32 → r1 ≤ r2 ∧ r2 ≤ r1 + 1) := by
  obtain ⟨hmcu, hworld, hret⟩ := get_gsm_time_synced s w hunset hsync
  obtain ⟨hge, hel⟩ := cclk_ack_elapsed s w
  rw [hworld] at h1 h2
  rw [get_gsm_time_anchored _ w2 hsync, hmcu]
  refine ⟨rfl, rfl, _, _, hret, rfl, ?_⟩
  have e1 : (millis (cclk_ack s w).world + 2 ^ 32 - millis w) % 2 ^ 32
      = (cclk_ack s w).world.now - w.now := elapsed_eq _ _ hge (by omega)
  have e2 : (millis w2 + 2 ^ 32 - millis w) % 2 ^ 32 = w2.now - w.now :=
    elapsed_eq _ _ (by omega) (by omega)
  rw [e1, e2]
  clear e1 e2 hret hmcu hworld
  generalize (get_gsm_time s w).state.sync_unix_timestamp = U
  generalize (cclk_ack s w).world.now = t1 at *
  have hq : (w2.now - w.now) / 1000 = (t1 - w.now) / 1000 ∨
      (w2.now - w.now) / 1000 = (t1 - w.now) / 1000 + 1 := by omega
  have hq1 : (t1 - w.now) / 1000 ≤ 5 := by omega
  generalize (w2.now - w.now) / 1000 = q2 at hq ⊢
  generalize (t1 - w.now) / 1000 = q1 at hq hq1 ⊢
  have hm1 : (q1 + U) % 2 ^ 32 < 2 ^ 32 := Nat.mod_lt _ (by decide)
  have hm2 : (q2 + U) % 2 ^ 32 < 2 ^ 32 := Nat.mod_lt _ (by decide)
  refine ⟨by omega, by omega, by omega, by omega, ?_, ?_⟩
  · rcases hq with hq | hq
    · left; rw [hq]
    · right
      rw [hq]
      have : (q1 + 1 + U) % 2 ^ 32 = (q1 + U) % 2 ^ 32 + 1 ∨
          ((q1 + U) % 2 ^ 32 = 2 ^ 32 - 1 ∧ (q1 + 1 + U) % 2 ^ 32 = 0) := by omega
      rcases this with h | ⟨ha, hb⟩
      · left; rw [h]; push_cast; rfl
      · right; rw [ha, hb]; exact ⟨by norm_num, rfl⟩
  · intro hrange
    rw [Nat.mod_eq_of_lt (by omega), Nat.mod_eq_of_lt (by omega)]
    push_cast
    omega

/-- C10 witness: the first call syncs against `clock_world`; the second is made at 7900 ms
with nothing on the UART. -/
theorem c10_two_calls_within_a_second_witness :
    fresh.sync_unix_timestamp = 0 ∧
    (get_gsm_time fresh clock_world).ret = some 1684326896 ∧
    (get_gsm_time (get_gsm_time fresh clock_world).state ⟨7900, [], [], none⟩).ret
      = some 1684326896 ∧
    (get_gsm_time (get_gsm_time fresh clock_world).state ⟨7900, [], [], none⟩).world
      = ⟨7900, [], [], none⟩ :=
  ⟨rfl, by decide, by decide,
    (c10_two_calls_within_a_second fresh clock_world ⟨7900, [], [], none⟩ rfl (by decide)
      (by decide) (by decide)).1⟩

/-- C10 counterexample: the modem's clock reads 2106-02-07 06:28:15, the Unix time `2^32 - 1`.
The first call syncs and returns 4294967295 at 7040 ms; the second, at 8000 ms (960 ms later,
1000 ms after the command), returns 0: `r2 < r1`. -/
theorem c10_counterexample :
    fresh.sync_unix_timestamp = 0 ∧
    (get_gsm_time fresh wrap_world).state.sync_unix_timestamp = 4294967295 ∧
    (get_gsm_time fresh wrap_world).world.now = 7040 ∧
    (get_gsm_time fresh wrap_world).ret = some 4294967295 ∧
    (get_gsm_time (get_gsm_time fresh wrap_world).state ⟨8000, [], [], none⟩).ret = some 0 ∧
    (get_gsm_time (get_gsm_time fresh wrap_world).state ⟨8000, [], [], none⟩).world
      = ⟨8000, [], [], none⟩ := by
  refine ⟨rfl, by decide, by decide, by decide, by decide, by decide⟩

/-! ## C4, C5 -/

theorem wait_of_arrives (buf : List Nat) (w : World) (pattern : List Nat) (timeout_ms : Nat)
    (line : List Nat) (post : List (Nat × Nat)) (hbuf : buf.length = A9_UART_RX_BUFFER_SIZE)
    (hT0 : 0 < timeout_ms) (hT : timeout_ms + 20 ≤ 2 ^ 32)
    (h : ArrivesInTime w pattern timeout_ms line post) :
    (wait_for_pattern buf w pattern timeout_ms).ret = some 0 ∧
    (wait_for_pattern buf w pattern timeout_ms).world.rx = post ∧
    get_received_line (wait_for_pattern buf w pattern timeout_ms).receive_buffer = seen line ∧
    w.now ≤ (wait_for_pattern buf w pattern timeout_ms).world.now ∧
    (wait_for_pattern buf w pattern timeout_ms).world.now - w.now < timeout_ms := by
  obtain ⟨pre, earlier, hrx, hsplit, hear, hline, hshow, harr⟩ := h
  obtain ⟨h1, h2, h3⟩ := wait_for_pattern_live_first buf w pattern timeout_ms pre post earlier
    line hbuf hT0 hT hrx hsplit
    (fun l hl => ⟨(hear l hl).1, (strstr_eq_none_iff _ _).mpr (hear l hl).2⟩) hline
    ((strstr_isSome_iff _ _).mpr hshow) harr
  refine ⟨h1, h2, cstr_of_holdsLine h3, ?_, ?_⟩
  · exact (wait_loop_frame pattern timeout_ms (millis w) _ (buf.set 0 0) 0 w [0]).2.2
  · rcases wait_for_pattern_returns buf w pattern timeout_ms hT with h | h
    · exact h.2
    · rw [h1] at h
      exact absurd h.1 (by decide)

theorem start_step_world_eq (prev : Wait) (delay_ms : Nat) (command : List Nat) :
    (start_step_world prev delay_ms command).now = prev.world.now + delay_ms / 10 * 10 ∧
    (start_step_world prev delay_ms command).rx
      = prev.world.rx.dropWhile (fun p => decide (p.1 ≤ prev.world.now + delay_ms / 10 * 10)) :=
  ⟨rfl, rfl⟩

theorem cstr_append_of_not_mem {a : List Nat} (b : List Nat) (h : 0 ∉ a) :
    cstr (a ++ b) = a ++ cstr b := by
  induction a with
  | nil => rfl
  | cons x xs ih =>
    have hx : x ≠ 0 := fun e => h (by simp [e])
    have hxs : 0 ∉ xs := fun e => h (List.mem_cons_of_mem _ e)
    have := ih hxs
    unfold cstr at this ⊢
    simp [List.takeWhile_cons, hx, this]

theorem strstr_append_first (needle : List Nat) (hne : needle ≠ []) :
    ∀ (pre rest : List Nat), ¬ needle <:+: pre ++ needle.dropLast →
      strstr (pre ++ needle ++ rest) needle = some pre.length := by
  intro pre
  induction pre with
  | nil =>
    intro rest _
    cases needle with
    | nil => exact absurd rfl hne
    | cons c cs =>
      simp only [List.nil_append, List.cons_append, strstr, List.length_nil]
      rw [if_pos]
      have : (c :: cs) <+: (c :: (cs ++ rest)) := ⟨rest, by simp⟩
      simp
  | cons a p ih =>
    intro rest h
    have hnot : ¬ needle.isPrefixOf (a :: (p ++ needle ++ rest)) = true := by
      intro hp
      apply h
      have hp2 : needle <+: a :: (p ++ needle ++ rest) := List.isPrefixOf_iff_prefix.mp hp
      have hlen : needle.length ≤ ((a :: p) ++ needle.dropLast).length := by
        simp only [List.length_append, List.length_cons, List.length_dropLast]
        have : 0 < needle.length := List.length_pos.mpr hne
        omega
      have hpre : (a :: p) ++ needle.dropLast <+: a :: (p ++ needle ++ rest) := by
        refine ⟨needle.getLast hne :: rest, ?_⟩
        have e : needle = needle.dropLast ++ [needle.getLast hne] :=
          (List.dropLast_append_getLast hne).symm
        conv_rhs => rw [e]
        simp
      exact (List.prefix_of_prefix_length_le hp2 hpre hlen).isInfix
    have hrec := ih rest (fun hin => h (by
      obtain ⟨x, y, e⟩ := hin
      exact ⟨a :: x, y, by simp [← e]⟩))
    have e : a :: p ++ needle ++ rest = a :: (p ++ needle ++ rest) := by simp
    rw [e]
    simp only [strstr, List.length_cons]
    rw [if_neg hnot, hrec]
    rfl

theorem scan_digits_append (rest : List Nat) (hrest : ∀ c ∈ rest.head?, isdigit c = false) :
    ∀ (ds : List Nat) (acc : Nat), (∀ d ∈ ds, isdigit d = true) →
      scan_digits (ds ++ rest) acc = (ds.foldl (fun a d => a * 10 + (d - 48)) acc, rest) := by
  intro ds
  induction ds with
  | nil => intro acc _; exact scan_digits_stop rest acc hrest
  | cons d ds ih =>
    intro acc h
    have hd : isdigit d = true := h d (by simp)
    simp only [List.cons_append, scan_digits, hd, if_true, List.foldl_cons]
    exact ih _ (fun x hx => h x (List.mem_cons_of_mem _ hx))

theorem scan_int_digits (ds rest : List Nat) (hne : ds ≠ [])
    (hds : ∀ d ∈ ds, isdigit d = true) (hrest : ∀ c ∈ rest.head?, isdigit c = false) :
    scan_int (ds ++ rest)
      = some (((ds.foldl (fun a d => a * 10 + (d - 48)) 0 : Nat) : Int), rest) := by
  cases ds with
  | nil => exact absurd rfl hne
  | cons d ds =>
    have hd : isdigit d = true := hds d (by simp)
    have hd2 : 48 ≤ d ∧ d ≤ 57 := by
      simpa [isdigit] using hd
    have h1 : isspace d = false := by
      simp only [isspace, Bool.or_eq_false_iff, beq_eq_false_iff_ne, Bool.and_eq_false_iff,
        decide_eq_false_iff_not]
      constructor <;> omega
    have h4 : ¬ (d = 45) := by omega
    have h5 : ¬ (d = 43) := by omega
    have hsc := scan_digits_append rest hrest (d :: ds) 0 hds
    simp only [List.cons_append] at hsc
    simp only [List.cons_append, scan_int, List.dropWhile_cons, h1, Bool.false_eq_true,
      if_false, h4, h5, hd, if_true, hsc]

theorem decimal_aux_spec : ∀ (fuel n : Nat) (acc : List Nat), n < fuel →
    ∃ ds, decimal_aux fuel n acc = ds ++ acc ∧ ds ≠ [] ∧ (∀ d ∈ ds, isdigit d = true) ∧
      ∀ a, ds.foldl (fun a d => a * 10 + (d - 48)) a = a * 10 ^ ds.length + n := by
  intro fuel
  induction fuel with
  | zero => intro n acc h; omega
  | succ f ih =>
    intro n acc h
    by_cases h10 : n < 10
    · refine ⟨[48 + n], by simp [decimal_aux, h10], by simp, ?_, ?_⟩
      · intro d hd
        rw [List.mem_singleton.mp hd]
        simp only [isdigit, Bool.and_eq_true, decide_eq_true_eq]
        omega
      · intro a
        simp only [List.foldl_cons, List.foldl_nil, List.length_singleton, pow_one]
        omega
    · obtain ⟨ds, h1, -, h3, h4⟩ := ih (n / 10) ((48 + n % 10) :: acc) (by omega)
      refine ⟨ds ++ [48 + n % 10], by simp [decimal_aux, h10, h1], by simp, ?_, ?_⟩
      · intro d hd
        rcases List.mem_append.mp hd with hd | hd
        · exact h3 d hd
        · rw [List.mem_singleton.mp hd]
          simp only [isdigit, Bool.and_eq_true, decide_eq_true_eq]
          omega
      · intro a
        rw [List.foldl_append, h4 a]
        simp only [List.foldl_cons, List.foldl_nil, List.length_append, List.length_singleton,
          pow_succ]
        have e : a * (10 ^ ds.length * 10) = a * 10 ^ ds.length * 10 := by ring
        rw [e]
        generalize a * 10 ^ ds.length = X
        omega

theorem decimal_spec (n : Nat) : decimal n ≠ [] ∧ (∀ d ∈ decimal n, isdigit d = true) ∧
    (decimal n).foldl (fun a d => a * 10 + (d - 48)) 0 = n := by
  obtain ⟨ds, h1, h2, h3, h4⟩ := decimal_aux_spec (n + 1) n [] (by omega)
  have e : decimal n = ds := by
    unfold decimal
    rw [h1, List.append_nil]
  rw [e]
  refine ⟨h2, h3, ?_⟩
  rw [h4 0]
  omega

theorem scan_int_decimal (n : Nat) (rest : List Nat)
    (hrest : ∀ c ∈ rest.head?, isdigit c = false) :
    scan_int (decimal n ++ rest) = some ((n : Int), rest) := by
  obtain ⟨h1, h2, h3⟩ := decimal_spec n
  rw [scan_int_digits (decimal n) rest h1 h2 hrest, h3]

theorem zero_not_mem_decimal (n : Nat) : 0 ∉ decimal n := by
  intro h
  have := (decimal_spec n).2.1 0 h
  simp [isdigit] at this

theorem sscanf_status_line (t : List Nat) :
    sscanf ([72, 84, 84, 80, 47, 49, 46, 49, 32, 50, 48, 48, 32] ++ t) "HTTP/%*d.%*d %d OK %*s"
      = [200] := by
  have hfmt : parse_format "HTTP/%*d.%*d %d OK %*s".toList =
      [Directive.lit 72, Directive.lit 84, Directive.lit 84, Directive.lit 80, Directive.lit 47,
        Directive.int false, Directive.lit 46, Directive.int false, Directive.space,
        Directive.int true, Directive.space, Directive.lit 79, Directive.lit 75,
        Directive.space, Directive.skipstr] := by decide
  have i1 : scan_int (49 :: 46 :: 49 :: 32 :: 50 :: 48 :: 48 :: 32 :: t)
      = some (1, 46 :: 49 :: 32 :: 50 :: 48 :: 48 :: 32 :: t) :=
    scan_int_digits [49] _ (by simp) (by decide) (by simp [isdigit])
  have i2 : scan_int (49 :: 32 :: 50 :: 48 :: 48 :: 32 :: t)
      = some (1, 32 :: 50 :: 48 :: 48 :: 32 :: t) :=
    scan_int_digits [49] _ (by simp) (by decide) (by simp [isdigit])
  have i3 : scan_int (50 :: 48 :: 48 :: 32 :: t) = some (200, 32 :: t) :=
    scan_int_digits [50, 48, 48] _ (by simp) (by decide) (by simp [isdigit])
  have hsp : List.dropWhile isspace (32 :: 50 :: 48 :: 48 :: 32 :: t)
      = 50 :: 48 :: 48 :: 32 :: t := by
    simp [List.dropWhile_cons, isspace]
  unfold sscanf
  rw [hfmt]
  simp only [List.cons_append, List.nil_append, sscanf_run_lit]
  simp only [sscanf_run, i1, i2, hsp, i3, if_true, Bool.false_eq_true, if_false,
    List.nil_append]
  iterate 6 (all_goals (try first | rfl | split))

theorem sscanf_content_length (n : Nat) (t : List Nat)
    (ht : ∀ c ∈ t.head?, isdigit c = false) :
    sscanf ([67, 111, 110, 116, 101, 110, 116, 45, 76, 101, 110, 103, 116, 104, 58, 32]
      ++ decimal n ++ t) "Content-Length: %d %*s" = [(n : Int)] := by
  have hfmt : parse_format "Content-Length: %d %*s".toList =
      [Directive.lit 67, Directive.lit 111, Directive.lit 110, Directive.lit 116,
        Directive.lit 101, Directive.lit 110, Directive.lit 116, Directive.lit 45,
        Directive.lit 76, Directive.lit 101, Directive.lit 110, Directive.lit 103,
        Directive.lit 116, Directive.lit 104, Directive.lit 58, Directive.space,
        Directive.int true, Directive.space, Directive.skipstr] := by decide
  obtain ⟨h1, h2, -⟩ := decimal_spec n
  have hsp : List.dropWhile isspace (32 :: (decimal n ++ t)) = decimal n ++ t := by
    cases hd : decimal n with
    | nil => exact absurd hd h1
    | cons d ds =>
      have hdig : isdigit d = true := h2 d (by rw [hd]; simp)
      have hd2 : 48 ≤ d ∧ d ≤ 57 := by simpa [isdigit] using hdig
      have hs : isspace d = false := by
        simp only [isspace, Bool.or_eq_false_iff, beq_eq_false_iff_ne, Bool.and_eq_false_iff,
          decide_eq_false_iff_not]
        constructor <;> omega
      rw [List.dropWhile_cons, if_pos (by decide), List.cons_append, List.dropWhile_cons,
        if_neg (by simp [hs])]
  unfold sscanf
  rw [hfmt]
  simp only [List.cons_append, List.nil_append, List.append_assoc, sscanf_run_lit]
  simp only [sscanf_run, hsp, scan_int_decimal n t ht, if_true, List.nil_append]
  iterate 6 (all_goals (try first | rfl | split))

theorem http_blob_length (front body : List Nat) :
    (http_blob front body).length
      = front.length + 33 + (decimal body.length).length + 4 + body.length := by
  have h1 : (bytes "HTTP/1.1 200 OK\r\nContent-Length: ").length = 33 := by decide
  have h2 : (bytes "\r\n\r\n").length = 4 := by decide
  unfold http_blob
  simp only [List.length_append, h1, h2]

/-- How the code reads a blob of the stated form: the first "HTTP" is the status line, the
status is 200, the first "Content-Length" is the header and the length read is the one
written there. -/
theorem http_blob_read (front body : List Nat) (rc0 bc0 : Nat)
    (hnul : 0 ∉ front)
    (hfirst : ¬ bytes "HTTP" <:+: front ++ bytes "HTT")
    (hcl : ¬ bytes "Content-Length" <:+: front ++ bytes "HTTP/1.1 200 OK\r\nContent-Lengt") :
    http_status (http_blob front body) rc0 = some 200 ∧
    http_content_length (http_blob front body) bc0 = some (to_uint16 (body.length : Int)) := by
  have hH : bytes "HTTP/1.1 200 OK\r\nContent-Length: "
      = [72, 84, 84, 80] ++ [47, 49, 46, 49, 32, 50, 48, 48, 32] ++ [79, 75, 13, 10] ++
        [67, 111, 110, 116, 101, 110, 116, 45, 76, 101, 110, 103, 116, 104] ++ [58, 32] := by
    decide
  have hE : bytes "\r\n\r\n" = [13, 10, 13, 10] := by decide
  have hN1 : bytes "HTTP" = [72, 84, 84, 80] := by decide
  have hN2 : bytes "Content-Length"
      = [67, 111, 110, 116, 101, 110, 116, 45, 76, 101, 110, 103, 116, 104] := by decide
  have hP1 : bytes "HTT" = [72, 84, 84] := by decide
  have hP2 : bytes "HTTP/1.1 200 OK\r\nContent-Lengt"
      = [72, 84, 84, 80, 47, 49, 46, 49, 32, 50, 48, 48, 32, 79, 75, 13, 10] ++
        [67, 111, 110, 116, 101, 110, 116, 45, 76, 101, 110, 103, 116] := by decide
  rw [hN1, hP1] at hfirst
  rw [hN2, hP2] at hcl
  have hc : cstr (http_blob front body)
      = front ++ [72, 84, 84, 80] ++ ([47, 49, 46, 49, 32, 50, 48, 48, 32] ++ ([79, 75, 13, 10] ++
        ([67, 111, 110, 116, 101, 110, 116, 45, 76, 101, 110, 103, 116, 104] ++ ([58, 32] ++
        (decimal body.length ++ ([13, 10, 13, 10] ++ cstr body)))))) := by
    unfold http_blob
    rw [hH, hE]
    have h0 : 0 ∉ front ++ ([72, 84, 84, 80] ++ [47, 49, 46, 49, 32, 50, 48, 48, 32] ++
        [79, 75, 13, 10] ++ [67, 111, 110, 116, 101, 110, 116, 45, 76, 101, 110, 103, 116, 104]
        ++ [58, 32]) ++ decimal body.length ++ [13, 10, 13, 10] := by
      simp only [List.mem_append, not_or]
      exact ⟨⟨⟨hnul, by decide⟩, zero_not_mem_decimal _⟩, by decide⟩
    rw [cstr_append_of_not_mem body h0]
    simp only [List.append_assoc]
  have hs1 : strstr (cstr (http_blob front body)) [72, 84, 84, 80] = some front.length := by
    rw [hc]
    exact strstr_append_first [72, 84, 84, 80] (by simp) front _ hfirst
  have hs2 : strstr (cstr (http_blob front body))
      [67, 111, 110, 116, 101, 110, 116, 45, 76, 101, 110, 103, 116, 104]
      = some (front.length + 17) := by
    have hc2 : cstr (http_blob front body)
        = (front ++ [72, 84, 84, 80, 47, 49, 46, 49, 32, 50, 48, 48, 32, 79, 75, 13, 10]) ++
          [67, 111, 110, 116, 101, 110, 116, 45, 76, 101, 110, 103, 116, 104] ++ ([58, 32] ++
          (decimal body.length ++ ([13, 10, 13, 10] ++ cstr body))) := by
      rw [hc]
      simp only [List.append_assoc, List.cons_append, List.nil_append]
    rw [hc2]
    have := strstr_append_first
      [67, 111, 110, 116, 101, 110, 116, 45, 76, 101, 110, 103, 116, 104] (by simp)
      (front ++ [72, 84, 84, 80, 47, 49, 46, 49, 32, 50, 48, 48, 32, 79, 75, 13, 10])
      ([58, 32] ++ (decimal body.length ++ ([13, 10, 13, 10] ++ cstr body)))
      (by simpa only [List.append_assoc, List.dropLast, List.cons_append, List.nil_append]
        using hcl)
    rw [this]
    simp
  constructor
  · unfold http_status
    rw [hN1, hs1]
    simp only
    have hd : (cstr (http_blob front body)).drop front.length
        = [72, 84, 84, 80, 47, 49, 46, 49, 32, 50, 48, 48, 32] ++ ([79, 75, 13, 10] ++
          ([67, 111, 110, 116, 101, 110, 116, 45, 76, 101, 110, 103, 116, 104] ++ ([58, 32] ++
          (decimal body.length ++ ([13, 10, 13, 10] ++ cstr body))))) := by
      rw [hc]
      simp only [List.append_assoc]
      rw [List.drop_left]
      rfl
    rw [hd, sscanf_status_line]
    rfl
  · unfold http_content_length
    rw [hN2, hs2]
    simp only
    have hd : (cstr (http_blob front body)).drop (front.length + 17)
        = [67, 111, 110, 116, 101, 110, 116, 45, 76, 101, 110, 103, 116, 104, 58, 32]
          ++ decimal body.length ++ ([13, 10, 13, 10] ++ cstr body) := by
      rw [hc]
      have e : front ++ [72, 84, 84, 80] ++ ([47, 49, 46, 49, 32, 50, 48, 48, 32] ++
          ([79, 75, 13, 10] ++
          ([67, 111, 110, 116, 101, 110, 116, 45, 76, 101, 110, 103, 116, 104] ++ ([58, 32] ++
          (decimal body.length ++ ([13, 10, 13, 10] ++ cstr body))))))
          = (front ++ [72, 84, 84, 80, 47, 49, 46, 49, 32, 50, 48, 48, 32, 79, 75, 13, 10]) ++
            ([67, 111, 110, 116, 101, 110, 116, 45, 76, 101, 110, 103, 116, 104, 58, 32]
              ++ decimal body.length ++ ([13, 10, 13, 10] ++ cstr body)) := by
        simp only [List.append_assoc, List.cons_append, List.nil_append]
      rw [e, List.drop_left' (by simp)]
    rw [hd, sscanf_content_length _ _ (by simp [isdigit])]

/-- Where `http_response` points after a 200, for a blob that ends in CR, LF and a body of the
length read after "Content-Length". -/
theorem http_get_slice (s : State) (w : World) (URL : List Nat) (rc0 bc0 : Nat)
    (front body : List Nat)
    (hbuf : s.http_buffer.length = A9_HTTP_BUFFER_SIZE)
    (hfit : (http_get_command URL).length < A9_HTTP_BUFFER_SIZE)
    (hret : (http_get s w URL rc0 bc0).ret = some 200)
    (hblob : http_burst s w = front ++ 13 :: 10 :: body)
    (hcl : http_content_length (http_burst s w) bc0 = some body.length) :
    (http_get s w URL rc0 bc0).state.http_response = (front.length : Int) ∧
    read_http_response (http_get s w URL rc0 bc0).state = some (13 :: 10 :: cstr body) := by
  rw [http_get_eq] at hret ⊢
  obtain ⟨h1, h2⟩ := http_exchange_summary s w (http_get_command URL) rc0 bc0 hbuf hfit
  rw [h1] at hret
  unfold http_ret at hret
  have hack : (http_ack s w).ret = some 0 := by
    rcases http_ack_returns s w with h | h
    · exact h
    · rw [h] at hret
      simp at hret
  rw [hack] at hret
  simp only [show ¬ ((0 : Int) = -1) by decide, if_false] at hret
  obtain ⟨hpos, hlt, -, cl, hcl2, -, hoff⟩ := http_parse_200 (Option.some.inj hret)
  have hcl3 : cl = body.length := by
    rw [hcl] at hcl2
    exact (Option.some.inj hcl2).symm
  subst hcl3
  have hlen : (http_burst s w).length = front.length + 2 + body.length := by
    rw [hblob]
    simp only [List.length_append, List.length_cons]
    omega
  have hresp : (http_exchange s w (http_get_command URL) rc0 bc0).state.http_response
      = (front.length : Int) := by
    rw [h2]
    unfold http_resp
    rw [hack]
    simp only [show ¬ ((0 : Int) = -1) by decide, if_false]
    rw [hoff, hlen]
    simp only [Option.getD_some]
    push_cast
    omega
  refine ⟨hresp, ?_⟩
  unfold read_http_response
  rw [hresp]
  have hsz : A9_HTTP_BUFFER_SIZE = 2048 := rfl
  rw [if_pos ⟨by omega, by rw [hsz] at hlt ⊢; push_cast; omega⟩]
  rw [http_exchange_buffer s w _ rc0 bc0 hfit hack, Int.toNat_ofNat]
  rw [drop_burst_buffer _ _ _ (by
    rw [List.length_set, poke_length, hbuf]
    rw [hsz] at hlt ⊢
    omega) (by omega)]
  rw [hblob, List.drop_left]
  have e : 13 :: 10 :: body = [13, 10] ++ body := rfl
  rw [e, cstr_append_of_not_mem body (by decide)]
  rfl

/-- C2 (as amended): in an acknowledged exchange whose command fits `http_buffer`, let the
response blob be `front`, "HTTP/1.1 200 OK", CR LF, "Content-Length: n", CR LF, CR LF, `body`,
where `n` is the number of bytes of `body` in decimal, the blob has at most
`A9_HTTP_BUFFER_SIZE - 2` bytes, and `front` holds no NUL, no "HTTP" before the status line
and no "Content-Length" before the header. Then `http_get` returns 200 and `http_response`
points `n + 2` bytes before the end of the blob, at the CR LF that closes the header block:
`read_http_response()` is CR, LF and the body up to its first NUL, two bytes more than the
body. -/
theorem c2_body_slice (s : State) (w : World) (URL : List Nat) (rc0 bc0 : Nat)
    (front body : List Nat)
    (hbuf : s.http_buffer.length = A9_HTTP_BUFFER_SIZE)
    (hfit : (http_get_command URL).length < A9_HTTP_BUFFER_SIZE)
    (hack : (http_ack s w).ret = some 0)
    (hblob : http_burst s w = http_blob front body)
    (hlen : (http_blob front body).length < A9_HTTP_BUFFER_SIZE - 1)
    (hnul : 0 ∉ front)
    (hfirst : ¬ bytes "HTTP" <:+: front ++ bytes "HTT")
    (hcl : ¬ bytes "Content-Length" <:+: front ++ bytes "HTTP/1.1 200 OK\r\nContent-Lengt") :
    (http_get s w URL rc0 bc0).ret = some 200 ∧
    (http_get s w URL rc0 bc0).state.http_response
      = ((http_blob front body).length : Int) - (body.length : Int) - 2 ∧
    read_http_response (http_get s w URL rc0 bc0).state = some (13 :: 10 :: cstr body) ∧
    (0 ∉ body →
      read_http_response (http_get s w URL rc0 bc0).state = some (bytes "\r\n" ++ body)) ∧
    read_http_response (http_get s w URL rc0 bc0).state ≠ some body := by
  obtain ⟨hst, hcl2⟩ := http_blob_read front body rc0 bc0 hnul hfirst hcl
  have hL := http_blob_length front body
  have hsz : A9_HTTP_BUFFER_SIZE - 1 = 2047 := rfl
  rw [hsz] at hlen
  have hn : to_uint16 (body.length : Int) = body.length := by
    unfold to_uint16
    omega
  rw [hn] at hcl2
  have hret : (http_get s w URL rc0 bc0).ret = some 200 := by
    rw [http_get_eq, (http_exchange_summary s w (http_get_command URL) rc0 bc0 hbuf hfit).1]
    unfold http_ret
    rw [hack]
    simp only [show ¬ ((0 : Int) = -1) by decide, if_false]
    unfold http_parse
    rw [hblob, hsz, if_neg (by omega), if_neg (by omega), hst]
    simp only [ne_eq, not_true_eq_false, if_false, hcl2]
  have hE : bytes "\r\n\r\n" = [13, 10] ++ [13, 10] := by decide
  have hsplit : http_blob front body
      = (front ++ bytes "HTTP/1.1 200 OK\r\nContent-Length: " ++ decimal body.length
          ++ [13, 10]) ++ 13 :: 10 :: body := by
    unfold http_blob
    rw [hE]
    simp only [List.append_assoc, List.cons_append, List.nil_append]
  obtain ⟨g1, g2⟩ := http_get_slice s w URL rc0 bc0
    (front ++ bytes "HTTP/1.1 200 OK\r\nContent-Length: " ++ decimal body.length ++ [13, 10])
    body hbuf hfit hret (by rw [hblob]; exact hsplit) (by rw [hblob]; exact hcl2)
  refine ⟨hret, ?_, g2, ?_, ?_⟩
  · rw [g1, hL]
    have h1 : (bytes "HTTP/1.1 200 OK\r\nContent-Length: ").length = 33 := by decide
    simp only [List.length_append, h1, List.length_cons, List.length_nil]
    push_cast
    omega
  · intro h0
    rw [g2, cstr_eq_self h0]
    rfl
  · rw [g2]
    intro h
    have hb := Option.some.inj h
    have h0 : 0 ∉ body := by
      rw [← hb]
      simp only [List.mem_cons, not_or]
      exact ⟨by decide, by decide, zero_not_mem_cstr body⟩
    rw [cstr_eq_self h0] at hb
    have h2 := congrArg List.length hb
    simp only [List.length_cons] at h2
    omega

/-- C2 witness: the blob "HTTP/1.1 200 OK", "Content-Length: 5", an empty line and "hello",
after the line the modem puts in front. -/
theorem c2_body_slice_witness :
    fresh.http_buffer.length = A9_HTTP_BUFFER_SIZE ∧
    http_blob (bytes "\r\n+GET:\r\n") (bytes "hello")
      = bytes "\r\n+GET:\r\nHTTP/1.1 200 OK\r\nContent-Length: 5\r\n\r\nhello" ∧
    (http_get fresh (answering (http_blob (bytes "\r\n+GET:\r\n") (bytes "hello")))
      (bytes "http://a.b/c") 0 0).ret = some 200 ∧
    read_http_response
      (http_get fresh (answering (http_blob (bytes "\r\n+GET:\r\n") (bytes "hello")))
        (bytes "http://a.b/c") 0 0).state = some (bytes "\r\n" ++ bytes "hello") :=
  ⟨List.length_replicate 2048 0, by decide,
    (c2_body_slice fresh (answering (http_blob (bytes "\r\n+GET:\r\n") (bytes "hello")))
      (bytes "http://a.b/c") 0 0 (bytes "\r\n+GET:\r\n") (bytes "hello")
      (List.length_replicate 2048 0) (by decide) (by decide) (by decide) (by decide)
      (by decide) (by decide) (by decide)).1,
    (c2_body_slice fresh (answering (http_blob (bytes "\r\n+GET:\r\n") (bytes "hello")))
      (bytes "http://a.b/c") 0 0 (bytes "\r\n+GET:\r\n") (bytes "hello")
      (List.length_replicate 2048 0) (by decide) (by decide) (by decide) (by decide)
      (by decide) (by decide) (by decide)).2.2.2.1 (by decide)⟩

theorem uart_read_all (w : World) (length ticks : Nat)
    (h1 : ∀ p ∈ w.rx, p.1 ≤ w.now + ticks * portTICK_PERIOD_MS)
    (h2 : w.rx.length ≤ length) :
    (uart_read_bytes w length ticks).1 = w.rx.map Prod.snd := by
  have ht : w.rx.takeWhile (fun p => decide (p.1 ≤ w.now + ticks * portTICK_PERIOD_MS)) = w.rx := by
    rw [List.takeWhile_eq_self_iff]
    intro p hp
    simpa using h1 p hp
  unfold uart_read_bytes
  simp only [ht, List.take_of_length_le h2]

theorem http_get_buffer_full (s : State) (w : World) (URL : List Nat) (rc0 bc0 : Nat)
    (hbuf : s.http_buffer.length = A9_HTTP_BUFFER_SIZE)
    (hfit : (http_get_command URL).length < A9_HTTP_BUFFER_SIZE)
    (hack : (http_ack s w).ret = some 0)
    (hlen : A9_HTTP_BUFFER_SIZE - 1 ≤ (http_burst s w).length) :
    (http_get s w URL rc0 bc0).ret = some (-2) := by
  rw [http_get_eq, (http_exchange_summary s w (http_get_command URL) rc0 bc0 hbuf hfit).1]
  unfold http_ret
  rw [hack]
  simp only [show ¬ ((0 : Int) = -1) by decide, if_false]
  unfold http_parse
  rw [if_pos hlen]

theorem http_burst_all (s : State) (w : World) (t : Nat) (blob : List Nat)
    (hrx : (http_ack s w).world.rx = arriving_at t blob)
    (ht : t ≤ (http_ack s w).world.now + 750)
    (hlen : blob.length ≤ A9_HTTP_BUFFER_SIZE - 1) :
    http_burst s w = blob := by
  unfold http_burst
  rw [uart_read_all]
  · show ((http_ack s w).world.rx).map Prod.snd = blob
    rw [hrx, map_snd_arriving_at]
  · intro p hp
    have hp2 : p ∈ (http_ack s w).world.rx := hp
    rw [hrx] at hp2
    rw [mem_arriving_at hp2]
    show t ≤ (http_ack s w).world.now + 250 / portTICK_PERIOD_MS
      * portTICK_PERIOD_MS + 500 / portTICK_PERIOD_MS * portTICK_PERIOD_MS
    unfold portTICK_PERIOD_MS
    omega
  · show ((http_ack s w).world.rx).length ≤ A9_HTTP_BUFFER_SIZE - 1
    rw [hrx]
    unfold arriving_at
    rw [List.length_map]
    exact hlen

/-- A blob of the stated form that is one byte shorter than the response buffer makes
`http_get` return -2. -/
theorem http_get_full_blob (n : Nat)
    (hlen : (http_blob [] (List.replicate n 65)).length = A9_HTTP_BUFFER_SIZE - 1) :
    (http_ack fresh (answering (http_blob [] (List.replicate n 65)))).ret = some 0 ∧
    http_burst fresh (answering (http_blob [] (List.replicate n 65)))
      = http_blob [] (List.replicate n 65) ∧
    (http_get fresh (answering (http_blob [] (List.replicate n 65)))
      (bytes "http://a.b/c") 0 0).ret = some (-2) := by
  generalize http_blob [] (List.replicate n 65) = blob at hlen ⊢
  have hok : bytes "OK\r\n" = [79, 75, 13, 10] := by decide
  have hrx : (flush_serial (answering blob)).rx
      = arriving_at 10 (bytes "OK\r\n") ++ arriving_at 400 blob := by
    rw [hok]
    simp [flush_serial, uart_flush_input, answering, arriving_at, hok]
  have hnow : (flush_serial (answering blob)).now = 0 := rfl
  have harr : ArrivesInTime (flush_serial (answering blob)) (bytes "OK") 45000 (bytes "OK\r\n")
      (arriving_at 400 blob) := by
    refine ⟨arriving_at 10 (bytes "OK\r\n"), [], hrx, by decide, by simp, by decide, by decide,
      ?_⟩
    intro p hp
    rw [mem_arriving_at hp, hnow]
    decide
  obtain ⟨a1, a2, -, a4, -⟩ := wait_of_arrives fresh.receive_buffer
    (flush_serial (answering blob)) (bytes "OK") 45000 (bytes "OK\r\n") (arriving_at 400 blob)
    (List.length_replicate 2048 0) (by norm_num) (by norm_num) harr
  have hack : (http_ack fresh (answering blob)).ret = some 0 := by
    unfold http_ack
    exact a1
  have hrx2 : (http_ack fresh (answering blob)).world.rx = arriving_at 400 blob := by
    unfold http_ack
    exact a2
  have hburst : http_burst fresh (answering blob) = blob :=
    http_burst_all fresh (answering blob) 400 blob hrx2 (by omega) (by rw [hlen])
  exact ⟨hack, hburst, http_get_buffer_full fresh (answering blob) (bytes "http://a.b/c") 0 0
    (List.length_replicate 2048 0) (by decide) hack (by rw [hburst, hlen])⟩

set_option maxRecDepth 10000 in
/-- C2 counterexample, all blobs of the form the claim describes, acknowledged, with body
"hello" unless said otherwise. (1) No prefix: `http_get` returns 200, the offset is
43 - 5 - 2 = 36 and `read_http_response()` is CR, LF, "hello", not "hello". (2) The prefix
"+HTTP", CR, LF: the first "HTTP" is not the status line, nothing is assigned to the status
and `http_get` returns what the local held (here 0 or 404), not 200. (3) The prefix is a NUL
byte: the C string is empty and `http_get` returns -4. (4) The prefix "Content-Length: 99",
CR, LF: `http_get` returns 200 with the offset 63 - 99 - 2 = -38, before the buffer. (5) The
body is 2006 times "A": the blob has 2047 bytes, is shorter than the response buffer of 2048,
and `http_get` returns -2. -/
theorem c2_counterexample :
    ((http_get fresh (answering (http_blob [] (bytes "hello")))
        (bytes "http://a.b/c") 0 0).ret = some 200 ∧
      (http_get fresh (answering (http_blob [] (bytes "hello")))
        (bytes "http://a.b/c") 0 0).state.http_response = 36 ∧
      read_http_response (http_get fresh (answering (http_blob [] (bytes "hello")))
        (bytes "http://a.b/c") 0 0).state = some (bytes "\r\nhello") ∧
      bytes "\r\nhello" ≠ bytes "hello") ∧
    ((http_ack fresh (answering (http_blob (bytes "+HTTP\r\n") (bytes "hello")))).ret = some 0 ∧
      (http_get fresh (answering (http_blob (bytes "+HTTP\r\n") (bytes "hello")))
        (bytes "http://a.b/c") 0 0).ret = some 0 ∧
      (http_get fresh (answering (http_blob (bytes "+HTTP\r\n") (bytes "hello")))
        (bytes "http://a.b/c") 404 0).ret = some 404) ∧
    ((http_ack fresh (answering (http_blob [0] (bytes "hello")))).ret = some 0 ∧
      (http_get fresh (answering (http_blob [0] (bytes "hello")))
        (bytes "http://a.b/c") 0 0).ret = some (-4)) ∧
    ((http_get fresh (answering (http_blob (bytes "Content-Length: 99\r\n") (bytes "hello")))
        (bytes "http://a.b/c") 0 0).ret = some 200 ∧
      (http_get fresh (answering (http_blob (bytes "Content-Length: 99\r\n") (bytes "hello")))
        (bytes "http://a.b/c") 0 0).state.http_response = -38 ∧
      read_http_response
        (http_get fresh
          (answering (http_blob (bytes "Content-Length: 99\r\n") (bytes "hello")))
          (bytes "http://a.b/c") 0 0).state = none) ∧
    ((http_blob [] (List.replicate 2006 65)).length = 2047 ∧
      2047 < A9_HTTP_BUFFER_SIZE ∧
      (http_ack fresh (answering (http_blob [] (List.replicate 2006 65)))).ret = some 0 ∧
      http_burst fresh (answering (http_blob [] (List.replicate 2006 65)))
        = http_blob [] (List.replicate 2006 65) ∧
      (http_get fresh (answering (http_blob [] (List.replicate 2006 65)))
        (bytes "http://a.b/c") 0 0).ret = some (-2)) := by
  have hl : (http_blob [] (List.replicate 2006 65)).length = 2047 := by
    rw [http_blob_length, List.length_replicate]
    have : decimal 2006 = [50, 48, 48, 54] := by decide
    rw [this]
    rfl
  obtain ⟨e1, e2, e3⟩ := http_get_full_blob 2006 hl
  exact ⟨⟨by decide, by decide, by decide, by decide⟩, ⟨by decide, by decide, by decide⟩,
    ⟨by decide, by decide⟩, ⟨by decide, by decide, by decide⟩, ⟨hl, by decide, e1, e2, e3⟩⟩

/-! ## C6 -/

end A9
